import Mathlib

/-!
# File consistency checker (`FileConsistencyChecker.c`)

A shallow embedding of the repair stages of the checker and the properties of
those stages.

Modelling conventions.

* `uint32_t` and `uint8_t` values are natural numbers.  A byte that the code
  stores after a bit operation is reduced modulo 256.
* The image is seen through the regions the stages address with the geometry
  that `main` hands to them: the inode-bitmap block, the data-bitmap block and
  the inode table.  A bitmap block is a map from byte offset to byte value, the
  inode table a map from inode index to inode record.
* A stage reads `inode_count`, `first_data_block` and `total_blocks` from the
  superblock that `main` hands to it.  After the superblock check of `main` these
  are the values of `sb1`, so the stages are studied at `sb1`.
* Every `fopen`, `fseek`, `fread`, `fwrite` and `malloc` of a stage succeeds.
* `block_counts` in `checkDuplicateBlocks` is a stack array of `TOTAL_BLOCKS`
  entries.  An access with an index outside the array has no defined outcome;
  the model returns `none` for such a run.
-/

namespace FileConsistencyChecker

/-! ## Constants and records -/

def MAGIC : Nat := 0xD34D
def TOTAL_BLOCKS : Nat := 64
def DESIRED_BLOCK_SIZE : Nat := 4096
def INODE_SIZE : Nat := 256

/-- The record `struct Superblock`. -/
structure Superblock where
  inode_count : Nat
  inode_bitmap_block : Nat
  data_bitmap_block : Nat
  first_data_block : Nat
  magic_bytes : Nat
  block_size : Nat
  total_blocks : Nat
  inode_table_start : Nat
  inode_size : Nat
  reserved : List Nat
  deriving DecidableEq

/-- The record `struct Inode`. -/
structure Inode where
  mode : Nat
  user_id : Nat
  group_id : Nat
  file_size : Nat
  last_access_time : Nat
  creation_time : Nat
  last_modification_time : Nat
  deletion_time : Nat
  hard_links : Nat
  data_blocks : Nat
  direct_block_pointer : Nat
  single_indirect_pointer : Nat
  double_indirect_pointer : Nat
  triple_indirect_pointer : Nat
  reserved : List Nat
  deriving DecidableEq

/-- The regions of `vsfs.img` that the stages read and write. -/
structure Image where
  inode_bitmap : Nat → Nat
  data_bitmap : Nat → Nat
  inodes : Nat → Inode

/-- The test `inode.hard_links > 0 && inode.deletion_time == 0` that every stage
applies to an inode record (the record is live). -/
def Inode.valid (inode : Inode) : Bool :=
  decide (inode.hard_links > 0) && inode.deletion_time == 0

/-- The superblock `sb1` that `main` builds from the constants. -/
def sb1 : Superblock :=
  { magic_bytes := MAGIC
    block_size := DESIRED_BLOCK_SIZE
    total_blocks := TOTAL_BLOCKS
    inode_bitmap_block := 1
    data_bitmap_block := 2
    inode_table_start := 3
    first_data_block := 8
    inode_size := INODE_SIZE
    inode_count := (8 - 3) * (DESIRED_BLOCK_SIZE / INODE_SIZE)
    reserved := [] }

/-! ## Bitmap utilities -/

/-- The C expression `(bitmap[i / 8] & (1 << (7 - (i % 8)))) ? 1 : 0`. -/
def maskBit (bitmap : Nat → Nat) (i : Nat) : Nat :=
  if bitmap (i / 8) &&& (1 <<< (7 - i % 8)) ≠ 0 then 1 else 0

/-- The C statement `bitmap[i / 8] |= (1 << (7 - (i % 8)))` on a `uint8_t` buffer. -/
def orMask (bitmap : Nat → Nat) (i : Nat) : Nat → Nat :=
  Function.update bitmap (i / 8) ((bitmap (i / 8) ||| (1 <<< (7 - i % 8))) % 256)

/-- The C statement `bitmap[i / 8] &= ~(1 << (7 - (i % 8)))` on a `uint8_t`
buffer: the complement is taken on a 32-bit `int`. -/
def andNotMask (bitmap : Nat → Nat) (i : Nat) : Nat → Nat :=
  Function.update bitmap (i / 8)
    ((bitmap (i / 8) &&& (2 ^ 32 - 1 - (1 <<< (7 - i % 8)))) % 256)

/-- The loop of `findFreeBlock`, started at `block` with `fuel` iterations left. -/
def findFreeBlockFrom (bitmap : Nat → Nat) (total_blocks : Nat) : Nat → Nat → Nat
  | 0, _ => 0
  | fuel + 1, block =>
    if block < total_blocks then
      let byte := block / 8
      let bit := 7 - (block % 8)
      if ((bitmap byte >>> bit) &&& 1) = 0 then block
      else findFreeBlockFrom bitmap total_blocks fuel (block + 1)
    else 0

/-- The function `findFreeBlock`: the loop runs at most
`total_blocks - first_block` times. -/
def findFreeBlock (bitmap : Nat → Nat) (total_blocks first_block : Nat) : Nat :=
  findFreeBlockFrom bitmap total_blocks (total_blocks - first_block) first_block

/-- The function `markBlockUsed`. -/
def markBlockUsed (bitmap : Nat → Nat) (block : Nat) : Nat → Nat :=
  let byte := block / 8
  let bit := 7 - (block % 8)
  Function.update bitmap byte ((bitmap byte ||| (1 <<< bit)) % 256)

/-! ## The superblock check of `main` -/

/-- The superblock check of `main` (lines 129-181): the record read at offset
1024 is compared with the expected layout and overwritten when it differs.  The
result is the record held in `sb` afterwards and whether it was written back. -/
def superblockCheck (sb : Superblock) : Superblock × Bool :=
  let expected_inode_bitmap_start := 1
  let expected_data_bitmap_start := 2
  let expected_inode_table_start := 3
  let expected_data_block_start := 8
  let expected_inode_size := INODE_SIZE
  let inode_table_blocks := expected_data_block_start - expected_inode_table_start
  let calculated_total_inodes := inode_table_blocks * (DESIRED_BLOCK_SIZE / INODE_SIZE)
  let expected_total_blocks := TOTAL_BLOCKS
  let expected_block_size := DESIRED_BLOCK_SIZE
  if sb.inode_bitmap_block = expected_inode_bitmap_start ∧
      sb.data_bitmap_block = expected_data_bitmap_start ∧
      sb.inode_table_start = expected_inode_table_start ∧
      sb.first_data_block = expected_data_block_start ∧
      sb.inode_size = expected_inode_size ∧
      sb.inode_count = calculated_total_inodes ∧
      sb.total_blocks = expected_total_blocks ∧
      sb.block_size = expected_block_size then
    (sb, false)
  else
    ({ sb with
        inode_bitmap_block := expected_inode_bitmap_start
        data_bitmap_block := expected_data_bitmap_start
        inode_table_start := expected_inode_table_start
        first_data_block := expected_data_block_start
        inode_size := expected_inode_size
        total_blocks := expected_total_blocks
        block_size := expected_block_size
        inode_count := calculated_total_inodes }, true)

/-! ## Root inode repair -/

/-- The function `updateInode0IfNeeded`. -/
def updateInode0IfNeeded (sb : Superblock) (img : Image) : Image :=
  let inode0 := img.inodes 0
  if !(decide (inode0.hard_links > 0) && inode0.deletion_time == 0) then
    let inode0 : Inode :=
      { mode := 0x1FF
        user_id := 1000
        group_id := 1000
        file_size := DESIRED_BLOCK_SIZE
        last_access_time := 1680000000
        creation_time := 1670000000
        last_modification_time := 1690000000
        deletion_time := 0
        hard_links := 1
        data_blocks := 1
        direct_block_pointer := sb.first_data_block
        single_indirect_pointer := 0
        double_indirect_pointer := 0
        triple_indirect_pointer := 0
        reserved := List.replicate 156 0 }
    { img with inodes := Function.update img.inodes 0 inode0 }
  else img

/-! ## Bitmap reconciliation -/

/-- One iteration of the inode loop of `checkInodeBitmapConsistency`; the state
is the in-memory bitmap and the flag `modified`. -/
def inodeBitmapBody (inodes : Nat → Inode) (s : (Nat → Nat) × Bool) (i : Nat) :
    (Nat → Nat) × Bool :=
  let inode := inodes i
  let valid := decide (inode.hard_links > 0) && inode.deletion_time == 0
  let bit := maskBit s.1 i
  if valid && bit == 0 then (orMask s.1 i, true)
  else if !valid && bit == 1 then (andNotMask s.1 i, true)
  else s

/-- The function `checkInodeBitmapConsistency`; the result is the image and the
final value of `modified`.  The bitmap block is written only when `modified`. -/
def checkInodeBitmapConsistency (sb : Superblock) (img : Image) : Image × Bool :=
  let total_inodes := sb.inode_count
  let s := (List.range total_inodes).foldl (inodeBitmapBody img.inodes)
    (img.inode_bitmap, false)
  if s.2 then ({ img with inode_bitmap := s.1 }, true) else (img, false)

/-- One iteration of the first loop of `checkDataBitmapConsistency`, which fills
`dataBlockReferenced`. -/
def referencedBody (sb : Superblock) (inodes : Nat → Inode) (referenced : Nat → Bool)
    (i : Nat) : Nat → Bool :=
  let inode := inodes i
  let valid := decide (inode.hard_links > 0) && inode.deletion_time == 0
  if valid then
    let ptr := inode.direct_block_pointer
    if ptr ≠ 0 ∧ ptr ≥ sb.first_data_block ∧ ptr < sb.total_blocks then
      Function.update referenced ptr true
    else referenced
  else referenced

/-- One iteration of the second loop of `checkDataBitmapConsistency`. -/
def dataBitmapBody (referenced : Nat → Bool) (s : (Nat → Nat) × Bool) (block : Nat) :
    (Nat → Nat) × Bool :=
  let bit := maskBit s.1 block
  if bit == 1 && !referenced block then (andNotMask s.1 block, true)
  else if referenced block && bit == 0 then (orMask s.1 block, true)
  else s

/-- The function `checkDataBitmapConsistency`; the result is the image and the
final value of `modified`.  The bitmap block is written only when `modified`. -/
def checkDataBitmapConsistency (sb : Superblock) (img : Image) : Image × Bool :=
  let total_inodes := sb.inode_count
  let referenced := (List.range total_inodes).foldl (referencedBody sb img.inodes)
    (fun _ => false)
  let s := (List.range' sb.first_data_block (sb.total_blocks - sb.first_data_block)).foldl
    (dataBitmapBody referenced) (img.data_bitmap, false)
  if s.2 then ({ img with data_bitmap := s.1 }, true) else (img, false)

/-! ## Bad-block repair -/

/-- One iteration of the loop `for (int j = 0; j < 4; j++)` of `checkBadBlocks`
for the inode with index `i`.  The state is the local array `blocks`, the inode
table on the image and `found_bad`.  The assignment `blocks[j] = 0` changes the
local array; the record passed to `fwrite` is the local `inode`. -/
def badBlockInner (sb : Superblock) (inode : Inode) (i : Nat)
    (s : List Nat × (Nat → Inode) × Bool) (j : Nat) : List Nat × (Nat → Inode) × Bool :=
  let block := s.1.getD j 0
  if block ≠ 0 ∧ (block < sb.first_data_block ∨ block ≥ sb.total_blocks) then
    (s.1.set j 0, Function.update s.2.1 i inode, true)
  else s

/-- One iteration of the inode loop of `checkBadBlocks`; the state is the inode
table on the image and `found_bad`. -/
def badBlockBody (sb : Superblock) (s : (Nat → Inode) × Bool) (i : Nat) :
    (Nat → Inode) × Bool :=
  let inode := s.1 i
  if inode.hard_links > 0 ∧ inode.deletion_time = 0 then
    let blocks := [inode.direct_block_pointer, inode.single_indirect_pointer,
      inode.double_indirect_pointer, inode.triple_indirect_pointer]
    let r := (List.range 4).foldl (badBlockInner sb inode i) (blocks, s.1, s.2)
    (r.2.1, r.2.2)
  else s

/-- The function `checkBadBlocks`; the result is the image and the final value
of `found_bad`. -/
def checkBadBlocks (sb : Superblock) (img : Image) : Image × Bool :=
  let total_inodes := sb.inode_count
  let s := (List.range total_inodes).foldl (badBlockBody sb) (img.inodes, false)
  ({ img with inodes := s.1 }, s.2)

/-! ## Duplicate-block repair -/

/-- A read of `block_counts[block]`; the array has `TOTAL_BLOCKS` entries. -/
def readCount (block_counts : Nat → Nat) (block : Nat) : Option Nat :=
  if block < TOTAL_BLOCKS then some (block_counts block) else none

/-- The statement `block_counts[block]++`. -/
def incrCount (block_counts : Nat → Nat) (block : Nat) : Option (Nat → Nat) :=
  if block < TOTAL_BLOCKS then
    some (Function.update block_counts block (block_counts block + 1))
  else none

/-- The statement `block_counts[block]--`. -/
def decrCount (block_counts : Nat → Nat) (block : Nat) : Option (Nat → Nat) :=
  if block < TOTAL_BLOCKS then
    some (Function.update block_counts block (block_counts block - 1))
  else none

/-- One iteration of the first inode loop of `checkDuplicateBlocks`, which
fills `block_counts`. -/
def countBody (sb : Superblock) (inodes : Nat → Inode) (block_counts : Nat → Nat)
    (i : Nat) : Option (Nat → Nat) :=
  let inode := inodes i
  if inode.hard_links > 0 ∧ inode.deletion_time = 0 then
    let block := inode.direct_block_pointer
    if block ≠ 0 ∧ block ≥ sb.first_data_block ∧ block < sb.total_blocks then
      incrCount block_counts block
    else some block_counts
  else some block_counts

/-- The state of the second inode loop of `checkDuplicateBlocks`: the inode
table on the image (each changed record is written at once), the in-memory
`data_bitmap`, `block_counts`, `found_duplicates`, and whether the message
"No free blocks for duplicate fix." has been printed. -/
structure DupState where
  inodes : Nat → Inode
  data_bitmap : Nat → Nat
  block_counts : Nat → Nat
  found_duplicates : Bool
  no_free_blocks : Bool

/-- One iteration of the second inode loop of `checkDuplicateBlocks`. -/
def reassignBody (sb : Superblock) (s : DupState) (i : Nat) : Option DupState :=
  let inode := s.inodes i
  if inode.hard_links > 0 ∧ inode.deletion_time = 0 then
    let block := inode.direct_block_pointer
    if block ≠ 0 then
      (readCount s.block_counts block).bind fun count =>
      if count > 1 then
        let new_block := findFreeBlock s.data_bitmap sb.total_blocks sb.first_data_block
        if new_block = 0 then
          some { s with no_free_blocks := true }
        else
          let inode := { inode with direct_block_pointer := new_block }
          let data_bitmap := markBlockUsed s.data_bitmap new_block
          (decrCount s.block_counts block).bind fun block_counts =>
          (incrCount block_counts new_block).bind fun block_counts =>
          some { s with
            inodes := Function.update s.inodes i inode
            data_bitmap := data_bitmap
            block_counts := block_counts
            found_duplicates := true }
      else some s
    else some s
  else some s

/-- The outcome of `checkDuplicateBlocks`: the image left behind, the final
value of `found_duplicates`, and whether "No free blocks for duplicate fix."
was printed. -/
structure DupResult where
  image : Image
  found_duplicates : Bool
  no_free_blocks : Bool

/-- The two inode loops of `checkDuplicateBlocks`. -/
def duplicatePasses (sb : Superblock) (img : Image) : Option DupState :=
  let total_inodes := sb.inode_count
  ((List.range total_inodes).foldlM (countBody sb img.inodes) (fun _ => 0)).bind
    fun block_counts =>
  (List.range total_inodes).foldlM (reassignBody sb)
    { inodes := img.inodes
      data_bitmap := img.data_bitmap
      block_counts := block_counts
      found_duplicates := false
      no_free_blocks := false }

/-- The function `checkDuplicateBlocks`.  The data bitmap is written back only
when `found_duplicates`.  The result is `none` when an index into
`block_counts` falls outside the array. -/
def checkDuplicateBlocks (sb : Superblock) (img : Image) : Option DupResult :=
  (duplicatePasses sb img).bind fun s =>
  some
    { image :=
        { img with
          inodes := s.inodes
          data_bitmap := if s.found_duplicates then s.data_bitmap else img.data_bitmap }
      found_duplicates := s.found_duplicates
      no_free_blocks := s.no_free_blocks }


/-! ## Notions used in the statements -/

/-- Bit `i` of a bitmap block, most significant bit of each byte first. -/
def bitOf (bitmap : Nat → Nat) (i : Nat) : Bool :=
  (bitmap (i / 8)).testBit (7 - i % 8)

/-- The number of live inodes among the first `n` records whose direct pointer
is `b`. -/
def claimants (inodes : Nat → Inode) (n b : Nat) : Nat :=
  (List.range n).countP fun i => (inodes i).valid && (inodes i).direct_block_pointer == b

/-- The number of data blocks whose bit in the data bitmap is clear. -/
def clearBits (sb : Superblock) (bitmap : Nat → Nat) : Nat :=
  (List.range' sb.first_data_block (sb.total_blocks - sb.first_data_block)).countP
    fun b => maskBit bitmap b == 0

/-- The number of claimants in excess of one per data block, for a table of
reference counts. -/
def excessOf (sb : Superblock) (counts : Nat → Nat) : Nat :=
  ((List.range' sb.first_data_block (sb.total_blocks - sb.first_data_block)).map
    fun b => counts b - 1).sum

/-- The state that the second loop of `checkDuplicateBlocks` reaches when it moves
inode `i` from `block` to `new_block`. -/
def movedState (s : DupState) (i block new_block : Nat) : DupState :=
  { s with
    inodes := Function.update s.inodes i
      { s.inodes i with direct_block_pointer := new_block }
    data_bitmap := markBlockUsed s.data_bitmap new_block
    block_counts :=
      let c := Function.update s.block_counts block (s.block_counts block - 1)
      Function.update c new_block (c new_block + 1)
    found_duplicates := true }

/-! ## Concrete images -/

/-- An inode record with every field zero; it is not live. -/
def zeroInode : Inode :=
  { mode := 0, user_id := 0, group_id := 0, file_size := 0, last_access_time := 0,
    creation_time := 0, last_modification_time := 0, deletion_time := 0, hard_links := 0,
    data_blocks := 0, direct_block_pointer := 0, single_indirect_pointer := 0,
    double_indirect_pointer := 0, triple_indirect_pointer := 0,
    reserved := List.replicate 156 0 }

/-- A live inode record with the given direct pointer. -/
def liveInode (p : Nat) : Inode :=
  { zeroInode with hard_links := 1, data_blocks := 1, direct_block_pointer := p }

/-- The inode table whose first records are live with the listed direct pointers
and whose other records are zero. -/
def tableOf (ps : List Nat) : Nat → Inode := fun i =>
  match ps.get? i with
  | some p => liveInode p
  | none => zeroInode

/-- A bitmap block whose first bytes are the listed ones and whose other bytes
are zero. -/
def bytesOf (bs : List Nat) : Nat → Nat := fun k => bs.getD k 0

/-- An image with an empty inode bitmap, the given first data-bitmap bytes and
live inodes with the given direct pointers. -/
def imageOf (ps : List Nat) (bs : List Nat) : Image :=
  { inode_bitmap := bytesOf [], data_bitmap := bytesOf bs, inodes := tableOf ps }

/-- An inode record with stale content and `hard_links = 0`. -/
def staleInode : Inode :=
  { mode := 7, user_id := 3, group_id := 4, file_size := 12, last_access_time := 1,
    creation_time := 2, last_modification_time := 3, deletion_time := 0, hard_links := 0,
    data_blocks := 2, direct_block_pointer := 33, single_indirect_pointer := 5,
    double_indirect_pointer := 0, triple_indirect_pointer := 0,
    reserved := List.replicate 156 255 }

/-- An image whose inode 0 carries stale content and is not live. -/
def staleRootImage : Image :=
  { inode_bitmap := bytesOf [0x80]
    data_bitmap := bytesOf [0, 0x80]
    inodes := Function.update (tableOf []) 0 staleInode }

/-- The invariant of the second loop of `checkDuplicateBlocks` before the
iteration for inode `m`, for a run that started from the inode table `ino` and the
data bitmap `bm0`. -/
structure DupInv (sb : Superblock) (ino : Nat → Inode) (bm0 : Nat → Nat) (m : Nat)
    (s : DupState) : Prop where
  later : ∀ j, m ≤ j → s.inodes j = ino j
  frame : ∀ j, { s.inodes j with direct_block_pointer := (ino j).direct_block_pointer } = ino j
  counts_in : ∀ b, sb.first_data_block ≤ b → b < sb.total_blocks →
    s.block_counts b = claimants s.inodes sb.inode_count b
  counts_out : ∀ b, ¬ (sb.first_data_block ≤ b ∧ b < sb.total_blocks) → s.block_counts b = 0
  marked : ∀ b, sb.first_data_block ≤ b → b < sb.total_blocks → 1 ≤ s.block_counts b →
    bitOf s.data_bitmap b = true
  bounded : ∀ j, j < sb.inode_count → (s.inodes j).valid = true →
    (s.inodes j).direct_block_pointer < sb.total_blocks
  settled : s.no_free_blocks = false → ∀ j, j < m → (s.inodes j).valid = true →
    (s.inodes j).direct_block_pointer ≠ 0 →
    s.block_counts (s.inodes j).direct_block_pointer ≤ 1
  full : s.no_free_blocks = true →
    findFreeBlock s.data_bitmap sb.total_blocks sb.first_data_block = 0
  unwritten : s.found_duplicates = false → s.data_bitmap = bm0
  grows : ∀ b, bitOf bm0 b = true → bitOf s.data_bitmap b = true
  moved : s.no_free_blocks = false → ∀ j, j < m → (ino j).valid = true →
    sb.first_data_block ≤ (ino j).direct_block_pointer →
    ((∃ k, j < k ∧ k < sb.inode_count ∧ (ino k).valid = true ∧
        (ino k).direct_block_pointer = (ino j).direct_block_pointer) →
      (s.inodes j).direct_block_pointer ≠ (ino j).direct_block_pointer ∧
      sb.first_data_block ≤ (s.inodes j).direct_block_pointer ∧
      (s.inodes j).direct_block_pointer < sb.total_blocks ∧
      bitOf bm0 (s.inodes j).direct_block_pointer = false) ∧
    ((¬ ∃ k, j < k ∧ k < sb.inode_count ∧ (ino k).valid = true ∧
        (ino k).direct_block_pointer = (ino j).direct_block_pointer) →
      s.inodes j = ino j)

/-- Every live inode of the table has its direct pointer below `total_blocks`. -/
def PointersBounded (sb : Superblock) (img : Image) : Prop :=
  ∀ j, j < sb.inode_count → (img.inodes j).valid = true →
    (img.inodes j).direct_block_pointer < sb.total_blocks

/-- Every data block that is the direct pointer of a live inode has its bit set in
the data bitmap. -/
def ReferencedMarked (sb : Superblock) (img : Image) : Prop :=
  ∀ j, j < sb.inode_count → (img.inodes j).valid = true →
    sb.first_data_block ≤ (img.inodes j).direct_block_pointer →
    maskBit img.data_bitmap (img.inodes j).direct_block_pointer = 1

instance (sb : Superblock) (img : Image) : Decidable (PointersBounded sb img) := by
  unfold PointersBounded; infer_instance

instance (sb : Superblock) (img : Image) : Decidable (ReferencedMarked sb img) := by
  unfold ReferencedMarked; infer_instance

/-- Every live inode of the table has a direct pointer that is 0 or lies in
`[first_data_block, total_blocks)`. -/
def PointersInRange (sb : Superblock) (img : Image) : Prop :=
  ∀ j, j < sb.inode_count → (img.inodes j).valid = true →
    (img.inodes j).direct_block_pointer = 0 ∨
    (sb.first_data_block ≤ (img.inodes j).direct_block_pointer ∧
      (img.inodes j).direct_block_pointer < sb.total_blocks)

/-- The data bitmap is reconciled: the bit of a data block is set exactly when some
live inode has that block as its direct pointer. -/
def Reconciled (sb : Superblock) (img : Image) : Prop :=
  ∀ b, sb.first_data_block ≤ b → b < sb.total_blocks →
    (maskBit img.data_bitmap b = 1 ↔
      ∃ j, j < sb.inode_count ∧ (img.inodes j).valid = true ∧
        (img.inodes j).direct_block_pointer = b)

instance (sb : Superblock) (img : Image) : Decidable (PointersInRange sb img) := by
  unfold PointersInRange; infer_instance

instance (sb : Superblock) (img : Image) : Decidable (Reconciled sb img) := by
  unfold Reconciled; infer_instance

/-- The part of the invariant of the second loop of `checkDuplicateBlocks` that
needs no agreement between the data bitmap and the inode table: what a run may
change, before the iteration for inode `m`. -/
structure DupRun (sb : Superblock) (ino : Nat → Inode) (bm0 : Nat → Nat) (m : Nat)
    (s : DupState) : Prop where
  later : ∀ j, m ≤ j → s.inodes j = ino j
  frame : ∀ j, { s.inodes j with direct_block_pointer := (ino j).direct_block_pointer } = ino j
  bounded : ∀ j, j < sb.inode_count → (s.inodes j).valid = true →
    (s.inodes j).direct_block_pointer < sb.total_blocks
  origin : ∀ j, s.inodes j = ino j ∨
    ((ino j).valid = true ∧ (ino j).direct_block_pointer ≠ 0 ∧ j < m ∧
      sb.first_data_block ≤ (s.inodes j).direct_block_pointer ∧
      (s.inodes j).direct_block_pointer < sb.total_blocks ∧
      bitOf bm0 (s.inodes j).direct_block_pointer = false ∧
      bitOf s.data_bitmap (s.inodes j).direct_block_pointer = true)
  distinct : ∀ i j, i ≠ j → s.inodes i ≠ ino i → s.inodes j ≠ ino j →
    (s.inodes i).direct_block_pointer ≠ (s.inodes j).direct_block_pointer
  grows : ∀ b, bitOf bm0 b = true → bitOf s.data_bitmap b = true
  added : ∀ b, bitOf s.data_bitmap b = true → bitOf bm0 b = true ∨
    ∃ j, j < m ∧ (s.inodes j).valid = true ∧ (s.inodes j).direct_block_pointer = b ∧
      sb.first_data_block ≤ b ∧ b < sb.total_blocks
  unwritten : s.found_duplicates = false → s.data_bitmap = bm0
  quiet : s.found_duplicates = false → s.inodes = ino

/-- Two facts about the reference counts of a run on a reconciled image: a block
that had a live claimant keeps one, and a bit that is set belongs to a block that
was marked at the start or has a live claimant. -/
structure DupKept (sb : Superblock) (ino : Nat → Inode) (bm0 : Nat → Nat)
    (s : DupState) : Prop where
  kept : ∀ b, sb.first_data_block ≤ b → b < sb.total_blocks →
    1 ≤ claimants ino sb.inode_count b → 1 ≤ s.block_counts b
  fresh : ∀ b, sb.first_data_block ≤ b → b < sb.total_blocks →
    bitOf s.data_bitmap b = true → bitOf bm0 b = true ∨ 1 ≤ s.block_counts b

/-! ## The image file as bytes

The stages above are stated on the regions of the image.  The definitions below
place these regions in the file: a little-endian host, the usual layout of
`struct Superblock` (fields at offsets 0, 4, 8, 12, 16, 20, 24, 28, 32, `reserved` at
36, size 4096) and of `struct Inode` (fourteen 32-bit fields, `reserved` at 56,
size 212). -/

/-- The file `vsfs.img`: its length and its bytes.  Offsets at or beyond `size`
hold no data. -/
structure RawImage where
  size : Nat
  bytes : Nat → Nat

/-- The value of `sizeof(struct Superblock)`. -/
def SUPERBLOCK_BYTES : Nat := 4096

/-- The value of `sizeof(struct Inode)`. -/
def INODE_BYTES : Nat := 212

/-- A `uint16_t` read from two bytes at `off`. -/
def le16 (bytes : Nat → Nat) (off : Nat) : Nat :=
  bytes off + 256 * bytes (off + 1)

/-- A `uint32_t` read from four bytes at `off`. -/
def le32 (bytes : Nat → Nat) (off : Nat) : Nat :=
  bytes off + 256 * bytes (off + 1) + 65536 * bytes (off + 2) + 16777216 * bytes (off + 3)

/-- Byte `k` of the value `v` in memory. -/
def byteOf (v k : Nat) : Nat :=
  v / 256 ^ k % 256

/-- An `fwrite` of the `len` bytes of `buf` at offset `off` of the file. -/
def writeBytes (f : RawImage) (off len : Nat) (buf : Nat → Nat) : RawImage :=
  { size := max f.size (off + len)
    bytes := fun k => if off ≤ k ∧ k < off + len then buf (k - off) else f.bytes k }

/-- The record `sb` that `fread(&sb, sizeof(sb), 1, file)` fills from the bytes
`buf`. -/
def decodeSuperblock (buf : Nat → Nat) : Superblock :=
  { inode_count := le32 buf 0
    inode_bitmap_block := le32 buf 4
    data_bitmap_block := le32 buf 8
    first_data_block := le32 buf 12
    magic_bytes := le16 buf 16
    block_size := le32 buf 20
    total_blocks := le32 buf 24
    inode_table_start := le32 buf 28
    inode_size := le32 buf 32
    reserved := (List.range 4058).map fun k => buf (36 + k) }

/-- The bytes of `sb` in memory after `main` has assigned the eight layout fields
of a record read from the bytes `buf`: `magic_bytes`, `reserved` and the padding
keep the bytes read. -/
def superblockBytes (sb : Superblock) (buf : Nat → Nat) : Nat → Nat := fun k =>
  if k < 4 then byteOf sb.inode_count k
  else if k < 8 then byteOf sb.inode_bitmap_block (k - 4)
  else if k < 12 then byteOf sb.data_bitmap_block (k - 8)
  else if k < 16 then byteOf sb.first_data_block (k - 12)
  else if k < 20 then buf k
  else if k < 24 then byteOf sb.block_size (k - 20)
  else if k < 28 then byteOf sb.total_blocks (k - 24)
  else if k < 32 then byteOf sb.inode_table_start (k - 28)
  else if k < 36 then byteOf sb.inode_size (k - 32)
  else buf k

/-- The function `superblockValidator`.  The array `block` is never initialised;
its content is the parameter `block`. -/
def superblockValidator (block : Nat → Nat) (f : RawImage) : RawImage :=
  let target_size := TOTAL_BLOCKS * DESIRED_BLOCK_SIZE
  let file_size := f.size
  let s : RawImage × Nat :=
    if file_size < target_size then
      ({ size := target_size, bytes := fun k => if k < file_size then f.bytes k else 0 },
        target_size)
    else (f, file_size)
  if s.2 > target_size then
    writeBytes { s.1 with size := target_size } 0 DESIRED_BLOCK_SIZE block
  else s.1

/-- The part of `main` before `updateInode0IfNeeded` (lines 98-183): the magic
number, the superblock check and `superblockValidator`.  The result is the file
afterwards and the superblock handed to the later stages, or `none` when `main`
returns 1. -/
def mainSuperblockRepair (block : Nat → Nat) (f : RawImage) : RawImage × Option Superblock :=
  if f.size < 2 then (f, none)
  else
    let current_magic := le16 f.bytes 0
    let f1 := if current_magic ≠ MAGIC then writeBytes f 0 2 (byteOf MAGIC) else f
    if f1.size < 1024 + SUPERBLOCK_BYTES then (f1, none)
    else
      let buf := fun k => f1.bytes (1024 + k)
      let r := superblockCheck (decodeSuperblock buf)
      let f2 :=
        if r.2 then writeBytes f1 1024 SUPERBLOCK_BYTES (superblockBytes r.1 buf) else f1
      (superblockValidator block f2, some r.1)

/-- Byte `k` of the record that `main` reads at offset 1024. -/
def superblockRecord (f : RawImage) (k : Nat) : Nat :=
  f.bytes (1024 + k)

/-- The buffer that a stage fills with block `k` of the file. -/
def readBlock (sb : Superblock) (f : RawImage) (k : Nat) : Nat → Nat := fun off =>
  if off < sb.block_size then f.bytes (k * sb.block_size + off) else 0

/-- The record that `fread(&inode, sizeof(struct Inode), 1, fp)` fills from the
bytes at `base`. -/
def decodeInode (bytes : Nat → Nat) (base : Nat) : Inode :=
  { mode := le32 bytes base
    user_id := le32 bytes (base + 4)
    group_id := le32 bytes (base + 8)
    file_size := le32 bytes (base + 12)
    last_access_time := le32 bytes (base + 16)
    creation_time := le32 bytes (base + 20)
    last_modification_time := le32 bytes (base + 24)
    deletion_time := le32 bytes (base + 28)
    hard_links := le32 bytes (base + 32)
    data_blocks := le32 bytes (base + 36)
    direct_block_pointer := le32 bytes (base + 40)
    single_indirect_pointer := le32 bytes (base + 44)
    double_indirect_pointer := le32 bytes (base + 48)
    triple_indirect_pointer := le32 bytes (base + 52)
    reserved := (List.range 156).map fun k => bytes (base + 56 + k) }

/-- The regions that the stages read from the file: the two bitmap blocks and the
inode records, read one after the other from the start of the inode table. -/
def loadImage (sb : Superblock) (f : RawImage) : Image :=
  { inode_bitmap := readBlock sb f sb.inode_bitmap_block
    data_bitmap := readBlock sb f sb.data_bitmap_block
    inodes := fun i => decodeInode f.bytes (sb.inode_table_start * sb.block_size + i * INODE_BYTES) }

/-- The function `checkInodeBitmapConsistency` on the bytes of the file: when
`modified`, the bitmap buffer is written back to its block. -/
def checkInodeBitmapConsistencyFile (sb : Superblock) (f : RawImage) : RawImage :=
  let r := checkInodeBitmapConsistency sb (loadImage sb f)
  if r.2 then writeBytes f (sb.inode_bitmap_block * sb.block_size) sb.block_size r.1.inode_bitmap
  else f

/-- The function `checkDataBitmapConsistency` on the bytes of the file: when
`modified`, the bitmap buffer is written back to its block. -/
def checkDataBitmapConsistencyFile (sb : Superblock) (f : RawImage) : RawImage :=
  let r := checkDataBitmapConsistency sb (loadImage sb f)
  if r.2 then writeBytes f (sb.data_bitmap_block * sb.block_size) sb.block_size r.1.data_bitmap
  else f

/-- A file of `n` zero bytes. -/
def zeroFile (n : Nat) : RawImage :=
  { size := n, bytes := fun _ => 0 }

/-- A file of 262144 bytes, all zero except the `hard_links` field of inode 0,
which is 1. -/
def oneLiveInodeFile : RawImage :=
  { size := 262144, bytes := fun k => if k = 3 * 4096 + 32 then 1 else 0 }

/-! ## Duplicate-block repair with the words that follow `block_counts`

`block_counts[block]` in the second loop carries no range test.  In the
definitions below `block_counts k` for `k ≥ TOTAL_BLOCKS` is the word of memory
that index reaches: a readable and writable `uint32_t` that is none of the other
variables of the function.  Its content at the start of the function is the
parameter `after`.  The reallocation lines that the function prints are kept. -/

/-- A line "Inode i: Reallocating block b to n" printed by `checkDuplicateBlocks`. -/
structure Reallocation where
  inode : Nat
  block : Nat
  new_block : Nat
  deriving DecidableEq

/-- The state of the second inode loop together with the reallocation lines
printed so far. -/
structure DupTrace where
  state : DupState
  reallocated : List Reallocation

/-- One iteration of the first inode loop of `checkDuplicateBlocks` on
`block_counts` followed by the words after it. -/
def countBodyFlat (sb : Superblock) (inodes : Nat → Inode) (block_counts : Nat → Nat)
    (i : Nat) : Nat → Nat :=
  let inode := inodes i
  if inode.hard_links > 0 ∧ inode.deletion_time = 0 then
    let block := inode.direct_block_pointer
    if block ≠ 0 ∧ block ≥ sb.first_data_block ∧ block < sb.total_blocks then
      Function.update block_counts block (block_counts block + 1)
    else block_counts
  else block_counts

/-- One iteration of the second inode loop of `checkDuplicateBlocks` on
`block_counts` followed by the words after it. -/
def reassignBodyFlat (sb : Superblock) (s : DupTrace) (i : Nat) : DupTrace :=
  let inode := s.state.inodes i
  if inode.hard_links > 0 ∧ inode.deletion_time = 0 then
    let block := inode.direct_block_pointer
    if block ≠ 0 ∧ s.state.block_counts block > 1 then
      let new_block := findFreeBlock s.state.data_bitmap sb.total_blocks sb.first_data_block
      if new_block = 0 then
        { s with state := { s.state with no_free_blocks := true } }
      else
        let inode := { inode with direct_block_pointer := new_block }
        let data_bitmap := markBlockUsed s.state.data_bitmap new_block
        let block_counts :=
          Function.update s.state.block_counts block (s.state.block_counts block - 1)
        let block_counts :=
          Function.update block_counts new_block (block_counts new_block + 1)
        { state :=
            { s.state with
              inodes := Function.update s.state.inodes i inode
              data_bitmap := data_bitmap
              block_counts := block_counts
              found_duplicates := true }
          reallocated := s.reallocated ++ [{ inode := i, block := block, new_block := new_block }] }
    else s
  else s

/-- The two inode loops of `checkDuplicateBlocks` on `block_counts` followed by the
words after it, whose content at the start is `after`. -/
def duplicatePassesFlat (after : Nat → Nat) (sb : Superblock) (img : Image) : DupTrace :=
  let total_inodes := sb.inode_count
  let block_counts := (List.range total_inodes).foldl (countBodyFlat sb img.inodes)
    (fun k => if k < TOTAL_BLOCKS then 0 else after k)
  (List.range total_inodes).foldl (reassignBodyFlat sb)
    { state :=
        { inodes := img.inodes
          data_bitmap := img.data_bitmap
          block_counts := block_counts
          found_duplicates := false
          no_free_blocks := false }
      reallocated := [] }

/-- The function `checkDuplicateBlocks` on `block_counts` followed by the words
after it: the outcome and the reallocation lines printed, in order. -/
def checkDuplicateBlocksFlat (after : Nat → Nat) (sb : Superblock) (img : Image) :
    DupResult × List Reallocation :=
  let s := duplicatePassesFlat after sb img
  ({ image :=
      { img with
        inodes := s.state.inodes
        data_bitmap := if s.state.found_duplicates then s.state.data_bitmap else img.data_bitmap }
     found_duplicates := s.state.found_duplicates
     no_free_blocks := s.state.no_free_blocks },
   s.reallocated)

/-- The data bitmap after `markBlockUsed` for each reallocation line. -/
def markReallocated (bitmap : Nat → Nat) (lines : List Reallocation) : Nat → Nat :=
  lines.foldl (fun bm e => markBlockUsed bm e.new_block) bitmap

/-- The invariant of the second loop of `checkDuplicateBlocks` on the reallocation
lines, before the iteration for inode `m`: it does not mention `block_counts`. -/
structure FlatRun (sb : Superblock) (ino : Nat → Inode) (bm0 : Nat → Nat) (m : Nat)
    (s : DupTrace) : Prop where
  later : ∀ j, m ≤ j → s.state.inodes j = ino j
  frame : ∀ j,
    { s.state.inodes j with direct_block_pointer := (ino j).direct_block_pointer } = ino j
  logged : ∀ e, e ∈ s.reallocated →
    e.inode < m ∧ (ino e.inode).valid = true ∧ (ino e.inode).direct_block_pointer = e.block ∧
      e.block ≠ 0 ∧ sb.first_data_block ≤ e.new_block ∧ e.new_block < sb.total_blocks ∧
      bitOf bm0 e.new_block = false ∧
      (s.state.inodes e.inode).direct_block_pointer = e.new_block
  unlogged : ∀ j, (∀ e, e ∈ s.reallocated → e.inode ≠ j) → s.state.inodes j = ino j
  fresh : (s.reallocated.map Reallocation.new_block).Nodup
  once : (s.reallocated.map Reallocation.inode).Nodup
  bitmap : s.state.data_bitmap = markReallocated bm0 s.reallocated
  bits : ∀ b, bitOf s.state.data_bitmap b =
    (bitOf bm0 b || s.reallocated.any fun e => decide (e.new_block = b))
  quiet : s.state.found_duplicates = false → s.reallocated = []

theorem testBit_and_shift (x k : Nat) : (x &&& (1 <<< k) ≠ 0) ↔ x.testBit k = true := by
  rw [Nat.one_shiftLeft]
  constructor
  · intro h
    by_contra hb
    apply h
    apply Nat.eq_of_testBit_eq
    intro j
    simp only [Nat.testBit_and, Nat.testBit_two_pow, Nat.zero_testBit]
    by_cases hj : k = j
    · subst hj; simp [hb]
    · simp [hj]
  · intro h h0
    have := congrArg (fun y => Nat.testBit y k) h0
    simp [Nat.testBit_two_pow, h] at this

theorem shift_and_one (x k : Nat) : ((x >>> k) &&& 1 = 0) ↔ x.testBit k = false := by
  rw [Nat.and_one_is_mod, Nat.testBit_to_div_mod, Nat.shiftRight_eq_div_pow]
  simp

theorem testBit_or_store (x k j : Nat) (hj : j < 8) :
    ((x ||| (1 <<< k)) % 256).testBit j = (x.testBit j || decide (k = j)) := by
  have h256 : (256 : Nat) = 2 ^ 8 := by norm_num
  rw [h256, Nat.testBit_mod_two_pow, Nat.testBit_or, Nat.one_shiftLeft, Nat.testBit_two_pow]
  simp [hj]

theorem testBit_andNot_store (x k j : Nat) (hj : j < 8) (hk : k < 8) :
    ((x &&& (2 ^ 32 - 1 - (1 <<< k))) % 256).testBit j = (x.testBit j && !decide (k = j)) := by
  have h256 : (256 : Nat) = 2 ^ 8 := by norm_num
  rw [h256, Nat.testBit_mod_two_pow, Nat.testBit_and]
  have hc : (2 ^ 32 - 1 - (1 <<< k)).testBit j = !decide (k = j) := by
    interval_cases k <;> interval_cases j <;> decide
  rw [hc]; simp [hj]

/-! ## Loops -/

theorem foldl_range_inv {σ : Type} (f : σ → Nat → σ) (P : Nat → σ → Prop) (s0 : σ) (n : Nat)
    (h0 : P 0 s0) (hs : ∀ i s, i < n → P i s → P (i + 1) (f s i)) :
    P n ((List.range n).foldl f s0) := by
  have key : ∀ m, m ≤ n → P m ((List.range m).foldl f s0) := by
    intro m
    induction m with
    | zero => intro _; simpa using h0
    | succ m ih =>
      intro hm
      rw [List.range_succ, List.foldl_append]
      exact hs m _ (by omega) (ih (by omega))
  exact key n (Nat.le_refl n)

theorem foldl_range'_inv {σ : Type} (f : σ → Nat → σ) (P : Nat → σ → Prop) (s0 : σ)
    (a k : Nat) (h0 : P a s0) (hs : ∀ i s, a ≤ i → i < a + k → P i s → P (i + 1) (f s i)) :
    P (a + k) ((List.range' a k).foldl f s0) := by
  rw [List.range'_eq_map_range, List.foldl_map]
  refine foldl_range_inv (fun s i => f s (a + i)) (fun i s => P (a + i) s) s0 k h0 ?_
  intro i s hi hP
  exact hs (a + i) s (by omega) (by omega) hP

theorem foldlM_range_inv {σ : Type} (f : σ → Nat → Option σ) (P : Nat → σ → Prop) (s0 : σ)
    (n : Nat) (h0 : P 0 s0)
    (hs : ∀ i s, i < n → P i s → ∃ t, f s i = some t ∧ P (i + 1) t) :
    ∃ t, (List.range n).foldlM f s0 = some t ∧ P n t := by
  have key : ∀ m, m ≤ n → ∃ t, (List.range m).foldlM f s0 = some t ∧ P m t := by
    intro m
    induction m with
    | zero => intro _; exact ⟨s0, by simp, h0⟩
    | succ m ih =>
      intro hm
      obtain ⟨t, ht, hP⟩ := ih (by omega)
      obtain ⟨u, hu, hQ⟩ := hs m t (by omega) hP
      refine ⟨u, ?_, hQ⟩
      rw [List.range_succ, List.foldlM_append, ht]
      simp [hu]
  exact key n (Nat.le_refl n)

/-! ## Bits of a bitmap block -/

theorem maskBit_eq_one (bitmap : Nat → Nat) (i : Nat) :
    maskBit bitmap i = 1 ↔ bitOf bitmap i = true := by
  unfold maskBit bitOf
  rw [← testBit_and_shift]
  split <;> simp_all

theorem maskBit_eq_zero (bitmap : Nat → Nat) (i : Nat) :
    maskBit bitmap i = 0 ↔ bitOf bitmap i = false := by
  have h := maskBit_eq_one bitmap i
  have h2 : maskBit bitmap i = 0 ∨ maskBit bitmap i = 1 := by
    unfold maskBit; split <;> simp
  cases hb : bitOf bitmap i
  · rcases h2 with h2 | h2
    · simp [h2]
    · rw [h.mp h2] at hb; cases hb
  · rw [h.mpr hb]; simp

theorem bitOf_orMask (bitmap : Nat → Nat) (i j : Nat) :
    bitOf (orMask bitmap i) j = (bitOf bitmap j || decide (i = j)) := by
  unfold bitOf orMask
  by_cases hb : j / 8 = i / 8
  · rw [hb, Function.update_same, testBit_or_store _ _ _ (by omega)]
    congr 1
    simp only [decide_eq_decide]
    omega
  · rw [Function.update_noteq hb]
    have : i ≠ j := by rintro rfl; exact hb rfl
    simp [this]

theorem bitOf_andNotMask (bitmap : Nat → Nat) (i j : Nat) :
    bitOf (andNotMask bitmap i) j = (bitOf bitmap j && !decide (i = j)) := by
  unfold bitOf andNotMask
  by_cases hb : j / 8 = i / 8
  · rw [hb, Function.update_same, testBit_andNot_store _ _ _ (by omega) (by omega)]
    congr 2
    simp only [decide_eq_decide]
    omega
  · rw [Function.update_noteq hb]
    have : i ≠ j := by rintro rfl; exact hb rfl
    simp [this]

theorem markBlockUsed_eq (bitmap : Nat → Nat) (block : Nat) :
    markBlockUsed bitmap block = orMask bitmap block := rfl

theorem valid_iff (inode : Inode) :
    inode.valid = true ↔ inode.hard_links > 0 ∧ inode.deletion_time = 0 := by
  simp [Inode.valid]

/-! ## Inode-bitmap reconciliation -/

theorem inodeBitmapBody_bits (inodes : Nat → Inode) (s : (Nat → Nat) × Bool) (m i : Nat) :
    bitOf (inodeBitmapBody inodes s m).1 i =
      if i = m then (inodes m).valid else bitOf s.1 i := by
  unfold inodeBitmapBody
  have hv : (decide ((inodes m).hard_links > 0) && (inodes m).deletion_time == 0)
      = (inodes m).valid := rfl
  simp only [hv]
  cases hval : (inodes m).valid <;> cases hbit : bitOf s.1 m
  · have h0 := (maskBit_eq_zero s.1 m).mpr hbit
    simp only [h0]
    by_cases him : i = m
    · subst him; simp [hbit]
    · simp [him]
  · have h1 := (maskBit_eq_one s.1 m).mpr hbit
    simp only [h1]
    by_cases him : i = m
    · subst him; simp [bitOf_andNotMask]
    · have : ¬ m = i := fun h => him h.symm
      simp [bitOf_andNotMask, him, this]
  · have h0 := (maskBit_eq_zero s.1 m).mpr hbit
    simp only [h0]
    by_cases him : i = m
    · subst him; simp [bitOf_orMask]
    · have : ¬ m = i := fun h => him h.symm
      simp [bitOf_orMask, him, this]
  · have h1 := (maskBit_eq_one s.1 m).mpr hbit
    simp only [h1]
    by_cases him : i = m
    · subst him; simp [hbit]
    · simp [him]

theorem inodeBitmapBody_noop (inodes : Nat → Inode) (s : (Nat → Nat) × Bool) (m : Nat)
    (h : bitOf s.1 m = (inodes m).valid) : inodeBitmapBody inodes s m = s := by
  unfold inodeBitmapBody
  have hv : (decide ((inodes m).hard_links > 0) && (inodes m).deletion_time == 0)
      = (inodes m).valid := rfl
  simp only [hv]
  cases hval : (inodes m).valid
  · rw [hval] at h
    simp [(maskBit_eq_zero s.1 m).mpr h]
  · rw [hval] at h
    simp [(maskBit_eq_one s.1 m).mpr h]

theorem inodeBitmapBody_unmodified (inodes : Nat → Inode) (s : (Nat → Nat) × Bool) (m : Nat)
    (h : (inodeBitmapBody inodes s m).2 = false) : inodeBitmapBody inodes s m = s := by
  unfold inodeBitmapBody at h ⊢
  dsimp only at h ⊢
  split
  · next hc => rw [if_pos hc] at h; cases h
  · next hc =>
    rw [if_neg hc] at h
    split
    · next hd => rw [if_pos hd] at h; cases h
    · rfl

theorem inodeBitmap_loop (inodes : Nat → Inode) (bm0 : Nat → Nat) (n : Nat) :
    let s := (List.range n).foldl (inodeBitmapBody inodes) (bm0, false)
    (∀ i, i < n → bitOf s.1 i = (inodes i).valid) ∧ (s.2 = false → s.1 = bm0) := by
  refine foldl_range_inv (inodeBitmapBody inodes)
    (fun m s => (∀ i, i < m → bitOf s.1 i = (inodes i).valid) ∧ (s.2 = false → s.1 = bm0))
    (bm0, false) n ⟨by intro i hi; omega, fun _ => rfl⟩ ?_
  intro m s _ hP
  refine ⟨?_, ?_⟩
  · intro i hi
    rw [inodeBitmapBody_bits]
    by_cases him : i = m
    · simp [him]
    · simp only [him, if_false]
      exact hP.1 i (by omega)
  · intro h
    have he := inodeBitmapBody_unmodified inodes s m h
    rw [he] at h ⊢
    exact hP.2 h

theorem inodeBitmap_loop_noop (inodes : Nat → Inode) (bm : Nat → Nat) (n : Nat)
    (h : ∀ i, i < n → bitOf bm i = (inodes i).valid) :
    (List.range n).foldl (inodeBitmapBody inodes) (bm, false) = (bm, false) := by
  refine foldl_range_inv (inodeBitmapBody inodes) (fun _ s => s = (bm, false))
    (bm, false) n rfl ?_
  intro m s hm hs
  subst hs
  exact inodeBitmapBody_noop inodes (bm, false) m (h m hm)

theorem checkInodeBitmapConsistency_inodes (sb : Superblock) (img : Image) :
    (checkInodeBitmapConsistency sb img).1.inodes = img.inodes := by
  unfold checkInodeBitmapConsistency
  dsimp only
  split <;> rfl

theorem checkInodeBitmapConsistency_bits (sb : Superblock) (img : Image) (i : Nat)
    (hi : i < sb.inode_count) :
    bitOf (checkInodeBitmapConsistency sb img).1.inode_bitmap i = (img.inodes i).valid := by
  have h := inodeBitmap_loop img.inodes img.inode_bitmap sb.inode_count
  dsimp only at h
  unfold checkInodeBitmapConsistency
  dsimp only
  split
  · exact h.1 i hi
  · next hmod =>
    have h2 := h.2 (by simpa using hmod)
    have h1 := h.1 i hi
    rw [h2] at h1
    exact h1

theorem checkInodeBitmapConsistency_twice (sb : Superblock) (img : Image) :
    checkInodeBitmapConsistency sb (checkInodeBitmapConsistency sb img).1
      = ((checkInodeBitmapConsistency sb img).1, false) := by
  have hb := checkInodeBitmapConsistency_bits sb img
  have hi := checkInodeBitmapConsistency_inodes sb img
  generalize (checkInodeBitmapConsistency sb img).1 = img1 at hb hi
  have hloop := inodeBitmap_loop_noop img1.inodes img1.inode_bitmap sb.inode_count
    (by intro i h; rw [hi]; exact hb i h)
  unfold checkInodeBitmapConsistency
  dsimp only
  rw [hloop]
  simp

/-! ## Data-bitmap reconciliation -/

theorem referenced_loop (sb : Superblock) (inodes : Nat → Inode) (n : Nat) (b : Nat) :
    (List.range n).foldl (referencedBody sb inodes) (fun _ => false) b = true ↔
      ∃ i, i < n ∧ (inodes i).valid = true ∧ (inodes i).direct_block_pointer = b ∧
        b ≠ 0 ∧ sb.first_data_block ≤ b ∧ b < sb.total_blocks := by
  refine foldl_range_inv (referencedBody sb inodes)
    (fun m r => r b = true ↔
      ∃ i, i < m ∧ (inodes i).valid = true ∧ (inodes i).direct_block_pointer = b ∧
        b ≠ 0 ∧ sb.first_data_block ≤ b ∧ b < sb.total_blocks)
    (fun _ => false) n (by simp) ?_
  intro m r _ hP
  have hv : (decide ((inodes m).hard_links > 0) && (inodes m).deletion_time == 0)
      = (inodes m).valid := rfl
  have hstep : referencedBody sb inodes r m b = true ↔
      (r b = true ∨ ((inodes m).valid = true ∧ (inodes m).direct_block_pointer = b ∧
        b ≠ 0 ∧ sb.first_data_block ≤ b ∧ b < sb.total_blocks)) := by
    unfold referencedBody
    simp only [hv]
    cases hval : (inodes m).valid
    · simp
    · simp only [if_true]
      by_cases hc : (inodes m).direct_block_pointer ≠ 0 ∧
          (inodes m).direct_block_pointer ≥ sb.first_data_block ∧
          (inodes m).direct_block_pointer < sb.total_blocks
      · rw [if_pos hc]
        by_cases hb : b = (inodes m).direct_block_pointer
        · subst hb
          simp [hc.1, hc.2.2]
          exact Or.inr hc.2.1
        · rw [Function.update_noteq hb]
          have : ¬ (inodes m).direct_block_pointer = b := fun h => hb h.symm
          simp [this]
      · rw [if_neg hc]
        constructor
        · exact Or.inl
        · rintro (h | ⟨_, h1, h2, h3, h4⟩)
          · exact h
          · exact absurd ⟨by rw [h1]; exact h2, by rw [h1]; exact h3, by rw [h1]; exact h4⟩ hc
  rw [hstep, hP]
  constructor
  · rintro (⟨i, hi, h⟩ | h)
    · exact ⟨i, by omega, h⟩
    · exact ⟨m, by omega, h⟩
  · rintro ⟨i, hi, h⟩
    by_cases him : i = m
    · subst him; exact Or.inr h
    · exact Or.inl ⟨i, by omega, h⟩

theorem dataBitmapBody_bits (referenced : Nat → Bool) (s : (Nat → Nat) × Bool) (m i : Nat) :
    bitOf (dataBitmapBody referenced s m).1 i =
      if i = m then referenced m else bitOf s.1 i := by
  unfold dataBitmapBody
  cases href : referenced m <;> cases hbit : bitOf s.1 m
  · have h0 := (maskBit_eq_zero s.1 m).mpr hbit
    simp only [h0]
    by_cases him : i = m
    · subst him; simp [hbit]
    · simp [him]
  · have h1 := (maskBit_eq_one s.1 m).mpr hbit
    simp only [h1]
    by_cases him : i = m
    · subst him; simp [bitOf_andNotMask]
    · have : ¬ m = i := fun h => him h.symm
      simp [bitOf_andNotMask, him, this]
  · have h0 := (maskBit_eq_zero s.1 m).mpr hbit
    simp only [h0]
    by_cases him : i = m
    · subst him; simp [bitOf_orMask]
    · have : ¬ m = i := fun h => him h.symm
      simp [bitOf_orMask, him, this]
  · have h1 := (maskBit_eq_one s.1 m).mpr hbit
    simp only [h1]
    by_cases him : i = m
    · subst him; simp [hbit]
    · simp [him]

theorem dataBitmapBody_noop (referenced : Nat → Bool) (s : (Nat → Nat) × Bool) (m : Nat)
    (h : bitOf s.1 m = referenced m) : dataBitmapBody referenced s m = s := by
  unfold dataBitmapBody
  cases href : referenced m
  · rw [href] at h
    simp [(maskBit_eq_zero s.1 m).mpr h]
  · rw [href] at h
    simp [(maskBit_eq_one s.1 m).mpr h]

theorem dataBitmapBody_unmodified (referenced : Nat → Bool) (s : (Nat → Nat) × Bool)
    (m : Nat) (h : (dataBitmapBody referenced s m).2 = false) :
    dataBitmapBody referenced s m = s := by
  unfold dataBitmapBody at h ⊢
  dsimp only at h ⊢
  split
  · next hc => rw [if_pos hc] at h; cases h
  · next hc =>
    rw [if_neg hc] at h
    split
    · next hd => rw [if_pos hd] at h; cases h
    · rfl

theorem dataBitmap_loop (referenced : Nat → Bool) (bm0 : Nat → Nat) (a k : Nat) :
    let s := (List.range' a k).foldl (dataBitmapBody referenced) (bm0, false)
    (∀ b, a ≤ b → b < a + k → bitOf s.1 b = referenced b) ∧ (s.2 = false → s.1 = bm0) := by
  refine foldl_range'_inv (dataBitmapBody referenced)
    (fun m s => (∀ b, a ≤ b → b < m → bitOf s.1 b = referenced b) ∧ (s.2 = false → s.1 = bm0))
    (bm0, false) a k ⟨by intro b h1 h2; omega, fun _ => rfl⟩ ?_
  intro m s _ _ hP
  refine ⟨?_, ?_⟩
  · intro b hab hb
    rw [dataBitmapBody_bits]
    by_cases hbm : b = m
    · simp [hbm]
    · simp only [hbm, if_false]
      exact hP.1 b hab (by omega)
  · intro h
    have he := dataBitmapBody_unmodified referenced s m h
    rw [he] at h ⊢
    exact hP.2 h

theorem dataBitmap_loop_noop (referenced : Nat → Bool) (bm : Nat → Nat) (a k : Nat)
    (h : ∀ b, a ≤ b → b < a + k → bitOf bm b = referenced b) :
    (List.range' a k).foldl (dataBitmapBody referenced) (bm, false) = (bm, false) := by
  refine foldl_range'_inv (dataBitmapBody referenced) (fun _ s => s = (bm, false))
    (bm, false) a k rfl ?_
  intro m s hm1 hm2 hs
  subst hs
  exact dataBitmapBody_noop referenced (bm, false) m (h m hm1 hm2)

theorem checkDataBitmapConsistency_inodes (sb : Superblock) (img : Image) :
    (checkDataBitmapConsistency sb img).1.inodes = img.inodes := by
  unfold checkDataBitmapConsistency
  dsimp only
  split <;> rfl

theorem checkDataBitmapConsistency_bits (sb : Superblock) (img : Image) (b : Nat)
    (h1 : sb.first_data_block ≤ b) (h2 : b < sb.total_blocks) :
    bitOf (checkDataBitmapConsistency sb img).1.data_bitmap b =
      (List.range sb.inode_count).foldl (referencedBody sb img.inodes) (fun _ => false) b := by
  have h := dataBitmap_loop
    ((List.range sb.inode_count).foldl (referencedBody sb img.inodes) (fun _ => false))
    img.data_bitmap sb.first_data_block (sb.total_blocks - sb.first_data_block)
  dsimp only at h
  unfold checkDataBitmapConsistency
  dsimp only
  split
  · exact h.1 b h1 (by omega)
  · next hmod =>
    have h2 := h.2 (by simpa using hmod)
    have h1 := h.1 b h1 (by omega)
    rw [h2] at h1
    exact h1

theorem checkDataBitmapConsistency_twice (sb : Superblock) (img : Image) :
    checkDataBitmapConsistency sb (checkDataBitmapConsistency sb img).1
      = ((checkDataBitmapConsistency sb img).1, false) := by
  have hb := checkDataBitmapConsistency_bits sb img
  have hi := checkDataBitmapConsistency_inodes sb img
  generalize (checkDataBitmapConsistency sb img).1 = img1 at hb hi
  have hloop := dataBitmap_loop_noop
    ((List.range sb.inode_count).foldl (referencedBody sb img1.inodes) (fun _ => false))
    img1.data_bitmap sb.first_data_block (sb.total_blocks - sb.first_data_block)
    (by intro b h1 h2; rw [hi]; exact hb b h1 (by omega))
  unfold checkDataBitmapConsistency
  dsimp only
  rw [hloop]
  simp

/-! ## Claims on the superblock check, the root inode and the bitmaps -/

/-- C6: whatever superblock record `main` reads at offset 1024, the record it
holds after the superblock check (the one on the image, and the one handed to the
later stages) has the canonical layout fields, with `inode_count = 80`. -/
theorem superblockCheck_canonical (sb : Superblock) :
    (superblockCheck sb).1.inode_bitmap_block = 1 ∧
    (superblockCheck sb).1.data_bitmap_block = 2 ∧
    (superblockCheck sb).1.inode_table_start = 3 ∧
    (superblockCheck sb).1.first_data_block = 8 ∧
    (superblockCheck sb).1.inode_size = 256 ∧
    (superblockCheck sb).1.total_blocks = 64 ∧
    (superblockCheck sb).1.block_size = 4096 ∧
    (superblockCheck sb).1.inode_count = (8 - 3) * (4096 / 256) ∧
    (superblockCheck sb).1.inode_count = 80 ∧
    (if (superblockCheck sb).2 = true then (superblockCheck sb).1 else sb)
      = (superblockCheck sb).1 := by
  unfold superblockCheck
  simp only [INODE_SIZE, DESIRED_BLOCK_SIZE, TOTAL_BLOCKS]
  split
  · next h =>
    obtain ⟨h1, h2, h3, h4, h5, h6, h7, h8⟩ := h
    simp [h1, h2, h3, h4, h5, h6, h7, h8]
  · simp

/-- The geometry fields that the stages read from the superblock handed over by
`main` are those of `sb1`. -/
theorem superblockCheck_geometry (sb : Superblock) :
    (superblockCheck sb).1.inode_count = sb1.inode_count ∧
    (superblockCheck sb).1.first_data_block = sb1.first_data_block ∧
    (superblockCheck sb).1.total_blocks = sb1.total_blocks := by
  unfold superblockCheck
  simp only [INODE_SIZE, DESIRED_BLOCK_SIZE, TOTAL_BLOCKS, sb1]
  split
  · next h =>
    obtain ⟨_, _, _, h4, _, h6, h7, _⟩ := h
    simp [h4, h6, h7]
  · simp

/-- C7: when inode 0 is not live, `updateInode0IfNeeded` leaves the canonical root
record at inode 0, whatever the record held before. -/
theorem updateInode0_reset (sb : Superblock) (img : Image)
    (h : (img.inodes 0).hard_links = 0 ∨ (img.inodes 0).deletion_time ≠ 0) :
    (updateInode0IfNeeded sb img).inodes 0 =
      { mode := 0x1FF, user_id := 1000, group_id := 1000, file_size := 4096,
        last_access_time := 1680000000, creation_time := 1670000000,
        last_modification_time := 1690000000, deletion_time := 0, hard_links := 1,
        data_blocks := 1, direct_block_pointer := sb.first_data_block,
        single_indirect_pointer := 0, double_indirect_pointer := 0,
        triple_indirect_pointer := 0, reserved := List.replicate 156 0 } := by
  unfold updateInode0IfNeeded
  have hc : (!(decide ((img.inodes 0).hard_links > 0) && (img.inodes 0).deletion_time == 0))
      = true := by
    rcases h with h | h
    · simp [h]
    · simp [h]
  simp only [hc, if_true, Function.update_same, DESIRED_BLOCK_SIZE]

/-- Witness for C7: inode 0 with `hard_links = 0` and stale content. -/
theorem updateInode0_reset_witness :
    (staleRootImage.inodes 0).hard_links = 0 ∧
    (staleRootImage.inodes 0).direct_block_pointer = 33 ∧
    (updateInode0IfNeeded sb1 staleRootImage).inodes 0 =
      { mode := 0x1FF, user_id := 1000, group_id := 1000, file_size := 4096,
        last_access_time := 1680000000, creation_time := 1670000000,
        last_modification_time := 1690000000, deletion_time := 0, hard_links := 1,
        data_blocks := 1, direct_block_pointer := 8,
        single_indirect_pointer := 0, double_indirect_pointer := 0,
        triple_indirect_pointer := 0, reserved := List.replicate 156 0 } :=
  ⟨by decide, by decide, updateInode0_reset sb1 staleRootImage (Or.inl (by decide))⟩

/-- C4: after `checkInodeBitmapConsistency`, bit `i` of the inode bitmap on the image
is set exactly when inode `i` is live, for every `i < 80`. -/
theorem inode_bitmap_postcondition (img : Image) (i : Nat) (hi : i < 80) :
    maskBit (checkInodeBitmapConsistency sb1 img).1.inode_bitmap i = 1 ↔
      ((checkInodeBitmapConsistency sb1 img).1.inodes i).hard_links > 0 ∧
      ((checkInodeBitmapConsistency sb1 img).1.inodes i).deletion_time = 0 := by
  rw [maskBit_eq_one, checkInodeBitmapConsistency_bits sb1 img i hi,
    checkInodeBitmapConsistency_inodes, valid_iff]

/-- Witness for C4: inode 2 of an image with three live inodes and an empty inode
bitmap. -/
theorem inode_bitmap_postcondition_witness :
    maskBit (checkInodeBitmapConsistency sb1 (imageOf [8, 9, 10] [])).1.inode_bitmap 2 = 1 ↔
      ((checkInodeBitmapConsistency sb1 (imageOf [8, 9, 10] [])).1.inodes 2).hard_links > 0 ∧
      ((checkInodeBitmapConsistency sb1 (imageOf [8, 9, 10] [])).1.inodes 2).deletion_time = 0 :=
  inode_bitmap_postcondition (imageOf [8, 9, 10] []) 2 (by decide)

/-- C5: after `checkDataBitmapConsistency`, bit `b` of the data bitmap on the image is
set exactly when some live inode has direct pointer `b`, for every `b` in `[8, 64)`. -/
theorem data_bitmap_postcondition (img : Image) (b : Nat) (h8 : 8 ≤ b) (h64 : b < 64) :
    maskBit (checkDataBitmapConsistency sb1 img).1.data_bitmap b = 1 ↔
      ∃ i, i < 80 ∧
        ((checkDataBitmapConsistency sb1 img).1.inodes i).hard_links > 0 ∧
        ((checkDataBitmapConsistency sb1 img).1.inodes i).deletion_time = 0 ∧
        ((checkDataBitmapConsistency sb1 img).1.inodes i).direct_block_pointer = b := by
  rw [maskBit_eq_one, checkDataBitmapConsistency_bits sb1 img b h8 h64,
    checkDataBitmapConsistency_inodes, referenced_loop]
  constructor
  · rintro ⟨i, hi, hv, hp, _⟩
    exact ⟨i, hi, ((valid_iff _).mp hv).1, ((valid_iff _).mp hv).2, hp⟩
  · rintro ⟨i, hi, h1, h2, hp⟩
    exact ⟨i, hi, (valid_iff _).mpr ⟨h1, h2⟩, hp, by omega, h8, h64⟩

/-- Witness for C5: block 9 of an image with three live inodes and an empty data
bitmap. -/
theorem data_bitmap_postcondition_witness :
    maskBit (checkDataBitmapConsistency sb1 (imageOf [8, 9, 10] [])).1.data_bitmap 9 = 1 ↔
      ∃ i, i < 80 ∧
        ((checkDataBitmapConsistency sb1 (imageOf [8, 9, 10] [])).1.inodes i).hard_links > 0 ∧
        ((checkDataBitmapConsistency sb1 (imageOf [8, 9, 10] [])).1.inodes i).deletion_time = 0 ∧
        ((checkDataBitmapConsistency sb1 (imageOf [8, 9, 10] [])).1.inodes i).direct_block_pointer
          = 9 :=
  data_bitmap_postcondition (imageOf [8, 9, 10] []) 9 (by decide) (by decide)

/-- C9: a second run of `checkInodeBitmapConsistency`, and of
`checkDataBitmapConsistency`, right after a first one ends with `modified = false`
and leaves the image of the first run. -/
theorem bitmap_reconciliation_idempotent (img : Image) :
    checkInodeBitmapConsistency sb1 (checkInodeBitmapConsistency sb1 img).1
      = ((checkInodeBitmapConsistency sb1 img).1, false) ∧
    checkDataBitmapConsistency sb1 (checkDataBitmapConsistency sb1 img).1
      = ((checkDataBitmapConsistency sb1 img).1, false) :=
  ⟨checkInodeBitmapConsistency_twice sb1 img, checkDataBitmapConsistency_twice sb1 img⟩

/-! ## Bad-block repair -/

theorem badBlockInner_inodes (sb : Superblock) (inodes : Nat → Inode) (i : Nat)
    (s : List Nat × (Nat → Inode) × Bool) (j : Nat) (h : s.2.1 = inodes) :
    (badBlockInner sb (inodes i) i s j).2.1 = inodes := by
  unfold badBlockInner
  dsimp only
  split
  · rw [h]; exact Function.update_eq_self i inodes
  · exact h

theorem badBlockBody_inodes (sb : Superblock) (s : (Nat → Inode) × Bool) (i : Nat) :
    (badBlockBody sb s i).1 = s.1 := by
  unfold badBlockBody
  dsimp only
  split
  · exact foldl_range_inv (badBlockInner sb (s.1 i) i) (fun _ t => t.2.1 = s.1) _ 4 rfl
      (fun j t _ ht => badBlockInner_inodes sb s.1 i t j ht)
  · rfl

/-- The record that `checkBadBlocks` writes is the one it read: the stage leaves
every inode record of the image as it was. -/
theorem checkBadBlocks_image (sb : Superblock) (img : Image) :
    (checkBadBlocks sb img).1 = img := by
  unfold checkBadBlocks
  dsimp only
  have h : ((List.range sb.inode_count).foldl (badBlockBody sb) (img.inodes, false)).1
      = img.inodes :=
    foldl_range_inv (badBlockBody sb) (fun _ t => t.1 = img.inodes) _ _ rfl
      (fun j t _ ht => (badBlockBody_inodes sb t j).trans ht)
  rw [h]

set_option maxRecDepth 100000 in
/-- C1 (evaluation at the failing input): inode 0 is live with direct pointer
`69 = total_blocks + 5`; `checkBadBlocks` reports a bad block (`found_bad`) and the
record on the image still has direct pointer 69. -/
theorem checkBadBlocks_keeps_bad_pointer :
    ((imageOf [69] []).inodes 0).valid = true ∧
    ((imageOf [69] []).inodes 0).direct_block_pointer = 69 ∧
    (checkBadBlocks sb1 (imageOf [69] [])).2 = true ∧
    ((checkBadBlocks sb1 (imageOf [69] [])).1.inodes 0).direct_block_pointer = 69 := by
  refine ⟨by decide, by decide, by decide, ?_⟩
  rw [checkBadBlocks_image]
  decide

/-! ## Duplicate-block repair: the table of reference counts -/

set_option maxRecDepth 100000 in
/-- C10 (evaluation at the failing input): inode 0 is live with direct pointer 69;
the second loop of `checkDuplicateBlocks` reads `block_counts[69]`, outside the
64-entry array, and the run has no defined outcome. -/
theorem checkDuplicateBlocks_out_of_bounds :
    ((imageOf [69] []).inodes 0).valid = true ∧
    ((imageOf [69] []).inodes 0).direct_block_pointer = 69 ∧
    readCount (fun _ => 0) 69 = none ∧
    reassignBody sb1
      { inodes := (imageOf [69] []).inodes, data_bitmap := (imageOf [69] []).data_bitmap,
        block_counts := fun _ => 0, found_duplicates := false, no_free_blocks := false } 0
      = none ∧
    checkDuplicateBlocks sb1 (imageOf [69] []) = none := by
  refine ⟨by decide, by decide, by decide, Option.isNone_iff_eq_none.mp (by decide),
    Option.isNone_iff_eq_none.mp (by decide)⟩

/-! ## Counting -/

theorem countP_change_one {α : Type} (l : List α) (hnd : l.Nodup) (x : α) (hx : x ∈ l)
    (p q : α → Bool) (h : ∀ y, y ≠ x → q y = p y) :
    l.countP q + (if p x = true then 1 else 0) = l.countP p + (if q x = true then 1 else 0) := by
  induction l with
  | nil => cases hx
  | cons a l ih =>
    rw [List.nodup_cons] at hnd
    rw [List.countP_cons, List.countP_cons]
    by_cases hax : a = x
    · subst hax
      have hc : l.countP q = l.countP p := by
        apply List.countP_congr
        intro y hy
        have : y ≠ a := by rintro rfl; exact hnd.1 hy
        rw [h y this]
      rw [hc]; omega
    · have hxl : x ∈ l := by
        rcases List.mem_cons.mp hx with h1 | h1
        · exact absurd h1.symm hax
        · exact h1
      have := ih hnd.2 hxl
      rw [h a hax]; omega

theorem sum_map_change_one {α : Type} (l : List α) (hnd : l.Nodup) (x : α) (hx : x ∈ l)
    (f g : α → Nat) (h : ∀ y, y ≠ x → g y = f y) :
    (l.map g).sum + f x = (l.map f).sum + g x := by
  induction l with
  | nil => cases hx
  | cons a l ih =>
    rw [List.nodup_cons] at hnd
    simp only [List.map_cons, List.sum_cons]
    by_cases hax : a = x
    · subst hax
      have hc : l.map g = l.map f := by
        apply List.map_congr_left
        intro y hy
        have : y ≠ a := by rintro rfl; exact hnd.1 hy
        exact h y this
      rw [hc]; omega
    · have hxl : x ∈ l := by
        rcases List.mem_cons.mp hx with h1 | h1
        · exact absurd h1.symm hax
        · exact h1
      have := ih hnd.2 hxl
      rw [h a hax]; omega

theorem two_le_countP {α : Type} [DecidableEq α] (l : List α) (hnd : l.Nodup) (p : α → Bool)
    (x y : α) (hx : x ∈ l) (hy : y ∈ l) (hxy : x ≠ y) (hpx : p x = true) (hpy : p y = true) :
    2 ≤ l.countP p := by
  let q : α → Bool := fun z => !decide (z = x) && p z
  have hqx : q x = false := by simp [q]
  have h := countP_change_one l hnd x hx p q (by intro z hz; simp [q, hz])
  have hq : 0 < l.countP q :=
    List.countP_pos_iff.mpr ⟨y, hy, by simp [q, Ne.symm hxy, hpy]⟩
  rw [if_pos hpx, hqx, if_neg (by simp)] at h
  omega

theorem exists_two_of_countP {α : Type} [DecidableEq α] (l : List α) (hnd : l.Nodup)
    (p : α → Bool) (h2 : 2 ≤ l.countP p) :
    ∃ x y, x ∈ l ∧ y ∈ l ∧ x ≠ y ∧ p x = true ∧ p y = true := by
  obtain ⟨x, hx, hpx⟩ := List.countP_pos_iff.mp (show 0 < l.countP p by omega)
  let q : α → Bool := fun z => !decide (z = x) && p z
  have hqx : q x = false := by simp [q]
  have h := countP_change_one l hnd x hx p q (by intro z hz; simp [q, hz])
  rw [if_pos hpx, hqx, if_neg (by simp)] at h
  obtain ⟨y, hy, hqy⟩ := List.countP_pos_iff.mp (show 0 < l.countP q by omega)
  by_cases hyx : y = x
  · simp [q, hyx] at hqy
  · simp [q, hyx] at hqy
    exact ⟨x, y, hx, hy, fun h => hyx h.symm, hpx, hqy⟩

/-! ## `findFreeBlock` -/

theorem shift_test_eq (bitmap : Nat → Nat) (b : Nat) :
    ((bitmap (b / 8) >>> (7 - b % 8)) &&& 1 = 0) ↔ bitOf bitmap b = false :=
  shift_and_one _ _

theorem findFreeBlockFrom_spec (bitmap : Nat → Nat) (tb : Nat) :
    ∀ fuel block, tb ≤ block + fuel →
      (block ≤ findFreeBlockFrom bitmap tb fuel block ∧
        findFreeBlockFrom bitmap tb fuel block < tb ∧
        bitOf bitmap (findFreeBlockFrom bitmap tb fuel block) = false ∧
        ∀ b, block ≤ b → b < findFreeBlockFrom bitmap tb fuel block → bitOf bitmap b = true) ∨
      (findFreeBlockFrom bitmap tb fuel block = 0 ∧
        ∀ b, block ≤ b → b < tb → bitOf bitmap b = true) := by
  intro fuel
  induction fuel with
  | zero =>
    intro block h
    right
    exact ⟨rfl, fun b h1 h2 => by omega⟩
  | succ fuel ih =>
    intro block h
    unfold findFreeBlockFrom
    by_cases hlt : block < tb
    · simp only [hlt, if_true]
      by_cases hbit : ((bitmap (block / 8) >>> (7 - block % 8)) &&& 1) = 0
      · simp only [hbit, if_true]
        left
        exact ⟨Nat.le_refl _, hlt, (shift_test_eq bitmap block).mp hbit,
          fun b h1 h2 => by omega⟩
      · simp only [hbit, if_false]
        have hset : bitOf bitmap block = true := by
          cases hb : bitOf bitmap block
          · exact absurd ((shift_test_eq bitmap block).mpr hb) hbit
          · rfl
        rcases ih (block + 1) (by omega) with ⟨h1, h2, h3, h4⟩ | ⟨h1, h2⟩
        · left
          refine ⟨by omega, h2, h3, ?_⟩
          intro b hb1 hb2
          by_cases hbb : b = block
          · rw [hbb]; exact hset
          · exact h4 b (by omega) hb2
        · right
          refine ⟨h1, ?_⟩
          intro b hb1 hb2
          by_cases hbb : b = block
          · rw [hbb]; exact hset
          · exact h2 b (by omega) hb2
    · simp only [hlt, if_false]
      right
      exact ⟨trivial, fun b h1 h2 => by omega⟩

theorem findFreeBlock_ne_zero (bitmap : Nat → Nat) (tb fdb : Nat)
    (h : findFreeBlock bitmap tb fdb ≠ 0) :
    fdb ≤ findFreeBlock bitmap tb fdb ∧ findFreeBlock bitmap tb fdb < tb ∧
      bitOf bitmap (findFreeBlock bitmap tb fdb) = false ∧
      ∀ b, fdb ≤ b → b < findFreeBlock bitmap tb fdb → bitOf bitmap b = true := by
  unfold findFreeBlock at h ⊢
  rcases findFreeBlockFrom_spec bitmap tb (tb - fdb) fdb (by omega) with h1 | h1
  · exact h1
  · exact absurd h1.1 h

theorem findFreeBlock_eq_zero (bitmap : Nat → Nat) (tb fdb : Nat) (hf : 0 < fdb)
    (h : findFreeBlock bitmap tb fdb = 0) :
    ∀ b, fdb ≤ b → b < tb → bitOf bitmap b = true := by
  unfold findFreeBlock at h
  rcases findFreeBlockFrom_spec bitmap tb (tb - fdb) fdb (by omega) with h1 | h1
  · omega
  · exact h1.2

theorem findFreeBlock_full (bitmap : Nat → Nat) (tb fdb : Nat)
    (h : ∀ b, fdb ≤ b → b < tb → bitOf bitmap b = true) :
    findFreeBlock bitmap tb fdb = 0 := by
  by_contra hne
  obtain ⟨h1, h2, h3, _⟩ := findFreeBlock_ne_zero bitmap tb fdb hne
  rw [h _ h1 h2] at h3
  cases h3

/-! ## Duplicate-block repair: the first loop -/

theorem claimants_succ (inodes : Nat → Inode) (m b : Nat) :
    claimants inodes (m + 1) b = claimants inodes m b +
      (if ((inodes m).valid && (inodes m).direct_block_pointer == b) = true then 1 else 0) := by
  unfold claimants
  rw [List.range_succ, List.countP_append, List.countP_cons, List.countP_nil]
  omega

theorem claimants_pos (inodes : Nat → Inode) (n b j : Nat) (hj : j < n)
    (hv : (inodes j).valid = true) (hp : (inodes j).direct_block_pointer = b) :
    1 ≤ claimants inodes n b := by
  unfold claimants
  exact List.countP_pos_iff.mpr ⟨j, List.mem_range.mpr hj, by simp [hv, hp]⟩

theorem exists_of_claimants_pos (inodes : Nat → Inode) (n b : Nat)
    (h : 1 ≤ claimants inodes n b) :
    ∃ j, j < n ∧ (inodes j).valid = true ∧ (inodes j).direct_block_pointer = b := by
  unfold claimants at h
  obtain ⟨j, hj, hp⟩ := List.countP_pos_iff.mp h
  simp only [Bool.and_eq_true, beq_iff_eq] at hp
  exact ⟨j, List.mem_range.mp hj, hp.1, hp.2⟩

theorem claimants_two (inodes : Nat → Inode) (n b i j : Nat) (hi : i < n) (hj : j < n)
    (hij : i ≠ j) (hvi : (inodes i).valid = true) (hpi : (inodes i).direct_block_pointer = b)
    (hvj : (inodes j).valid = true) (hpj : (inodes j).direct_block_pointer = b) :
    2 ≤ claimants inodes n b := by
  unfold claimants
  exact two_le_countP _ (List.nodup_range n) _ i j (List.mem_range.mpr hi)
    (List.mem_range.mpr hj) hij (by simp [hvi, hpi]) (by simp [hvj, hpj])

theorem exists_two_of_claimants (inodes : Nat → Inode) (n b : Nat)
    (h : 2 ≤ claimants inodes n b) :
    ∃ i j, i < n ∧ j < n ∧ i ≠ j ∧
      (inodes i).valid = true ∧ (inodes i).direct_block_pointer = b ∧
      (inodes j).valid = true ∧ (inodes j).direct_block_pointer = b := by
  unfold claimants at h
  obtain ⟨i, j, hi, hj, hij, hpi, hpj⟩ := exists_two_of_countP _ (List.nodup_range n) _ h
  simp only [Bool.and_eq_true, beq_iff_eq] at hpi hpj
  exact ⟨i, j, List.mem_range.mp hi, List.mem_range.mp hj, hij, hpi.1, hpi.2, hpj.1, hpj.2⟩

theorem countBody_loop (sb : Superblock) (inodes : Nat → Inode) (n : Nat)
    (htb : sb.total_blocks ≤ TOTAL_BLOCKS) :
    ∃ c, (List.range n).foldlM (countBody sb inodes) (fun _ => 0) = some c ∧
      ∀ b, c b = if b ≠ 0 ∧ sb.first_data_block ≤ b ∧ b < sb.total_blocks
        then claimants inodes n b else 0 := by
  refine foldlM_range_inv (countBody sb inodes)
    (fun m c => ∀ b, c b = if b ≠ 0 ∧ sb.first_data_block ≤ b ∧ b < sb.total_blocks
        then claimants inodes m b else 0)
    (fun _ => 0) n (by intro b; simp [claimants]) ?_
  intro m c _ hc
  unfold countBody
  dsimp only
  by_cases hv : (inodes m).hard_links > 0 ∧ (inodes m).deletion_time = 0
  · have hval : (inodes m).valid = true := (valid_iff _).mpr hv
    rw [if_pos hv]
    by_cases hr : (inodes m).direct_block_pointer ≠ 0 ∧
        (inodes m).direct_block_pointer ≥ sb.first_data_block ∧
        (inodes m).direct_block_pointer < sb.total_blocks
    · rw [if_pos hr]
      unfold incrCount
      rw [if_pos (by omega)]
      refine ⟨_, rfl, ?_⟩
      intro b
      rw [claimants_succ, hval]
      by_cases hb : b = (inodes m).direct_block_pointer
      · subst hb
        rw [Function.update_same, hc]
        have h1 : sb.first_data_block ≤ (inodes m).direct_block_pointer := hr.2.1
        simp [hr.1, hr.2.2, h1]
      · rw [Function.update_noteq hb, hc]
        have : ¬ (inodes m).direct_block_pointer = b := fun h => hb h.symm
        simp [this]
    · rw [if_neg hr]
      refine ⟨_, rfl, ?_⟩
      intro b
      rw [claimants_succ, hval, hc]
      by_cases hb : (inodes m).direct_block_pointer = b
      · subst hb
        rw [if_neg hr, if_neg hr]
      · simp [hb]
  · have hval : (inodes m).valid = false := by
      cases h : (inodes m).valid
      · rfl
      · exact absurd ((valid_iff _).mp h) hv
    rw [if_neg hv]
    refine ⟨_, rfl, ?_⟩
    intro b
    rw [claimants_succ, hval, hc]
    simp

/-! ## Duplicate-block repair: one iteration of the second loop -/

theorem reassignBody_cases (sb : Superblock) (s : DupState) (m : Nat)
    (htb : sb.total_blocks ≤ TOTAL_BLOCKS)
    (hb : (s.inodes m).valid = true → (s.inodes m).direct_block_pointer < TOTAL_BLOCKS) :
    (reassignBody sb s m = some s ∧
      ((s.inodes m).valid = false ∨ (s.inodes m).direct_block_pointer = 0 ∨
        s.block_counts (s.inodes m).direct_block_pointer ≤ 1)) ∨
    (reassignBody sb s m = some { s with no_free_blocks := true } ∧
      (s.inodes m).valid = true ∧ (s.inodes m).direct_block_pointer ≠ 0 ∧
      1 < s.block_counts (s.inodes m).direct_block_pointer ∧
      findFreeBlock s.data_bitmap sb.total_blocks sb.first_data_block = 0) ∨
    (reassignBody sb s m = some (movedState s m (s.inodes m).direct_block_pointer
        (findFreeBlock s.data_bitmap sb.total_blocks sb.first_data_block)) ∧
      (s.inodes m).valid = true ∧ (s.inodes m).direct_block_pointer ≠ 0 ∧
      1 < s.block_counts (s.inodes m).direct_block_pointer ∧
      findFreeBlock s.data_bitmap sb.total_blocks sb.first_data_block ≠ 0) := by
  unfold reassignBody
  dsimp only
  by_cases hv : (s.inodes m).hard_links > 0 ∧ (s.inodes m).deletion_time = 0
  · have hval : (s.inodes m).valid = true := (valid_iff _).mpr hv
    rw [if_pos hv]
    by_cases h0 : (s.inodes m).direct_block_pointer = 0
    · left
      rw [if_neg (by simpa using h0)]
      exact ⟨rfl, Or.inr (Or.inl h0)⟩
    · rw [if_pos h0]
      have hlt := hb hval
      unfold readCount
      rw [if_pos hlt]
      rw [Option.some_bind]
      by_cases hc : s.block_counts (s.inodes m).direct_block_pointer > 1
      · rw [if_pos hc]
        by_cases hf : findFreeBlock s.data_bitmap sb.total_blocks sb.first_data_block = 0
        · right; left
          rw [if_pos hf]
          exact ⟨rfl, hval, h0, hc, hf⟩
        · right; right
          rw [if_neg hf]
          have hnb := (findFreeBlock_ne_zero _ _ _ hf).2.1
          unfold decrCount incrCount
          rw [if_pos hlt, Option.some_bind, if_pos (by omega), Option.some_bind]
          exact ⟨rfl, hval, h0, hc, hf⟩
      · left
        rw [if_neg hc]
        exact ⟨rfl, Or.inr (Or.inr (by omega))⟩
  · left
    rw [if_neg hv]
    refine ⟨rfl, Or.inl ?_⟩
    cases h : (s.inodes m).valid
    · rfl
    · exact absurd ((valid_iff _).mp h) hv

/-! ## Duplicate-block repair: the invariant of the second loop -/

theorem DupInv.valid_eq {sb : Superblock} {ino : Nat → Inode} {bm0 : Nat → Nat} {m : Nat}
    {s : DupState} (h : DupInv sb ino bm0 m s) (j : Nat) :
    (s.inodes j).valid = (ino j).valid := by
  have := congrArg Inode.valid (h.frame j)
  exact this

theorem DupInv.in_range {sb : Superblock} {ino : Nat → Inode} {bm0 : Nat → Nat} {m : Nat}
    {s : DupState} (h : DupInv sb ino bm0 m s) (b : Nat) (hb : 1 ≤ s.block_counts b) :
    sb.first_data_block ≤ b ∧ b < sb.total_blocks := by
  by_contra hn
  have := h.counts_out b hn
  omega

/-- The block that inode `m` claims has no claimant among the inodes already
visited, as long as no reassignment has failed. -/
theorem DupInv.no_earlier {sb : Superblock} {ino : Nat → Inode} {bm0 : Nat → Nat} {m : Nat}
    {s : DupState} (h : DupInv sb ino bm0 m s) (hm : m < sb.inode_count)
    (hnf : s.no_free_blocks = false) (hv : (s.inodes m).valid = true)
    (hf : sb.first_data_block ≤ (s.inodes m).direct_block_pointer)
    (h0 : 0 < sb.first_data_block) (j : Nat) (hj : j < m)
    (hvj : (s.inodes j).valid = true) :
    (s.inodes j).direct_block_pointer ≠ (s.inodes m).direct_block_pointer := by
  intro heq
  have hlt := h.bounded m hm hv
  have h1 := h.settled hnf j hj hvj (by omega)
  rw [heq, h.counts_in _ hf hlt] at h1
  have h2 := claimants_two s.inodes sb.inode_count _ j m (by omega) hm (by omega) hvj heq hv rfl
  omega

theorem DupInv.later_claimant_iff {sb : Superblock} {ino : Nat → Inode} {bm0 : Nat → Nat}
    {m : Nat} {s : DupState} (h : DupInv sb ino bm0 m s) (hm : m < sb.inode_count)
    (hnf : s.no_free_blocks = false) (hv : (s.inodes m).valid = true)
    (hf : sb.first_data_block ≤ (s.inodes m).direct_block_pointer)
    (h0 : 0 < sb.first_data_block) :
    1 < s.block_counts (s.inodes m).direct_block_pointer ↔
      ∃ k, m < k ∧ k < sb.inode_count ∧ (ino k).valid = true ∧
        (ino k).direct_block_pointer = (ino m).direct_block_pointer := by
  have hlt := h.bounded m hm hv
  rw [h.counts_in _ hf hlt]
  constructor
  · intro hc
    obtain ⟨i, j, hi, hj, hij, hvi, hpi, hvj, hpj⟩ :=
      exists_two_of_claimants s.inodes sb.inode_count _ hc
    have hi' : ¬ i < m := fun hlt' => h.no_earlier hm hnf hv hf h0 i hlt' hvi hpi
    have hj' : ¬ j < m := fun hlt' => h.no_earlier hm hnf hv hf h0 j hlt' hvj hpj
    by_cases him : i = m
    · refine ⟨j, by omega, hj, ?_, ?_⟩
      · rw [← h.valid_eq]; exact hvj
      · rw [← h.later j (by omega), ← h.later m (Nat.le_refl m)]; exact hpj
    · refine ⟨i, by omega, hi, ?_, ?_⟩
      · rw [← h.valid_eq]; exact hvi
      · rw [← h.later i (by omega), ← h.later m (Nat.le_refl m)]; exact hpi
  · rintro ⟨k, hk1, hk2, hvk, hpk⟩
    have hvk' : (s.inodes k).valid = true := by rw [h.valid_eq]; exact hvk
    have hpk' : (s.inodes k).direct_block_pointer = (s.inodes m).direct_block_pointer := by
      rw [h.later k (by omega), h.later m (Nat.le_refl m)]; exact hpk
    exact claimants_two s.inodes sb.inode_count _ m k hm hk2 (by omega) hv rfl hvk' hpk'

theorem DupInv.keep {sb : Superblock} {ino : Nat → Inode} {bm0 : Nat → Nat} {m : Nat}
    {s : DupState} (h : DupInv sb ino bm0 m s) (hm : m < sb.inode_count)
    (h0 : 0 < sb.first_data_block)
    (hc : (s.inodes m).valid = false ∨ (s.inodes m).direct_block_pointer = 0 ∨
      s.block_counts (s.inodes m).direct_block_pointer ≤ 1) :
    DupInv sb ino bm0 (m + 1) s where
  later := fun j hj => h.later j (by omega)
  frame := h.frame
  counts_in := h.counts_in
  counts_out := h.counts_out
  marked := h.marked
  bounded := h.bounded
  settled := by
    intro hnf j hj hvj hpj
    by_cases hjm : j = m
    · subst hjm
      rcases hc with hc | hc | hc
      · rw [hc] at hvj; cases hvj
      · exact absurd hc hpj
      · exact hc
    · exact h.settled hnf j (by omega) hvj hpj
  full := h.full
  unwritten := h.unwritten
  grows := h.grows
  moved := by
    intro hnf j hj hvj hfj
    by_cases hjm : j = m
    · subst hjm
      have hv : (s.inodes j).valid = true := by rw [h.valid_eq]; exact hvj
      have hp : (s.inodes j).direct_block_pointer = (ino j).direct_block_pointer := by
        rw [h.later j (Nat.le_refl j)]
      have hf : sb.first_data_block ≤ (s.inodes j).direct_block_pointer := by rw [hp]; exact hfj
      have hiff := h.later_claimant_iff hm hnf hv hf h0
      have hle : s.block_counts (s.inodes j).direct_block_pointer ≤ 1 := by
        rcases hc with hc | hc | hc
        · rw [hc] at hv; cases hv
        · omega
        · exact hc
      refine ⟨fun hk => ?_, fun _ => h.later j (Nat.le_refl j)⟩
      have := hiff.mpr hk
      omega
    · exact h.moved hnf j (by omega) hvj hfj

theorem DupInv.noFree {sb : Superblock} {ino : Nat → Inode} {bm0 : Nat → Nat} {m : Nat}
    {s : DupState} (h : DupInv sb ino bm0 m s)
    (hfull : findFreeBlock s.data_bitmap sb.total_blocks sb.first_data_block = 0) :
    DupInv sb ino bm0 (m + 1) { s with no_free_blocks := true } where
  later := fun j hj => h.later j (by omega)
  frame := h.frame
  counts_in := h.counts_in
  counts_out := h.counts_out
  marked := h.marked
  bounded := h.bounded
  settled := by intro hnf; cases hnf
  full := fun _ => hfull
  unwritten := h.unwritten
  grows := h.grows
  moved := by intro hnf; cases hnf

theorem movedState_inodes_ne (s : DupState) (m b nb j : Nat) (hj : j ≠ m) :
    (movedState s m b nb).inodes j = s.inodes j := by
  unfold movedState
  exact Function.update_noteq hj _ _

theorem movedState_inodes_same (s : DupState) (m b nb : Nat) :
    (movedState s m b nb).inodes m = { s.inodes m with direct_block_pointer := nb } := by
  unfold movedState
  exact Function.update_same _ _ _

theorem movedState_valid (s : DupState) (m b nb j : Nat) :
    ((movedState s m b nb).inodes j).valid = (s.inodes j).valid := by
  by_cases hj : j = m
  · subst hj; rw [movedState_inodes_same]; rfl
  · rw [movedState_inodes_ne s m b nb j hj]

theorem movedState_counts (s : DupState) (m b nb b' : Nat) (hne : b ≠ nb) :
    (movedState s m b nb).block_counts b' =
      if b' = nb then s.block_counts nb + 1
      else if b' = b then s.block_counts b - 1 else s.block_counts b' := by
  unfold movedState
  dsimp only
  by_cases h1 : b' = nb
  · subst h1
    rw [if_pos rfl, Function.update_same, Function.update_noteq (Ne.symm hne)]
  · rw [if_neg h1, Function.update_noteq h1]
    by_cases h2 : b' = b
    · subst h2; rw [if_pos rfl, Function.update_same]
    · rw [if_neg h2, Function.update_noteq h2]

theorem movedState_bits (s : DupState) (m b nb b' : Nat) :
    bitOf (movedState s m b nb).data_bitmap b' = (bitOf s.data_bitmap b' || decide (nb = b')) := by
  unfold movedState
  dsimp only
  rw [markBlockUsed_eq, bitOf_orMask]

theorem movedState_claimants (s : DupState) (m b nb n b' : Nat) (hm : m < n)
    (hv : (s.inodes m).valid = true) (hb : (s.inodes m).direct_block_pointer = b) :
    claimants (movedState s m b nb).inodes n b' + (if b = b' then 1 else 0) =
      claimants s.inodes n b' + (if nb = b' then 1 else 0) := by
  unfold claimants
  have h := countP_change_one (List.range n) (List.nodup_range n) m (List.mem_range.mpr hm)
    (fun i => (s.inodes i).valid && (s.inodes i).direct_block_pointer == b')
    (fun i => ((movedState s m b nb).inodes i).valid &&
      ((movedState s m b nb).inodes i).direct_block_pointer == b')
    (by intro y hy; simp only [movedState_inodes_ne s m b nb y hy])
  simp only [movedState_valid, hv, hb, Bool.true_and, beq_iff_eq] at h
  rw [movedState_inodes_same] at h
  simp only [movedState_valid] 
  exact h

theorem DupInv.move {sb : Superblock} {ino : Nat → Inode} {bm0 : Nat → Nat} {m : Nat}
    {s : DupState} (h : DupInv sb ino bm0 m s) (hm : m < sb.inode_count)
    (h0 : 0 < sb.first_data_block) (b nb : Nat)
    (hv : (s.inodes m).valid = true) (hb : (s.inodes m).direct_block_pointer = b)
    (hc : 1 < s.block_counts b)
    (hnb : nb = findFreeBlock s.data_bitmap sb.total_blocks sb.first_data_block)
    (hnz : nb ≠ 0) :
    DupInv sb ino bm0 (m + 1) (movedState s m b nb) := by
  have hfree := findFreeBlock_ne_zero s.data_bitmap sb.total_blocks sb.first_data_block
    (by rw [← hnb]; exact hnz)
  rw [← hnb] at hfree
  obtain ⟨hn1, hn2, hn3, _⟩ := hfree
  have hbr := h.in_range b (by omega)
  have hbset := h.marked b hbr.1 hbr.2 (by omega)
  have hne : b ≠ nb := by
    rintro rfl
    rw [hbset] at hn3; cases hn3
  have hcn : s.block_counts nb = 0 := by
    by_contra hpos
    have := h.marked nb hn1 hn2 (by omega)
    rw [this] at hn3; cases hn3
  have hnf_eq : (movedState s m b nb).no_free_blocks = s.no_free_blocks := rfl
  refine
    { later := ?_, frame := ?_, counts_in := ?_, counts_out := ?_, marked := ?_,
      bounded := ?_, settled := ?_, full := ?_, unwritten := ?_, grows := ?_, moved := ?_ }
  · intro j hj
    rw [movedState_inodes_ne s m b nb j (by omega)]
    exact h.later j (by omega)
  · intro j
    by_cases hj : j = m
    · subst hj
      rw [movedState_inodes_same]
      exact h.frame j
    · rw [movedState_inodes_ne s m b nb j hj]
      exact h.frame j
  · intro b' h1 h2
    have hcl := movedState_claimants s m b nb sb.inode_count b' hm hv hb
    rw [movedState_counts s m b nb b' hne]
    have hcin := h.counts_in b' h1 h2
    by_cases e1 : b' = nb
    · subst e1
      rw [if_pos rfl]
      rw [if_neg hne, if_pos rfl] at hcl
      omega
    · rw [if_neg e1]
      by_cases e2 : b' = b
      · subst e2
        rw [if_pos rfl]
        rw [if_pos rfl, if_neg (fun h => e1 h.symm)] at hcl
        omega
      · rw [if_neg e2]
        rw [if_neg (fun h => e2 h.symm), if_neg (fun h => e1 h.symm)] at hcl
        omega
  · intro b' hout
    rw [movedState_counts s m b nb b' hne]
    have e1 : b' ≠ nb := by rintro rfl; exact hout ⟨hn1, hn2⟩
    have e2 : b' ≠ b := by rintro rfl; exact hout hbr
    rw [if_neg e1, if_neg e2]
    exact h.counts_out b' hout
  · intro b' h1 h2 hpos
    rw [movedState_bits]
    rw [movedState_counts s m b nb b' hne] at hpos
    by_cases e1 : b' = nb
    · subst e1; simp
    · rw [if_neg e1] at hpos
      by_cases e2 : b' = b
      · subst e2; rw [hbset]; rfl
      · rw [if_neg e2] at hpos
        rw [h.marked b' h1 h2 hpos]; rfl
  · intro j hj hvj
    by_cases e : j = m
    · subst e
      rw [movedState_inodes_same]
      exact hn2
    · rw [movedState_inodes_ne s m b nb j e] at hvj ⊢
      exact h.bounded j hj hvj
  · intro hnf j hj hvj hpj
    rw [hnf_eq] at hnf
    by_cases e : j = m
    · subst e
      rw [movedState_inodes_same]
      rw [movedState_counts s j b nb nb hne, if_pos rfl]
      omega
    · rw [movedState_inodes_ne s m b nb j e] at hvj hpj ⊢
      have hold := h.settled hnf j (by omega) hvj hpj
      rw [movedState_counts s m b nb _ hne]
      by_cases e1 : (s.inodes j).direct_block_pointer = nb
      · exfalso
        have := claimants_pos s.inodes sb.inode_count nb j (by omega) hvj e1
        rw [← h.counts_in nb hn1 hn2] at this
        omega
      · rw [if_neg e1]
        by_cases e2 : (s.inodes j).direct_block_pointer = b
        · rw [if_pos e2]; rw [e2] at hold; omega
        · rw [if_neg e2]; exact hold
  · intro hnf
    rw [hnf_eq] at hnf
    have := h.full hnf
    rw [← hnb] at this
    exact absurd this hnz
  · intro hfd
    cases hfd
  · intro b' hb'
    rw [movedState_bits, h.grows b' hb']
    rfl
  · intro hnf j hj hvj hfj
    rw [hnf_eq] at hnf
    by_cases e : j = m
    · subst e
      have hp : (s.inodes j).direct_block_pointer = (ino j).direct_block_pointer := by
        rw [h.later j (Nat.le_refl j)]
      have hf : sb.first_data_block ≤ (s.inodes j).direct_block_pointer := by rw [hp]; exact hfj
      have hiff := h.later_claimant_iff hm hnf hv hf h0
      rw [movedState_inodes_same]
      have hclear : bitOf bm0 nb = false := by
        cases hb0 : bitOf bm0 nb
        · rfl
        · rw [h.grows nb hb0] at hn3; cases hn3
      refine ⟨fun _ => ⟨?_, hn1, hn2, hclear⟩, fun hno => ?_⟩
      · show nb ≠ (ino j).direct_block_pointer
        rw [← hp, hb]
        exact Ne.symm hne
      · exfalso
        apply hno
        apply hiff.mp
        rw [hb]; exact hc
    · rw [movedState_inodes_ne s m b nb j e]
      exact h.moved hnf j (by omega) hvj hfj

/-! ## Duplicate-block repair: the whole run -/

theorem DupInv.init (sb : Superblock) (img : Image) (c : Nat → Nat)
    (h0 : 0 < sb.first_data_block) (hpb : PointersBounded sb img)
    (hrm : ReferencedMarked sb img)
    (hc : ∀ b, c b = if b ≠ 0 ∧ sb.first_data_block ≤ b ∧ b < sb.total_blocks
        then claimants img.inodes sb.inode_count b else 0) :
    DupInv sb img.inodes img.data_bitmap 0
      { inodes := img.inodes, data_bitmap := img.data_bitmap, block_counts := c,
        found_duplicates := false, no_free_blocks := false } where
  later := fun _ _ => rfl
  frame := fun _ => rfl
  counts_in := by
    intro b h1 h2
    show c b = _
    rw [hc, if_pos ⟨by omega, h1, h2⟩]
  counts_out := by
    intro b hout
    show c b = 0
    rw [hc, if_neg (fun h => hout h.2)]
  marked := by
    intro b h1 h2 hpos
    have hpos' : 1 ≤ c b := hpos
    rw [hc, if_pos ⟨by omega, h1, h2⟩] at hpos'
    obtain ⟨j, hj, hv, hp⟩ := exists_of_claimants_pos _ _ _ hpos'
    have := hrm j hj hv (by rw [hp]; exact h1)
    rw [hp] at this
    exact (maskBit_eq_one _ _).mp this
  bounded := hpb
  settled := by intro _ j hj; omega
  full := by intro h; cases h
  unwritten := fun _ => rfl
  grows := fun _ h => h
  moved := by intro _ j hj; omega

theorem reassign_step (sb : Superblock) (ino : Nat → Inode) (bm0 : Nat → Nat) (m : Nat)
    (s : DupState) (h0 : 0 < sb.first_data_block) (htb : sb.total_blocks ≤ TOTAL_BLOCKS)
    (hm : m < sb.inode_count) (h : DupInv sb ino bm0 m s) :
    ∃ t, reassignBody sb s m = some t ∧ DupInv sb ino bm0 (m + 1) t := by
  have hb : (s.inodes m).valid = true → (s.inodes m).direct_block_pointer < TOTAL_BLOCKS :=
    fun hv => Nat.lt_of_lt_of_le (h.bounded m hm hv) htb
  rcases reassignBody_cases sb s m htb hb with ⟨he, hc⟩ | ⟨he, _, _, _, hf⟩ | ⟨he, hv, _, hc, hf⟩
  · exact ⟨_, he, h.keep hm h0 hc⟩
  · exact ⟨_, he, h.noFree hf⟩
  · exact ⟨_, he, h.move hm h0 _ _ hv rfl hc rfl hf⟩

theorem duplicatePasses_spec (sb : Superblock) (img : Image)
    (h0 : 0 < sb.first_data_block) (htb : sb.total_blocks ≤ TOTAL_BLOCKS)
    (hpb : PointersBounded sb img) (hrm : ReferencedMarked sb img) :
    ∃ t, duplicatePasses sb img = some t ∧
      DupInv sb img.inodes img.data_bitmap sb.inode_count t := by
  obtain ⟨c, hc1, hc2⟩ := countBody_loop sb img.inodes sb.inode_count htb
  obtain ⟨t, ht1, ht2⟩ := foldlM_range_inv (reassignBody sb)
    (fun m s => DupInv sb img.inodes img.data_bitmap m s)
    { inodes := img.inodes, data_bitmap := img.data_bitmap, block_counts := c,
      found_duplicates := false, no_free_blocks := false }
    sb.inode_count (DupInv.init sb img c h0 hpb hrm hc2)
    (fun m s hm h => reassign_step sb img.inodes img.data_bitmap m s h0 htb hm h)
  refine ⟨t, ?_, ht2⟩
  unfold duplicatePasses
  dsimp only
  rw [hc1, Option.some_bind]
  exact ht1

theorem checkDuplicateBlocks_spec (sb : Superblock) (img : Image)
    (h0 : 0 < sb.first_data_block) (htb : sb.total_blocks ≤ TOTAL_BLOCKS)
    (hpb : PointersBounded sb img) (hrm : ReferencedMarked sb img) :
    ∃ t, DupInv sb img.inodes img.data_bitmap sb.inode_count t ∧
      checkDuplicateBlocks sb img = some
        { image := { img with inodes := t.inodes, data_bitmap := t.data_bitmap }
          found_duplicates := t.found_duplicates
          no_free_blocks := t.no_free_blocks } := by
  obtain ⟨t, ht1, ht2⟩ := duplicatePasses_spec sb img h0 htb hpb hrm
  refine ⟨t, ht2, ?_⟩
  unfold checkDuplicateBlocks
  rw [ht1, Option.some_bind]
  cases hfd : t.found_duplicates
  · rw [ht2.unwritten hfd]; rfl
  · rfl

/-- A run of the second loop in which every visited inode either has a reference
count of at most one or finds no free block changes nothing but the message flag. -/
theorem reassign_loop_noop (sb : Superblock) (s0 : DupState) (n : Nat)
    (h : ∀ j, j < n → (s0.inodes j).valid = true →
      (s0.inodes j).direct_block_pointer < TOTAL_BLOCKS ∧
      (s0.block_counts (s0.inodes j).direct_block_pointer ≤ 1 ∨
        findFreeBlock s0.data_bitmap sb.total_blocks sb.first_data_block = 0))
    (htb : sb.total_blocks ≤ TOTAL_BLOCKS) :
    ∃ nf, (List.range n).foldlM (reassignBody sb) s0 = some { s0 with no_free_blocks := nf } := by
  have hstep : ∀ m s, m < n → (∃ nf, s = { s0 with no_free_blocks := nf }) →
      ∃ t, reassignBody sb s m = some t ∧ ∃ nf, t = { s0 with no_free_blocks := nf } := by
    rintro m s hm ⟨nf, rfl⟩
    have hb : (s0.inodes m).valid = true → (s0.inodes m).direct_block_pointer < TOTAL_BLOCKS :=
      fun hv => (h m hm hv).1
    rcases reassignBody_cases sb { s0 with no_free_blocks := nf } m htb hb with
      ⟨he, _⟩ | ⟨he, _⟩ | ⟨_, hv, _, hc, hf⟩
    · exact ⟨_, he, nf, rfl⟩
    · exact ⟨_, he, true, rfl⟩
    · exfalso
      rcases (h m hm hv).2 with h1 | h1
      · have hc' : 1 < s0.block_counts (s0.inodes m).direct_block_pointer := hc
        omega
      · exact hf h1
  obtain ⟨t, ht, nf, hnf⟩ := foldlM_range_inv (reassignBody sb)
    (fun _ s => ∃ nf, s = { s0 with no_free_blocks := nf }) s0 n ⟨s0.no_free_blocks, rfl⟩ hstep
  exact ⟨nf, by rw [ht, hnf]⟩

theorem checkDuplicateBlocks_twice (sb : Superblock) (img : Image)
    (h0 : 0 < sb.first_data_block) (htb : sb.total_blocks ≤ TOTAL_BLOCKS)
    (hpb : PointersBounded sb img) (hrm : ReferencedMarked sb img) :
    ∃ r1 r2, checkDuplicateBlocks sb img = some r1 ∧
      checkDuplicateBlocks sb r1.image = some r2 ∧
      r2.image = r1.image ∧ r2.found_duplicates = false := by
  obtain ⟨t, hinv, hrun⟩ := checkDuplicateBlocks_spec sb img h0 htb hpb hrm
  obtain ⟨c, hc1, hc2⟩ := countBody_loop sb t.inodes sb.inode_count htb
  have hceq : ∀ b, c b = t.block_counts b := by
    intro b
    rw [hc2]
    by_cases hr : sb.first_data_block ≤ b ∧ b < sb.total_blocks
    · rw [if_pos ⟨by omega, hr.1, hr.2⟩, hinv.counts_in b hr.1 hr.2]
    · rw [if_neg (fun h => hr h.2), hinv.counts_out b hr]
  obtain ⟨nf, hloop⟩ := reassign_loop_noop sb
    { inodes := t.inodes, data_bitmap := t.data_bitmap, block_counts := c,
      found_duplicates := false, no_free_blocks := false } sb.inode_count
    (by
      intro j hj hv
      refine ⟨Nat.lt_of_lt_of_le (hinv.bounded j hj hv) htb, ?_⟩
      show c _ ≤ 1 ∨ _
      rw [hceq]
      cases hnf : t.no_free_blocks
      · by_cases hz : (t.inodes j).direct_block_pointer = 0
        · left
          rw [hz, hinv.counts_out 0 (by omega)]
          omega
        · exact Or.inl (hinv.settled hnf j (by omega) hv hz)
      · exact Or.inr (hinv.full hnf)) htb
  refine ⟨_, { image := { img with inodes := t.inodes, data_bitmap := t.data_bitmap },
               found_duplicates := false, no_free_blocks := nf }, hrun, ?_, rfl, rfl⟩
  unfold checkDuplicateBlocks duplicatePasses
  dsimp only
  rw [hc1, Option.some_bind, hloop, Option.some_bind]
  rfl

/-! ## Duplicate-block repair: enough clear bits -/

theorem maskBit_beq_zero (bitmap : Nat → Nat) (b : Nat) :
    (maskBit bitmap b == 0) = !bitOf bitmap b := by
  cases hb : bitOf bitmap b
  · rw [(maskBit_eq_zero bitmap b).mpr hb]; rfl
  · rw [(maskBit_eq_one bitmap b).mpr hb]; rfl

theorem mem_dataBlocks (sb : Superblock) (b : Nat) :
    b ∈ List.range' sb.first_data_block (sb.total_blocks - sb.first_data_block) ↔
      sb.first_data_block ≤ b ∧ b < sb.total_blocks := by
  rw [List.mem_range'_1]
  omega

theorem excessOf_pos (sb : Superblock) (c : Nat → Nat) (b : Nat)
    (h1 : sb.first_data_block ≤ b) (h2 : b < sb.total_blocks) (hc : 1 < c b) :
    1 ≤ excessOf sb c := by
  unfold excessOf
  have h := sum_map_change_one _ (List.nodup_range' sb.first_data_block
    (sb.total_blocks - sb.first_data_block)) b ((mem_dataBlocks sb b).mpr ⟨h1, h2⟩)
    (fun b => c b - 1) (fun y => if y = b then 0 else c y - 1)
    (by intro y hy; simp [hy])
  simp only [if_true] at h
  omega

theorem exists_clear_of_clearBits (sb : Superblock) (bitmap : Nat → Nat)
    (h : 1 ≤ clearBits sb bitmap) :
    ∃ b, sb.first_data_block ≤ b ∧ b < sb.total_blocks ∧ bitOf bitmap b = false := by
  unfold clearBits at h
  obtain ⟨b, hb, hp⟩ := List.countP_pos_iff.mp h
  rw [maskBit_beq_zero] at hp
  have := (mem_dataBlocks sb b).mp hb
  refine ⟨b, this.1, this.2, ?_⟩
  simpa using hp

theorem excessOf_congr (sb : Superblock) (c d : Nat → Nat)
    (h : ∀ b, sb.first_data_block ≤ b → b < sb.total_blocks → c b = d b) :
    excessOf sb c = excessOf sb d := by
  unfold excessOf
  congr 1
  apply List.map_congr_left
  intro b hb
  have := (mem_dataBlocks sb b).mp hb
  rw [h b this.1 this.2]

theorem DupInv.move_facts {sb : Superblock} {ino : Nat → Inode} {bm0 : Nat → Nat} {m : Nat}
    {s : DupState} (h : DupInv sb ino bm0 m s) (b nb : Nat) (hc : 1 < s.block_counts b)
    (hnb : nb = findFreeBlock s.data_bitmap sb.total_blocks sb.first_data_block)
    (hnz : nb ≠ 0) :
    sb.first_data_block ≤ nb ∧ nb < sb.total_blocks ∧ bitOf s.data_bitmap nb = false ∧
      sb.first_data_block ≤ b ∧ b < sb.total_blocks ∧ b ≠ nb ∧ s.block_counts nb = 0 := by
  have hfree := findFreeBlock_ne_zero s.data_bitmap sb.total_blocks sb.first_data_block
    (by rw [← hnb]; exact hnz)
  rw [← hnb] at hfree
  obtain ⟨hn1, hn2, hn3, _⟩ := hfree
  have hbr := h.in_range b (by omega)
  have hbset := h.marked b hbr.1 hbr.2 (by omega)
  refine ⟨hn1, hn2, hn3, hbr.1, hbr.2, ?_, ?_⟩
  · rintro rfl
    rw [hbset] at hn3; cases hn3
  · by_contra hpos
    have := h.marked nb hn1 hn2 (by omega)
    rw [this] at hn3; cases hn3

theorem movedState_excess {sb : Superblock} {ino : Nat → Inode} {bm0 : Nat → Nat} {m : Nat}
    {s : DupState} (h : DupInv sb ino bm0 m s) (b nb : Nat) (hc : 1 < s.block_counts b)
    (hnb : nb = findFreeBlock s.data_bitmap sb.total_blocks sb.first_data_block)
    (hnz : nb ≠ 0) :
    excessOf sb (movedState s m b nb).block_counts + 1 = excessOf sb s.block_counts := by
  obtain ⟨hn1, hn2, hn3, hb1, hb2, hne, hcn⟩ := h.move_facts b nb hc hnb hnz
  unfold excessOf
  have hs := sum_map_change_one _ (List.nodup_range' sb.first_data_block
    (sb.total_blocks - sb.first_data_block)) b ((mem_dataBlocks sb b).mpr ⟨hb1, hb2⟩)
    (fun y => s.block_counts y - 1) (fun y => (movedState s m b nb).block_counts y - 1)
    (by
      intro y hy
      show (movedState s m b nb).block_counts y - 1 = s.block_counts y - 1
      rw [movedState_counts s m b nb y hne]
      by_cases e : y = nb
      · rw [if_pos e, e, hcn]
      · rw [if_neg e, if_neg hy])
  have hb' : (movedState s m b nb).block_counts b = s.block_counts b - 1 := by
    rw [movedState_counts s m b nb b hne, if_neg hne, if_pos rfl]
  simp only [hb'] at hs
  omega

theorem movedState_clearBits {sb : Superblock} {ino : Nat → Inode} {bm0 : Nat → Nat} {m : Nat}
    {s : DupState} (h : DupInv sb ino bm0 m s) (b nb : Nat) (hc : 1 < s.block_counts b)
    (hnb : nb = findFreeBlock s.data_bitmap sb.total_blocks sb.first_data_block)
    (hnz : nb ≠ 0) :
    clearBits sb (movedState s m b nb).data_bitmap + 1 = clearBits sb s.data_bitmap := by
  obtain ⟨hn1, hn2, hn3, hb1, hb2, hne, hcn⟩ := h.move_facts b nb hc hnb hnz
  unfold clearBits
  have hs := countP_change_one _ (List.nodup_range' sb.first_data_block
    (sb.total_blocks - sb.first_data_block)) nb ((mem_dataBlocks sb nb).mpr ⟨hn1, hn2⟩)
    (fun y => maskBit s.data_bitmap y == 0)
    (fun y => maskBit (movedState s m b nb).data_bitmap y == 0)
    (by
      intro y hy
      show (maskBit (movedState s m b nb).data_bitmap y == 0) = (maskBit s.data_bitmap y == 0)
      rw [maskBit_beq_zero, maskBit_beq_zero, movedState_bits]
      have : ¬ nb = y := fun e => hy e.symm
      simp [this])
  have hp : (maskBit s.data_bitmap nb == 0) = true := by
    rw [maskBit_beq_zero, hn3]; rfl
  have hq : (maskBit (movedState s m b nb).data_bitmap nb == 0) = false := by
    rw [maskBit_beq_zero, movedState_bits]; simp
  simp only [hp, hq, if_true] at hs
  simp only [Bool.false_eq_true, if_false] at hs
  omega

theorem reassign_step_free (sb : Superblock) (ino : Nat → Inode) (bm0 : Nat → Nat) (m : Nat)
    (s : DupState) (h0 : 0 < sb.first_data_block) (htb : sb.total_blocks ≤ TOTAL_BLOCKS)
    (hm : m < sb.inode_count)
    (h : DupInv sb ino bm0 m s ∧ excessOf sb s.block_counts ≤ clearBits sb s.data_bitmap ∧
      s.no_free_blocks = false) :
    ∃ t, reassignBody sb s m = some t ∧
      (DupInv sb ino bm0 (m + 1) t ∧ excessOf sb t.block_counts ≤ clearBits sb t.data_bitmap ∧
        t.no_free_blocks = false) := by
  obtain ⟨hinv, hex, hnf⟩ := h
  have hb : (s.inodes m).valid = true → (s.inodes m).direct_block_pointer < TOTAL_BLOCKS :=
    fun hv => Nat.lt_of_lt_of_le (hinv.bounded m hm hv) htb
  rcases reassignBody_cases sb s m htb hb with ⟨he, hc⟩ | ⟨_, _, _, hc, hf⟩ | ⟨he, hv, _, hc, hf⟩
  · exact ⟨_, he, hinv.keep hm h0 hc, hex, hnf⟩
  · exfalso
    have hr := hinv.in_range _ (Nat.le_of_lt hc)
    have h1 := excessOf_pos sb s.block_counts _ hr.1 hr.2 hc
    obtain ⟨b', hb1, hb2, hb3⟩ := exists_clear_of_clearBits sb s.data_bitmap (by omega)
    rw [findFreeBlock_eq_zero _ _ _ h0 hf b' hb1 hb2] at hb3
    cases hb3
  · refine ⟨_, he, hinv.move hm h0 _ _ hv rfl hc rfl hf, ?_, hnf⟩
    have e1 := movedState_excess hinv _ _ hc rfl hf (m := m)
    have e2 := movedState_clearBits hinv _ _ hc rfl hf (m := m)
    omega

theorem checkDuplicateBlocks_spec_free (sb : Superblock) (img : Image)
    (h0 : 0 < sb.first_data_block) (htb : sb.total_blocks ≤ TOTAL_BLOCKS)
    (hpb : PointersBounded sb img) (hrm : ReferencedMarked sb img)
    (hfree : excessOf sb (claimants img.inodes sb.inode_count) ≤ clearBits sb img.data_bitmap) :
    ∃ t, DupInv sb img.inodes img.data_bitmap sb.inode_count t ∧
      t.no_free_blocks = false ∧
      checkDuplicateBlocks sb img = some
        { image := { img with inodes := t.inodes, data_bitmap := t.data_bitmap }
          found_duplicates := t.found_duplicates
          no_free_blocks := t.no_free_blocks } := by
  obtain ⟨c, hc1, hc2⟩ := countBody_loop sb img.inodes sb.inode_count htb
  have hce : excessOf sb c = excessOf sb (claimants img.inodes sb.inode_count) :=
    excessOf_congr sb _ _ (fun b h1 h2 => by rw [hc2, if_pos ⟨by omega, h1, h2⟩])
  obtain ⟨t, ht1, ht2, _, ht4⟩ := foldlM_range_inv (reassignBody sb)
    (fun m s => DupInv sb img.inodes img.data_bitmap m s ∧
      excessOf sb s.block_counts ≤ clearBits sb s.data_bitmap ∧ s.no_free_blocks = false)
    { inodes := img.inodes, data_bitmap := img.data_bitmap, block_counts := c,
      found_duplicates := false, no_free_blocks := false }
    sb.inode_count ⟨DupInv.init sb img c h0 hpb hrm hc2, by rw [hce]; exact hfree, rfl⟩
    (fun m s hm h => reassign_step_free sb img.inodes img.data_bitmap m s h0 htb hm h)
  refine ⟨t, ht2, ht4, ?_⟩
  unfold checkDuplicateBlocks duplicatePasses
  dsimp only
  rw [hc1, Option.some_bind, ht1, Option.some_bind]
  cases hfd : t.found_duplicates
  · rw [ht2.unwritten hfd]; rfl
  · rfl

/-! ## Claims on duplicate-block repair -/

set_option maxRecDepth 100000 in
/-- C2 (counterexample): inodes 0 and 1 are live, both with direct pointer 10, and
the data bitmap has bit 10 set and every other bit clear.  After
`checkDuplicateBlocks` the lower-index inode 0 has been moved to block 8 and the
higher-index inode 1 still has block 10. -/
theorem tiebreak_counterexample :
    ((imageOf [10, 10] [0, 0x20]).inodes 0).valid = true ∧
    ((imageOf [10, 10] [0, 0x20]).inodes 0).direct_block_pointer = 10 ∧
    ((imageOf [10, 10] [0, 0x20]).inodes 1).valid = true ∧
    ((imageOf [10, 10] [0, 0x20]).inodes 1).direct_block_pointer = 10 ∧
    clearBits sb1 (imageOf [10, 10] [0, 0x20]).data_bitmap = 55 ∧
    (checkDuplicateBlocks sb1 (imageOf [10, 10] [0, 0x20])).map
      (fun r => ((r.image.inodes 0).direct_block_pointer,
        (r.image.inodes 1).direct_block_pointer, r.no_free_blocks)) = some (8, 10, false) := by
  refine ⟨by decide, by decide, by decide, by decide, by decide, by decide⟩

/-- C2 (amended): when every live direct pointer is below `total_blocks`, every
referenced data block is marked in the data bitmap and the bitmap has at least as
many clear bits as there are claimants in excess of one per block, the run reports
no failure; a live inode with an in-range direct pointer that a higher-index live
inode shares is moved to another block of `[8, 64)` whose bit was clear at the
start, and one that no higher-index live inode shares keeps its record. -/
theorem duplicate_tiebreak (img : Image) (hpb : PointersBounded sb1 img)
    (hrm : ReferencedMarked sb1 img)
    (hfree : excessOf sb1 (claimants img.inodes 80) ≤ clearBits sb1 img.data_bitmap) :
    ∃ r, checkDuplicateBlocks sb1 img = some r ∧ r.no_free_blocks = false ∧
      ∀ i, i < 80 → (img.inodes i).valid = true → 8 ≤ (img.inodes i).direct_block_pointer →
        ((∃ k, i < k ∧ k < 80 ∧ (img.inodes k).valid = true ∧
            (img.inodes k).direct_block_pointer = (img.inodes i).direct_block_pointer) →
          (r.image.inodes i).direct_block_pointer ≠ (img.inodes i).direct_block_pointer ∧
          8 ≤ (r.image.inodes i).direct_block_pointer ∧
          (r.image.inodes i).direct_block_pointer < 64 ∧
          maskBit img.data_bitmap (r.image.inodes i).direct_block_pointer = 0) ∧
        ((¬ ∃ k, i < k ∧ k < 80 ∧ (img.inodes k).valid = true ∧
            (img.inodes k).direct_block_pointer = (img.inodes i).direct_block_pointer) →
          r.image.inodes i = img.inodes i) := by
  obtain ⟨t, hinv, hnf, hrun⟩ := checkDuplicateBlocks_spec_free sb1 img (by decide) (by decide)
    hpb hrm hfree
  refine ⟨_, hrun, hnf, ?_⟩
  intro i hi hv hp
  have h := hinv.moved hnf i hi hv hp
  refine ⟨fun hk => ?_, h.2⟩
  obtain ⟨h1, h2, h3, h4⟩ := h.1 hk
  exact ⟨h1, h2, h3, (maskBit_eq_zero _ _).mpr h4⟩

set_option maxRecDepth 100000 in
/-- Witness for C2 (amended): two live inodes with direct pointer 10 and a data
bitmap in which exactly bit 10 is set. -/
theorem duplicate_tiebreak_witness :
    PointersBounded sb1 (imageOf [10, 10] [0, 0x20]) ∧
    ReferencedMarked sb1 (imageOf [10, 10] [0, 0x20]) ∧
    excessOf sb1 (claimants (imageOf [10, 10] [0, 0x20]).inodes 80)
      ≤ clearBits sb1 (imageOf [10, 10] [0, 0x20]).data_bitmap ∧
    ∃ r, checkDuplicateBlocks sb1 (imageOf [10, 10] [0, 0x20]) = some r ∧
      r.no_free_blocks = false ∧
      ∀ i, i < 80 → ((imageOf [10, 10] [0, 0x20]).inodes i).valid = true →
        8 ≤ ((imageOf [10, 10] [0, 0x20]).inodes i).direct_block_pointer →
        ((∃ k, i < k ∧ k < 80 ∧ ((imageOf [10, 10] [0, 0x20]).inodes k).valid = true ∧
            ((imageOf [10, 10] [0, 0x20]).inodes k).direct_block_pointer =
              ((imageOf [10, 10] [0, 0x20]).inodes i).direct_block_pointer) →
          (r.image.inodes i).direct_block_pointer ≠
            ((imageOf [10, 10] [0, 0x20]).inodes i).direct_block_pointer ∧
          8 ≤ (r.image.inodes i).direct_block_pointer ∧
          (r.image.inodes i).direct_block_pointer < 64 ∧
          maskBit (imageOf [10, 10] [0, 0x20]).data_bitmap
            (r.image.inodes i).direct_block_pointer = 0) ∧
        ((¬ ∃ k, i < k ∧ k < 80 ∧ ((imageOf [10, 10] [0, 0x20]).inodes k).valid = true ∧
            ((imageOf [10, 10] [0, 0x20]).inodes k).direct_block_pointer =
              ((imageOf [10, 10] [0, 0x20]).inodes i).direct_block_pointer) →
          r.image.inodes i = (imageOf [10, 10] [0, 0x20]).inodes i) :=
  ⟨by decide, by decide, by decide,
    duplicate_tiebreak (imageOf [10, 10] [0, 0x20]) (by decide) (by decide) (by decide)⟩

set_option maxRecDepth 100000 in
/-- C3 (counterexample): inodes 0, 1, 2 are live with direct pointers 9, 9, 8 and the
data bitmap is empty.  Block 9 has two live claimants before the run; the run
never prints "No free blocks", and afterwards inodes 1 and 2 both have direct
pointer 9. -/
theorem uniqueness_counterexample :
    ((imageOf [9, 9, 8] []).inodes 0).valid = true ∧
    ((imageOf [9, 9, 8] []).inodes 0).direct_block_pointer = 9 ∧
    ((imageOf [9, 9, 8] []).inodes 1).valid = true ∧
    ((imageOf [9, 9, 8] []).inodes 1).direct_block_pointer = 9 ∧
    (checkDuplicateBlocks sb1 (imageOf [9, 9, 8] [])).map
      (fun r => (r.no_free_blocks,
        (r.image.inodes 1).valid, (r.image.inodes 1).direct_block_pointer,
        (r.image.inodes 2).valid, (r.image.inodes 2).direct_block_pointer))
      = some (false, true, 9, true, 9) := by
  refine ⟨by decide, by decide, by decide, by decide, by decide⟩

/-- C3 (amended): when every live direct pointer is below `total_blocks` and every
referenced data block is marked in the data bitmap, the run is defined, and if it
never printed "No free blocks" then a block of `[8, 64)` that had more than one
live claimant before has at most one live claimant afterwards. -/
theorem duplicate_uniqueness (img : Image) (hpb : PointersBounded sb1 img)
    (hrm : ReferencedMarked sb1 img) (b : Nat) (h8 : 8 ≤ b) (h64 : b < 64)
    (_hdup : ∃ i j, i < 80 ∧ j < 80 ∧ i ≠ j ∧
      (img.inodes i).valid = true ∧ (img.inodes i).direct_block_pointer = b ∧
      (img.inodes j).valid = true ∧ (img.inodes j).direct_block_pointer = b) :
    ∃ r, checkDuplicateBlocks sb1 img = some r ∧
      (r.no_free_blocks = false →
        ∀ i j, i < 80 → j < 80 →
          (r.image.inodes i).valid = true → (r.image.inodes i).direct_block_pointer = b →
          (r.image.inodes j).valid = true → (r.image.inodes j).direct_block_pointer = b →
          i = j) := by
  obtain ⟨t, hinv, hrun⟩ := checkDuplicateBlocks_spec sb1 img (by decide) (by decide) hpb hrm
  refine ⟨_, hrun, ?_⟩
  intro hnf i j hi hj hvi hpi hvj hpj
  by_contra hij
  have h2 : 2 ≤ claimants t.inodes sb1.inode_count b :=
    claimants_two t.inodes sb1.inode_count b i j hi hj hij hvi hpi hvj hpj
  have h1 := hinv.settled hnf i hi hvi
    (by rw [show (t.inodes i).direct_block_pointer = b from hpi]; omega)
  rw [show (t.inodes i).direct_block_pointer = b from hpi, hinv.counts_in b h8 h64] at h1
  omega

set_option maxRecDepth 100000 in
/-- Witness for C3 (amended): three live inodes with direct pointers 10, 10, 12 and a
data bitmap in which exactly bits 10 and 12 are set; the run reports no failure. -/
theorem duplicate_uniqueness_witness :
    PointersBounded sb1 (imageOf [10, 10, 12] [0, 0x28]) ∧
    ReferencedMarked sb1 (imageOf [10, 10, 12] [0, 0x28]) ∧
    (checkDuplicateBlocks sb1 (imageOf [10, 10, 12] [0, 0x28])).map
      (fun r => r.no_free_blocks) = some false ∧
    ∃ r, checkDuplicateBlocks sb1 (imageOf [10, 10, 12] [0, 0x28]) = some r ∧
      (r.no_free_blocks = false →
        ∀ i j, i < 80 → j < 80 →
          (r.image.inodes i).valid = true → (r.image.inodes i).direct_block_pointer = 10 →
          (r.image.inodes j).valid = true → (r.image.inodes j).direct_block_pointer = 10 →
          i = j) :=
  ⟨by decide, by decide, by decide,
    duplicate_uniqueness (imageOf [10, 10, 12] [0, 0x28]) (by decide) (by decide) 10
      (by decide) (by decide) ⟨0, 1, by decide, by decide, by decide, by decide, by decide,
        by decide, by decide⟩⟩

set_option maxRecDepth 100000 in
/-- C8 (counterexample): inodes 0, 1, 2 are live with direct pointers 8, 10, 10 and
the data bitmap is empty.  The first run leaves inode 0 at block 8 (and moves
inode 1 to block 8); the second run finds a duplicate again and moves inode 0 to
block 9. -/
theorem idempotence_counterexample :
    ((checkDuplicateBlocks sb1 (imageOf [8, 10, 10] [])).bind fun r1 =>
      (checkDuplicateBlocks sb1 r1.image).map fun r2 =>
        ((r1.image.inodes 0).direct_block_pointer, (r1.image.inodes 1).direct_block_pointer,
          (r2.image.inodes 0).direct_block_pointer, r2.found_duplicates,
          r1.image.data_bitmap 1, r2.image.data_bitmap 1))
      = some (8, 8, 9, true, 0x80, 0xC0) := by
  decide

/-- C8 (amended): when every live direct pointer is below `total_blocks` and every
referenced data block is marked in the data bitmap, both runs are defined, and a
second run of `checkDuplicateBlocks` right after a first one reassigns no inode
and leaves the image of the first run. -/
theorem duplicate_idempotent (img : Image) (hpb : PointersBounded sb1 img)
    (hrm : ReferencedMarked sb1 img) :
    ∃ r1 r2, checkDuplicateBlocks sb1 img = some r1 ∧
      checkDuplicateBlocks sb1 r1.image = some r2 ∧
      r2.image = r1.image ∧ r2.found_duplicates = false :=
  checkDuplicateBlocks_twice sb1 img (by decide) (by decide) hpb hrm

set_option maxRecDepth 100000 in
/-- Witness for C8 (amended): three live inodes with direct pointers 10, 10, 12 and a
data bitmap in which exactly bits 10 and 12 are set. -/
theorem duplicate_idempotent_witness :
    PointersBounded sb1 (imageOf [10, 10, 12] [0, 0x28]) ∧
    ReferencedMarked sb1 (imageOf [10, 10, 12] [0, 0x28]) ∧
    ∃ r1 r2, checkDuplicateBlocks sb1 (imageOf [10, 10, 12] [0, 0x28]) = some r1 ∧
      checkDuplicateBlocks sb1 r1.image = some r2 ∧
      r2.image = r1.image ∧ r2.found_duplicates = false :=
  ⟨by decide, by decide,
    duplicate_idempotent (imageOf [10, 10, 12] [0, 0x28]) (by decide) (by decide)⟩

/-! ## Claims on the root inode and on `findFreeBlock` -/

/-- C11 (counterexample): inode 0 is live with direct pointer 20; after
`updateInode0IfNeeded` its direct pointer is still 20, not `first_data_block = 8`. -/
theorem root_pointer_counterexample :
    ((imageOf [20] []).inodes 0).valid = true ∧
    ((updateInode0IfNeeded sb1 (imageOf [20] [])).inodes 0).valid = true ∧
    ((updateInode0IfNeeded sb1 (imageOf [20] [])).inodes 0).direct_block_pointer = 20 := by
  decide

/-- C11 (amended): after `updateInode0IfNeeded` inode 0 is live; its direct pointer
is `first_data_block` when inode 0 was not live before, and the record is the one
it was when inode 0 was live before. -/
theorem root_inode_after (sb : Superblock) (img : Image) :
    ((updateInode0IfNeeded sb img).inodes 0).valid = true ∧
    ((updateInode0IfNeeded sb img).inodes 0).direct_block_pointer =
      (if (img.inodes 0).valid = true then (img.inodes 0).direct_block_pointer
        else sb.first_data_block) ∧
    (if (img.inodes 0).valid = true then (updateInode0IfNeeded sb img).inodes 0 = img.inodes 0
      else True) := by
  unfold updateInode0IfNeeded
  have hv : (decide ((img.inodes 0).hard_links > 0) && (img.inodes 0).deletion_time == 0)
      = (img.inodes 0).valid := rfl
  simp only [hv]
  cases hval : (img.inodes 0).valid
  · simp [Function.update_same, Inode.valid]
  · simp [hval]

/-- C16: with `0 < first_block`, `findFreeBlock` returns the least index of
`[first_block, total_blocks)` whose bit is clear when there is one, and it returns 0
exactly when every bit of that range is set. -/
theorem findFreeBlock_least (bitmap : Nat → Nat) (first_block total_blocks : Nat)
    (h0 : 0 < first_block) :
    ((∃ b, first_block ≤ b ∧ b < total_blocks ∧ maskBit bitmap b = 0) →
      first_block ≤ findFreeBlock bitmap total_blocks first_block ∧
      findFreeBlock bitmap total_blocks first_block < total_blocks ∧
      maskBit bitmap (findFreeBlock bitmap total_blocks first_block) = 0 ∧
      ∀ b, first_block ≤ b → b < findFreeBlock bitmap total_blocks first_block →
        maskBit bitmap b = 1) ∧
    (findFreeBlock bitmap total_blocks first_block = 0 ↔
      ∀ b, first_block ≤ b → b < total_blocks → maskBit bitmap b = 1) := by
  have hiff : findFreeBlock bitmap total_blocks first_block = 0 ↔
      ∀ b, first_block ≤ b → b < total_blocks → maskBit bitmap b = 1 := by
    constructor
    · intro h b h1 h2
      exact (maskBit_eq_one _ _).mpr (findFreeBlock_eq_zero _ _ _ h0 h b h1 h2)
    · intro h
      exact findFreeBlock_full _ _ _ (fun b h1 h2 => (maskBit_eq_one _ _).mp (h b h1 h2))
  refine ⟨?_, hiff⟩
  rintro ⟨b, hb1, hb2, hb3⟩
  have hne : findFreeBlock bitmap total_blocks first_block ≠ 0 := by
    intro h
    have := hiff.mp h b hb1 hb2
    omega
  obtain ⟨h1, h2, h3, h4⟩ := findFreeBlock_ne_zero _ _ _ hne
  exact ⟨h1, h2, (maskBit_eq_zero _ _).mpr h3,
    fun b hb1 hb2 => (maskBit_eq_one _ _).mpr (h4 b hb1 hb2)⟩

/-- Witness for C16: bits 8, 9 and 10 are set, bit 11 is the first clear one. -/
theorem findFreeBlock_least_witness :
    findFreeBlock (bytesOf [0, 0xE0]) 64 8 = 11 ∧
    ((∃ b, 8 ≤ b ∧ b < 64 ∧ maskBit (bytesOf [0, 0xE0]) b = 0) →
      8 ≤ findFreeBlock (bytesOf [0, 0xE0]) 64 8 ∧
      findFreeBlock (bytesOf [0, 0xE0]) 64 8 < 64 ∧
      maskBit (bytesOf [0, 0xE0]) (findFreeBlock (bytesOf [0, 0xE0]) 64 8) = 0 ∧
      ∀ b, 8 ≤ b → b < findFreeBlock (bytesOf [0, 0xE0]) 64 8 →
        maskBit (bytesOf [0, 0xE0]) b = 1) ∧
    (findFreeBlock (bytesOf [0, 0xE0]) 64 8 = 0 ↔
      ∀ b, 8 ≤ b → b < 64 → maskBit (bytesOf [0, 0xE0]) b = 1) :=
  ⟨by decide, findFreeBlock_least (bytesOf [0, 0xE0]) 8 64 (by decide)⟩

/-! ## Duplicate-block repair: what a run may change -/

theorem DupRun.run_valid_eq {sb : Superblock} {ino : Nat → Inode} {bm0 : Nat → Nat} {m : Nat}
    {s : DupState} (h : DupRun sb ino bm0 m s) (j : Nat) :
    (s.inodes j).valid = (ino j).valid := by
  have := congrArg Inode.valid (h.frame j)
  exact this

theorem DupRun.run_init (sb : Superblock) (img : Image) (c : Nat → Nat)
    (hpb : PointersBounded sb img) :
    DupRun sb img.inodes img.data_bitmap 0
      { inodes := img.inodes, data_bitmap := img.data_bitmap, block_counts := c,
        found_duplicates := false, no_free_blocks := false } where
  later := fun _ _ => rfl
  frame := fun _ => rfl
  bounded := hpb
  origin := fun _ => Or.inl rfl
  distinct := fun _ _ _ h => absurd rfl h
  grows := fun _ h => h
  added := fun _ h => Or.inl h
  unwritten := fun _ => rfl
  quiet := fun _ => rfl

theorem DupRun.run_keep {sb : Superblock} {ino : Nat → Inode} {bm0 : Nat → Nat} {m : Nat}
    {s : DupState} (h : DupRun sb ino bm0 m s) (nf : Bool) :
    DupRun sb ino bm0 (m + 1) { s with no_free_blocks := nf } where
  later := fun j hj => h.later j (by omega)
  frame := h.frame
  bounded := h.bounded
  origin := by
    intro j
    rcases h.origin j with h1 | ⟨h1, h2, h3, h4⟩
    · exact Or.inl h1
    · exact Or.inr ⟨h1, h2, by omega, h4⟩
  distinct := h.distinct
  grows := h.grows
  added := by
    intro b hb
    rcases h.added b hb with h1 | ⟨j, hj, h2⟩
    · exact Or.inl h1
    · exact Or.inr ⟨j, by omega, h2⟩
  unwritten := h.unwritten
  quiet := h.quiet

theorem DupRun.run_move {sb : Superblock} {ino : Nat → Inode} {bm0 : Nat → Nat} {m : Nat}
    {s : DupState} (h : DupRun sb ino bm0 m s) (b nb : Nat)
    (hv : (s.inodes m).valid = true) (hb : (s.inodes m).direct_block_pointer = b)
    (hb0 : b ≠ 0)
    (hnb : nb = findFreeBlock s.data_bitmap sb.total_blocks sb.first_data_block)
    (hnz : nb ≠ 0) :
    DupRun sb ino bm0 (m + 1) (movedState s m b nb) := by
  have hfree := findFreeBlock_ne_zero s.data_bitmap sb.total_blocks sb.first_data_block
    (by rw [← hnb]; exact hnz)
  rw [← hnb] at hfree
  obtain ⟨hn1, hn2, hn3, _⟩ := hfree
  have hclear : bitOf bm0 nb = false := by
    cases hb0' : bitOf bm0 nb
    · rfl
    · rw [h.grows nb hb0'] at hn3; cases hn3
  have hm_eq : s.inodes m = ino m := h.later m (Nat.le_refl m)
  refine
    { later := ?_, frame := ?_, bounded := ?_, origin := ?_, distinct := ?_, grows := ?_,
      added := ?_, unwritten := ?_, quiet := ?_ }
  · intro j hj
    rw [movedState_inodes_ne s m b nb j (by omega)]
    exact h.later j (by omega)
  · intro j
    by_cases hj : j = m
    · subst hj
      rw [movedState_inodes_same]
      exact h.frame j
    · rw [movedState_inodes_ne s m b nb j hj]
      exact h.frame j
  · intro j hj hvj
    by_cases e : j = m
    · subst e
      rw [movedState_inodes_same]
      exact hn2
    · rw [movedState_inodes_ne s m b nb j e] at hvj ⊢
      exact h.bounded j hj hvj
  · intro j
    by_cases e : j = m
    · subst e
      right
      rw [movedState_inodes_same]
      refine ⟨?_, ?_, by omega, hn1, hn2, hclear, ?_⟩
      · rw [← hm_eq]; exact hv
      · rw [← hm_eq, hb]; exact hb0
      · show bitOf (movedState s j b nb).data_bitmap nb = true
        rw [movedState_bits]; simp
    · rw [movedState_inodes_ne s m b nb j e]
      rcases h.origin j with h1 | ⟨h1, h2, h3, h4, h5, h6, h7⟩
      · exact Or.inl h1
      · refine Or.inr ⟨h1, h2, by omega, h4, h5, h6, ?_⟩
        rw [movedState_bits, h7]; rfl
  · intro i j hij hi hj
    have key : ∀ k, k ≠ m → s.inodes k ≠ ino k → (s.inodes k).direct_block_pointer ≠ nb := by
      intro k _ hk heq
      rcases h.origin k with h1 | ⟨_, _, _, _, _, _, h7⟩
      · exact hk h1
      · rw [heq, hn3] at h7; cases h7
    by_cases ei : i = m
    · subst ei
      have ej : j ≠ i := fun e => hij e.symm
      rw [movedState_inodes_ne s i b nb j ej] at hj ⊢
      rw [movedState_inodes_same]
      exact fun e => key j ej hj e.symm
    · rw [movedState_inodes_ne s m b nb i ei] at hi ⊢
      by_cases ej : j = m
      · subst ej
        rw [movedState_inodes_same]
        exact key i ei hi
      · rw [movedState_inodes_ne s m b nb j ej] at hj ⊢
        exact h.distinct i j hij hi hj
  · intro b' hb'
    rw [movedState_bits, h.grows b' hb']
    rfl
  · intro b' hb'
    rw [movedState_bits] at hb'
    by_cases e : nb = b'
    · subst e
      right
      refine ⟨m, by omega, ?_, ?_, hn1, hn2⟩
      · rw [movedState_valid]; exact hv
      · rw [movedState_inodes_same]
    · have hb'' : bitOf s.data_bitmap b' = true := by simpa [e] using hb'
      rcases h.added b' hb'' with h1 | ⟨j, hj, h2, h3, h4⟩
      · exact Or.inl h1
      · right
        refine ⟨j, by omega, ?_, ?_, h4⟩
        · rw [movedState_valid]; exact h2
        · rw [movedState_inodes_ne s m b nb j (by omega)]; exact h3
  · intro hfd; cases hfd
  · intro hfd; cases hfd

theorem reassign_step_run (sb : Superblock) (ino : Nat → Inode) (bm0 : Nat → Nat) (m : Nat)
    (s : DupState) (htb : sb.total_blocks ≤ TOTAL_BLOCKS) (hm : m < sb.inode_count)
    (h : DupRun sb ino bm0 m s) :
    ∃ t, reassignBody sb s m = some t ∧ DupRun sb ino bm0 (m + 1) t := by
  have hb : (s.inodes m).valid = true → (s.inodes m).direct_block_pointer < TOTAL_BLOCKS :=
    fun hv => Nat.lt_of_lt_of_le (h.bounded m hm hv) htb
  rcases reassignBody_cases sb s m htb hb with ⟨he, _⟩ | ⟨he, _⟩ | ⟨he, hv, h0, _, hf⟩
  · exact ⟨_, he, h.run_keep s.no_free_blocks⟩
  · exact ⟨_, he, h.run_keep true⟩
  · exact ⟨_, he, h.run_move _ _ hv rfl h0 rfl hf⟩

/-- With every live direct pointer below `total_blocks` the run of
`checkDuplicateBlocks` is defined, and its final state satisfies `DupRun`. -/
theorem checkDuplicateBlocks_run (sb : Superblock) (img : Image)
    (htb : sb.total_blocks ≤ TOTAL_BLOCKS) (hpb : PointersBounded sb img) :
    ∃ t, DupRun sb img.inodes img.data_bitmap sb.inode_count t ∧
      checkDuplicateBlocks sb img = some
        { image := { img with inodes := t.inodes, data_bitmap := t.data_bitmap }
          found_duplicates := t.found_duplicates
          no_free_blocks := t.no_free_blocks } := by
  obtain ⟨c, hc1, _⟩ := countBody_loop sb img.inodes sb.inode_count htb
  obtain ⟨t, ht1, ht2⟩ := foldlM_range_inv (reassignBody sb)
    (fun m s => DupRun sb img.inodes img.data_bitmap m s)
    { inodes := img.inodes, data_bitmap := img.data_bitmap, block_counts := c,
      found_duplicates := false, no_free_blocks := false }
    sb.inode_count (DupRun.run_init sb img c hpb)
    (fun m s hm h => reassign_step_run sb img.inodes img.data_bitmap m s htb hm h)
  refine ⟨t, ht2, ?_⟩
  unfold checkDuplicateBlocks duplicatePasses
  dsimp only
  rw [hc1, Option.some_bind, ht1, Option.some_bind]
  cases hfd : t.found_duplicates
  · rw [ht2.unwritten hfd]; rfl
  · rfl

/-! ## Duplicate-block repair on a reconciled image -/

theorem DupKept.kept_init (sb : Superblock) (img : Image) (c : Nat → Nat)
    (h0 : 0 < sb.first_data_block)
    (hc : ∀ b, c b = if b ≠ 0 ∧ sb.first_data_block ≤ b ∧ b < sb.total_blocks
        then claimants img.inodes sb.inode_count b else 0) :
    DupKept sb img.inodes img.data_bitmap
      { inodes := img.inodes, data_bitmap := img.data_bitmap, block_counts := c,
        found_duplicates := false, no_free_blocks := false } where
  kept := by
    intro b h1 h2 hpos
    show 1 ≤ c b
    rw [hc, if_pos ⟨by omega, h1, h2⟩]
    exact hpos
  fresh := fun _ _ _ h => Or.inl h

theorem DupKept.kept_move {sb : Superblock} {ino : Nat → Inode} {bm0 : Nat → Nat} {m : Nat}
    {s : DupState} (hinv : DupInv sb ino bm0 m s) (hk : DupKept sb ino bm0 s) (b nb : Nat)
    (hc : 1 < s.block_counts b)
    (hnb : nb = findFreeBlock s.data_bitmap sb.total_blocks sb.first_data_block)
    (hnz : nb ≠ 0) :
    DupKept sb ino bm0 (movedState s m b nb) := by
  obtain ⟨_, _, _, _, _, hne, _⟩ := hinv.move_facts b nb hc hnb hnz
  have hcount : ∀ b', 1 ≤ s.block_counts b' → 1 ≤ (movedState s m b nb).block_counts b' := by
    intro b' hpos
    rw [movedState_counts s m b nb b' hne]
    by_cases e1 : b' = nb
    · rw [if_pos e1]; omega
    · rw [if_neg e1]
      by_cases e2 : b' = b
      · rw [if_pos e2]; omega
      · rw [if_neg e2]; exact hpos
  refine ⟨fun b' h1 h2 hpos => hcount b' (hk.kept b' h1 h2 hpos), ?_⟩
  intro b' h1 h2 hbit
  rw [movedState_bits] at hbit
  by_cases e : nb = b'
  · right
    rw [movedState_counts s m b nb b' hne, if_pos e.symm]
    omega
  · have hbit' : bitOf s.data_bitmap b' = true := by simpa [e] using hbit
    rcases hk.fresh b' h1 h2 hbit' with h3 | h3
    · exact Or.inl h3
    · exact Or.inr (hcount b' h3)

theorem reassign_step_kept (sb : Superblock) (ino : Nat → Inode) (bm0 : Nat → Nat) (m : Nat)
    (s : DupState) (h0 : 0 < sb.first_data_block) (htb : sb.total_blocks ≤ TOTAL_BLOCKS)
    (hm : m < sb.inode_count) (h : DupInv sb ino bm0 m s ∧ DupKept sb ino bm0 s) :
    ∃ t, reassignBody sb s m = some t ∧
      (DupInv sb ino bm0 (m + 1) t ∧ DupKept sb ino bm0 t) := by
  obtain ⟨hinv, hk⟩ := h
  have hb : (s.inodes m).valid = true → (s.inodes m).direct_block_pointer < TOTAL_BLOCKS :=
    fun hv => Nat.lt_of_lt_of_le (hinv.bounded m hm hv) htb
  rcases reassignBody_cases sb s m htb hb with ⟨he, hc⟩ | ⟨he, _, _, _, hf⟩ | ⟨he, hv, _, hc, hf⟩
  · exact ⟨_, he, hinv.keep hm h0 hc, hk⟩
  · exact ⟨_, he, hinv.noFree hf, ⟨hk.kept, hk.fresh⟩⟩
  · exact ⟨_, he, hinv.move hm h0 _ _ hv rfl hc rfl hf, hk.kept_move hinv _ _ hc rfl hf⟩

theorem checkDuplicateBlocks_spec_kept (sb : Superblock) (img : Image)
    (h0 : 0 < sb.first_data_block) (htb : sb.total_blocks ≤ TOTAL_BLOCKS)
    (hpb : PointersBounded sb img) (hrm : ReferencedMarked sb img) :
    ∃ t, DupInv sb img.inodes img.data_bitmap sb.inode_count t ∧
      DupKept sb img.inodes img.data_bitmap t ∧
      checkDuplicateBlocks sb img = some
        { image := { img with inodes := t.inodes, data_bitmap := t.data_bitmap }
          found_duplicates := t.found_duplicates
          no_free_blocks := t.no_free_blocks } := by
  obtain ⟨c, hc1, hc2⟩ := countBody_loop sb img.inodes sb.inode_count htb
  obtain ⟨t, ht1, ht2, ht3⟩ := foldlM_range_inv (reassignBody sb)
    (fun m s => DupInv sb img.inodes img.data_bitmap m s ∧
      DupKept sb img.inodes img.data_bitmap s)
    { inodes := img.inodes, data_bitmap := img.data_bitmap, block_counts := c,
      found_duplicates := false, no_free_blocks := false }
    sb.inode_count ⟨DupInv.init sb img c h0 hpb hrm hc2, DupKept.kept_init sb img c h0 hc2⟩
    (fun m s hm h => reassign_step_kept sb img.inodes img.data_bitmap m s h0 htb hm h)
  refine ⟨t, ht2, ht3, ?_⟩
  unfold checkDuplicateBlocks duplicatePasses
  dsimp only
  rw [hc1, Option.some_bind, ht1, Option.some_bind]
  cases hfd : t.found_duplicates
  · rw [ht2.unwritten hfd]; rfl
  · rfl

theorem PointersInRange.to_bounded {sb : Superblock} {img : Image}
    (h : PointersInRange sb img) (h0 : 0 < sb.total_blocks) : PointersBounded sb img := by
  intro j hj hv
  rcases h j hj hv with h1 | h1
  · omega
  · exact h1.2

theorem Reconciled.to_marked {sb : Superblock} {img : Image} (h : Reconciled sb img)
    (hp : PointersBounded sb img) : ReferencedMarked sb img := by
  intro j hj hv hf
  exact (h _ hf (hp j hj hv)).mpr ⟨j, hj, hv, rfl⟩

theorem checkDuplicateBlocks_reconciled (sb : Superblock) (img : Image)
    (h0 : 0 < sb.first_data_block) (htb0 : 0 < sb.total_blocks)
    (htb : sb.total_blocks ≤ TOTAL_BLOCKS)
    (hpr : PointersInRange sb img) (hrec : Reconciled sb img) :
    ∃ r, checkDuplicateBlocks sb img = some r ∧ Reconciled sb r.image := by
  have hpb : PointersBounded sb img := hpr.to_bounded htb0
  obtain ⟨t, hinv, hk, hrun⟩ := checkDuplicateBlocks_spec_kept sb img h0 htb hpb (hrec.to_marked hpb)
  refine ⟨_, hrun, ?_⟩
  intro b h1 h2
  show maskBit t.data_bitmap b = 1 ↔
    ∃ j, j < sb.inode_count ∧ (t.inodes j).valid = true ∧ (t.inodes j).direct_block_pointer = b
  rw [maskBit_eq_one]
  constructor
  · intro hbit
    have hpos : 1 ≤ t.block_counts b := by
      rcases hk.fresh b h1 h2 hbit with h3 | h3
      · obtain ⟨j, hj, hv, hp⟩ := (hrec b h1 h2).mp ((maskBit_eq_one _ _).mpr h3)
        exact hk.kept b h1 h2 (claimants_pos _ _ _ j hj hv hp)
      · exact h3
    rw [hinv.counts_in b h1 h2] at hpos
    exact exists_of_claimants_pos _ _ _ hpos
  · rintro ⟨j, hj, hv, hp⟩
    apply hinv.marked b h1 h2
    rw [hinv.counts_in b h1 h2]
    exact claimants_pos _ _ _ j hj hv hp

theorem checkDuplicateBlocks_unique (sb : Superblock) (img : Image)
    (h0 : 0 < sb.first_data_block) (htb0 : 0 < sb.total_blocks)
    (htb : sb.total_blocks ≤ TOTAL_BLOCKS)
    (hpr : PointersInRange sb img) (hrec : Reconciled sb img)
    (hfree : excessOf sb (claimants img.inodes sb.inode_count) ≤ clearBits sb img.data_bitmap) :
    ∃ r, checkDuplicateBlocks sb img = some r ∧ r.no_free_blocks = false ∧
      ∀ i j, i < sb.inode_count → j < sb.inode_count →
        (r.image.inodes i).valid = true → (r.image.inodes j).valid = true →
        (r.image.inodes i).direct_block_pointer ≠ 0 →
        (r.image.inodes i).direct_block_pointer = (r.image.inodes j).direct_block_pointer →
        i = j := by
  have hpb : PointersBounded sb img := hpr.to_bounded htb0
  obtain ⟨t, hinv, hnf, hrun⟩ :=
    checkDuplicateBlocks_spec_free sb img h0 htb hpb (hrec.to_marked hpb) hfree
  obtain ⟨t', hrun', hrun2⟩ := checkDuplicateBlocks_run sb img htb hpb
  have heq : t'.inodes = t.inodes := by
    have := Option.some.inj (hrun2.symm.trans hrun)
    exact congrArg (fun r => r.image.inodes) this
  refine ⟨_, hrun, hnf, ?_⟩
  intro i j hi hj hvi hvj hnz hij
  have hvi' : (t.inodes i).valid = true := hvi
  have hvj' : (t.inodes j).valid = true := hvj
  have hnz' : (t.inodes i).direct_block_pointer ≠ 0 := hnz
  have hij' : (t.inodes i).direct_block_pointer = (t.inodes j).direct_block_pointer := hij
  have hrange : sb.first_data_block ≤ (t.inodes i).direct_block_pointer ∧
      (t.inodes i).direct_block_pointer < sb.total_blocks := by
    rcases hrun'.origin i with h1 | ⟨_, _, _, h4, h5, _⟩
    · rw [heq] at h1
      rw [h1] at hvi' hnz' ⊢
      rcases hpr i hi hvi' with h2 | h2
      · exact absurd h2 hnz'
      · exact h2
    · rw [heq] at h4 h5
      exact ⟨h4, h5⟩
  by_contra hne
  have h2 := claimants_two t.inodes sb.inode_count _ i j hi hj hne hvi' rfl hvj' hij'.symm
  have h1 := hinv.settled hnf i hi hvi' hnz'
  rw [hinv.counts_in _ hrange.1 hrange.2] at h1
  omega

/-! ## Claims on duplicate-block repair under the preconditions of the pipeline -/

/-- C15: when every live direct pointer is 0 or in `[8, 64)`, the data bitmap is
reconciled and has at least as many clear bits in `[8, 64)` as there are claimants
in excess of one per block, then after `checkDuplicateBlocks` no two live inodes
have the same non-zero direct pointer. -/
theorem duplicate_unique_pipeline (img : Image) (hpr : PointersInRange sb1 img)
    (hrec : Reconciled sb1 img)
    (hfree : excessOf sb1 (claimants img.inodes 80) ≤ clearBits sb1 img.data_bitmap) :
    ∃ r, checkDuplicateBlocks sb1 img = some r ∧
      ∀ i j, i < 80 → j < 80 →
        (r.image.inodes i).valid = true → (r.image.inodes j).valid = true →
        (r.image.inodes i).direct_block_pointer ≠ 0 →
        (r.image.inodes i).direct_block_pointer = (r.image.inodes j).direct_block_pointer →
        i = j := by
  obtain ⟨r, hrun, _, huniq⟩ := checkDuplicateBlocks_unique sb1 img (by decide) (by decide)
    (by decide) hpr hrec hfree
  exact ⟨r, hrun, huniq⟩

set_option maxRecDepth 100000 in
/-- Witness for C15: live inodes with direct pointers 10, 10, 12 and a data bitmap in
which exactly bits 10 and 12 are set. -/
theorem duplicate_unique_pipeline_witness :
    PointersInRange sb1 (imageOf [10, 10, 12] [0, 0x28]) ∧
    Reconciled sb1 (imageOf [10, 10, 12] [0, 0x28]) ∧
    excessOf sb1 (claimants (imageOf [10, 10, 12] [0, 0x28]).inodes 80)
      ≤ clearBits sb1 (imageOf [10, 10, 12] [0, 0x28]).data_bitmap ∧
    ∃ r, checkDuplicateBlocks sb1 (imageOf [10, 10, 12] [0, 0x28]) = some r ∧
      ∀ i j, i < 80 → j < 80 →
        (r.image.inodes i).valid = true → (r.image.inodes j).valid = true →
        (r.image.inodes i).direct_block_pointer ≠ 0 →
        (r.image.inodes i).direct_block_pointer = (r.image.inodes j).direct_block_pointer →
        i = j :=
  ⟨by decide, by decide, by decide,
    duplicate_unique_pipeline (imageOf [10, 10, 12] [0, 0x28]) (by decide) (by decide)
      (by decide)⟩

/-- C17: when every live direct pointer is 0 or in `[8, 64)` and the data bitmap is
reconciled, the image that `checkDuplicateBlocks` leaves has a reconciled data
bitmap again: for every `b` in `[8, 64)` bit `b` is set exactly when some live
inode has direct pointer `b`. -/
theorem duplicate_preserves_reconciled (img : Image) (hpr : PointersInRange sb1 img)
    (hrec : Reconciled sb1 img) :
    ∃ r, checkDuplicateBlocks sb1 img = some r ∧
      ∀ b, 8 ≤ b → b < 64 →
        (maskBit r.image.data_bitmap b = 1 ↔
          ∃ j, j < 80 ∧ (r.image.inodes j).valid = true ∧
            (r.image.inodes j).direct_block_pointer = b) := by
  obtain ⟨r, hrun, h⟩ := checkDuplicateBlocks_reconciled sb1 img (by decide) (by decide)
    (by decide) hpr hrec
  exact ⟨r, hrun, h⟩

set_option maxRecDepth 100000 in
/-- Witness for C17: live inodes with direct pointers 10, 10, 12 and a data bitmap in
which exactly bits 10 and 12 are set. -/
theorem duplicate_preserves_reconciled_witness :
    PointersInRange sb1 (imageOf [10, 10, 12] [0, 0x28]) ∧
    Reconciled sb1 (imageOf [10, 10, 12] [0, 0x28]) ∧
    ∃ r, checkDuplicateBlocks sb1 (imageOf [10, 10, 12] [0, 0x28]) = some r ∧
      ∀ b, 8 ≤ b → b < 64 →
        (maskBit r.image.data_bitmap b = 1 ↔
          ∃ j, j < 80 ∧ (r.image.inodes j).valid = true ∧
            (r.image.inodes j).direct_block_pointer = b) :=
  ⟨by decide, by decide,
    duplicate_preserves_reconciled (imageOf [10, 10, 12] [0, 0x28]) (by decide) (by decide)⟩

/-! ## Duplicate-block repair: runs with every live direct pointer below `total_blocks` -/

/-- An iteration of the second loop in which `findFreeBlock` returns 0 leaves the
inode table, the bitmap and the counts as they are and hands the state on to the
next iteration. -/
theorem reassignBody_no_free (sb : Superblock) (s : DupState) (m : Nat)
    (htb : sb.total_blocks ≤ TOTAL_BLOCKS)
    (hb : (s.inodes m).valid = true → (s.inodes m).direct_block_pointer < TOTAL_BLOCKS)
    (hf : findFreeBlock s.data_bitmap sb.total_blocks sb.first_data_block = 0) :
    ∃ nf, reassignBody sb s m = some { s with no_free_blocks := nf } := by
  rcases reassignBody_cases sb s m htb hb with ⟨he, _⟩ | ⟨he, _⟩ | ⟨_, _, _, _, hne⟩
  · exact ⟨s.no_free_blocks, he⟩
  · exact ⟨true, he⟩
  · exact absurd hf hne

/-- When every bit of `[8, 64)` is set in the data bitmap and every live direct
pointer is below `total_blocks`, `checkDuplicateBlocks` completes, leaves the image
as it is and does not write the data bitmap. -/
theorem no_free_blocks_handling (img : Image) (hpb : PointersBounded sb1 img)
    (hfull : ∀ b, 8 ≤ b → b < 64 → maskBit img.data_bitmap b = 1) :
    ∃ nf, checkDuplicateBlocks sb1 img =
      some { image := img, found_duplicates := false, no_free_blocks := nf } := by
  obtain ⟨c, hc1, _⟩ := countBody_loop sb1 img.inodes sb1.inode_count (by decide)
  have hzero : findFreeBlock img.data_bitmap sb1.total_blocks sb1.first_data_block = 0 :=
    findFreeBlock_full _ _ _ (fun b h1 h2 => (maskBit_eq_one _ _).mp (hfull b h1 h2))
  obtain ⟨nf, hloop⟩ := reassign_loop_noop sb1
    { inodes := img.inodes, data_bitmap := img.data_bitmap, block_counts := c,
      found_duplicates := false, no_free_blocks := false } sb1.inode_count
    (fun j hj hv => ⟨hpb j hj hv, Or.inr hzero⟩) (by decide)
  refine ⟨nf, ?_⟩
  unfold checkDuplicateBlocks duplicatePasses
  dsimp only
  rw [hc1, Option.some_bind, hloop, Option.some_bind]
  rfl

/-- When every live direct pointer is below `total_blocks`, `checkDuplicateBlocks`
changes at most the direct pointer of live inodes whose direct pointer is not 0:
the inode bitmap, every other field of every record, every dead inode and every
live inode with direct pointer 0 are as before. -/
theorem duplicate_frame (img : Image) (hpb : PointersBounded sb1 img) :
    ∃ r, checkDuplicateBlocks sb1 img = some r ∧
      r.image.inode_bitmap = img.inode_bitmap ∧
      (∀ j, { r.image.inodes j with
          direct_block_pointer := (img.inodes j).direct_block_pointer } = img.inodes j) ∧
      (∀ j, r.image.inodes j ≠ img.inodes j →
        j < 80 ∧ (img.inodes j).valid = true ∧ (img.inodes j).direct_block_pointer ≠ 0) := by
  obtain ⟨t, hrun, hres⟩ := checkDuplicateBlocks_run sb1 img (by decide) hpb
  refine ⟨_, hres, rfl, hrun.frame, ?_⟩
  intro j hj
  rcases hrun.origin j with h1 | ⟨h1, h2, h3, _⟩
  · exact absurd h1 hj
  · exact ⟨h3, h1, h2⟩

/-- When every live direct pointer is below `total_blocks`, every inode record that
`checkDuplicateBlocks` changes gets a block of `[8, 64)` whose bit was clear at the
start and is set at the end, two changed records get different blocks, no bit of
the data bitmap is cleared, and every bit that is set at the end and was clear at
the start is the direct pointer of a live inode. -/
theorem reassignment_fresh (img : Image) (hpb : PointersBounded sb1 img) :
    ∃ r, checkDuplicateBlocks sb1 img = some r ∧
      (∀ j, r.image.inodes j ≠ img.inodes j →
        8 ≤ (r.image.inodes j).direct_block_pointer ∧
        (r.image.inodes j).direct_block_pointer < 64 ∧
        maskBit img.data_bitmap (r.image.inodes j).direct_block_pointer = 0 ∧
        maskBit r.image.data_bitmap (r.image.inodes j).direct_block_pointer = 1) ∧
      (∀ i j, i ≠ j → r.image.inodes i ≠ img.inodes i → r.image.inodes j ≠ img.inodes j →
        (r.image.inodes i).direct_block_pointer ≠ (r.image.inodes j).direct_block_pointer) ∧
      (∀ b, maskBit img.data_bitmap b = 1 → maskBit r.image.data_bitmap b = 1) ∧
      (∀ b, maskBit r.image.data_bitmap b = 1 → maskBit img.data_bitmap b = 1 ∨
        ∃ j, j < 80 ∧ (r.image.inodes j).valid = true ∧
          (r.image.inodes j).direct_block_pointer = b ∧ 8 ≤ b ∧ b < 64) := by
  obtain ⟨t, hrun, hres⟩ := checkDuplicateBlocks_run sb1 img (by decide) hpb
  refine ⟨_, hres, ?_, hrun.distinct, ?_, ?_⟩
  · intro j hj
    rcases hrun.origin j with h1 | ⟨_, _, _, h4, h5, h6, h7⟩
    · exact absurd h1 hj
    · exact ⟨h4, h5, (maskBit_eq_zero _ _).mpr h6, (maskBit_eq_one _ _).mpr h7⟩
  · intro b hb
    exact (maskBit_eq_one _ _).mpr (hrun.grows b ((maskBit_eq_one _ _).mp hb))
  · intro b hb
    rcases hrun.added b ((maskBit_eq_one _ _).mp hb) with h1 | h1
    · exact Or.inl ((maskBit_eq_one _ _).mpr h1)
    · exact Or.inr h1

set_option maxRecDepth 100000 in
/-- C12 (evaluation at the failing input): every bit of `[8, 64)` is set in the data
bitmap and inode 0 is live with direct pointer 4294967295; the second loop of
`checkDuplicateBlocks` indexes `block_counts` with that pointer and the run has no
defined outcome. -/
theorem no_free_out_of_bounds :
    clearBits sb1 (imageOf [4294967295] [0, 255, 255, 255, 255, 255, 255, 255]).data_bitmap = 0 ∧
    ((imageOf [4294967295] [0, 255, 255, 255, 255, 255, 255, 255]).inodes 0).valid = true ∧
    ((imageOf [4294967295] [0, 255, 255, 255, 255, 255, 255, 255]).inodes 0).direct_block_pointer
      = 4294967295 ∧
    checkDuplicateBlocks sb1 (imageOf [4294967295] [0, 255, 255, 255, 255, 255, 255, 255])
      = none :=
  ⟨by decide, by decide, by decide, Option.isNone_iff_eq_none.mp (by decide)⟩

/-! ## The length of the image -/

theorem writeBytes_size (f : RawImage) (off len : Nat) (buf : Nat → Nat)
    (h : off + len ≤ f.size) : (writeBytes f off len buf).size = f.size := by
  show max f.size (off + len) = f.size
  omega

theorem superblockValidator_extend (block : Nat → Nat) (f : RawImage)
    (h : f.size < 262144) :
    (superblockValidator block f).size = 262144 ∧
    (∀ k, f.size ≤ k → (superblockValidator block f).bytes k = 0) ∧
    (∀ k, k < f.size → (superblockValidator block f).bytes k = f.bytes k) := by
  have h1 : f.size < TOTAL_BLOCKS * DESIRED_BLOCK_SIZE := h
  have hv : superblockValidator block f =
      { size := TOTAL_BLOCKS * DESIRED_BLOCK_SIZE,
        bytes := fun k => if k < f.size then f.bytes k else 0 } := by
    unfold superblockValidator
    dsimp only
    rw [if_pos h1]
    dsimp only
    rw [if_neg (Nat.lt_irrefl _)]
  rw [hv]
  refine ⟨rfl, ?_, ?_⟩
  · intro k hk
    show (if k < f.size then f.bytes k else 0) = 0
    rw [if_neg (by omega)]
  · intro k hk
    show (if k < f.size then f.bytes k else 0) = f.bytes k
    rw [if_pos hk]

/-- When the file is longer than 262144 bytes, `superblockValidator` cuts it to
262144 bytes and fills its first block with the content of the array `block`. -/
theorem superblockValidator_truncate (block : Nat → Nat) (f : RawImage)
    (h : 262144 < f.size) :
    (superblockValidator block f).size = 262144 ∧
    (∀ k, k < 4096 → (superblockValidator block f).bytes k = block k) ∧
    (∀ k, 4096 ≤ k → (superblockValidator block f).bytes k = f.bytes k) := by
  have h1 : ¬ f.size < TOTAL_BLOCKS * DESIRED_BLOCK_SIZE := by
    show ¬ f.size < 262144
    omega
  have h2 : f.size > TOTAL_BLOCKS * DESIRED_BLOCK_SIZE := h
  have hv : superblockValidator block f =
      writeBytes { f with size := TOTAL_BLOCKS * DESIRED_BLOCK_SIZE } 0 DESIRED_BLOCK_SIZE
        block := by
    unfold superblockValidator
    dsimp only
    rw [if_neg h1]
    dsimp only
    rw [if_pos h2]
  rw [hv]
  refine ⟨?_, ?_, ?_⟩
  · have hle : 0 + DESIRED_BLOCK_SIZE ≤ TOTAL_BLOCKS * DESIRED_BLOCK_SIZE := by decide
    exact writeBytes_size { f with size := TOTAL_BLOCKS * DESIRED_BLOCK_SIZE } 0
      DESIRED_BLOCK_SIZE block hle
  · intro k hk
    show (if 0 ≤ k ∧ k < 0 + DESIRED_BLOCK_SIZE then block (k - 0) else f.bytes k) = block k
    rw [if_pos ⟨Nat.zero_le k, by simpa [DESIRED_BLOCK_SIZE] using hk⟩]
    rfl
  · intro k hk
    show (if 0 ≤ k ∧ k < 0 + DESIRED_BLOCK_SIZE then block (k - 0) else f.bytes k) = f.bytes k
    rw [if_neg (by simp only [DESIRED_BLOCK_SIZE]; omega)]

theorem magic_write_size (f : RawImage) (h : ¬ f.size < 2) :
    (if le16 f.bytes 0 ≠ MAGIC then writeBytes f 0 2 (byteOf MAGIC) else f).size = f.size := by
  split
  · exact writeBytes_size f 0 2 _ (by omega)
  · rfl

theorem mainSuperblockRepair_short (block : Nat → Nat) (f : RawImage)
    (h : f.size < 1024 + SUPERBLOCK_BYTES) :
    (mainSuperblockRepair block f).1.size = f.size ∧
    (mainSuperblockRepair block f).2 = none := by
  unfold mainSuperblockRepair
  by_cases h2 : f.size < 2
  · rw [if_pos h2]; exact ⟨rfl, rfl⟩
  · rw [if_neg h2]
    dsimp only
    have hsz := magic_write_size f h2
    rw [if_pos (by rw [hsz]; exact h)]
    exact ⟨hsz, rfl⟩

theorem mainSuperblockRepair_long (block : Nat → Nat) (f : RawImage)
    (h : 1024 + SUPERBLOCK_BYTES ≤ f.size) :
    ∃ g sb, g.size = f.size ∧
      mainSuperblockRepair block f = (superblockValidator block g, some sb) := by
  have hS : SUPERBLOCK_BYTES = 4096 := rfl
  have h2 : ¬ f.size < 2 := by omega
  have hsz := magic_write_size f h2
  unfold mainSuperblockRepair
  rw [if_neg h2]
  dsimp only
  generalize (if le16 f.bytes 0 ≠ MAGIC then writeBytes f 0 2 (byteOf MAGIC) else f) = f1 at hsz ⊢
  rw [if_neg (by rw [hsz]; omega)]
  refine ⟨_, _, ?_, rfl⟩
  split
  · rw [writeBytes_size _ _ _ _ (by rw [hsz]; exact h)]
    exact hsz
  · exact hsz

/-- C13 (counterexample): the image has 1024 bytes, too few to hold the superblock
record at offset 1024; `main` returns 1 before it calls `superblockValidator` and the
image still has 1024 bytes. -/
theorem extension_counterexample :
    (zeroFile 1024).size < 262144 ∧
    (mainSuperblockRepair (fun _ => 0) (zeroFile 1024)).1.size = 1024 ∧
    (mainSuperblockRepair (fun _ => 0) (zeroFile 1024)).2 = none := by
  refine ⟨by decide, ?_⟩
  exact mainSuperblockRepair_short (fun _ => 0) (zeroFile 1024) (by decide)

/-- C13 (amended): for every image of at least `1024 + sizeof(struct Superblock)
= 5120` and fewer than 262144 bytes, the magic and superblock check of `main`
followed by `superblockValidator` ends with an image of exactly 262144 bytes in
which every byte at or beyond the original length is zero, and `main` goes on. -/
theorem image_extension (block : Nat → Nat) (f : RawImage)
    (hlo : 5120 ≤ f.size) (hhi : f.size < 262144) :
    (mainSuperblockRepair block f).1.size = 262144 ∧
    (∀ k, f.size ≤ k → k < 262144 → (mainSuperblockRepair block f).1.bytes k = 0) ∧
    (mainSuperblockRepair block f).2.isSome = true := by
  obtain ⟨g, sb, hg, hrun⟩ := mainSuperblockRepair_long block f hlo
  rw [hrun]
  obtain ⟨h1, h2, _⟩ := superblockValidator_extend block g (by rw [hg]; exact hhi)
  exact ⟨h1, fun k hk _ => h2 k (by rw [hg]; exact hk), rfl⟩

/-- Witness for C13 (amended): an image of 5120 zero bytes. -/
theorem image_extension_witness :
    5120 ≤ (zeroFile 5120).size ∧ (zeroFile 5120).size < 262144 ∧
    (mainSuperblockRepair (fun _ => 0) (zeroFile 5120)).1.size = 262144 ∧
    (∀ k, (zeroFile 5120).size ≤ k → k < 262144 →
      (mainSuperblockRepair (fun _ => 0) (zeroFile 5120)).1.bytes k = 0) ∧
    (mainSuperblockRepair (fun _ => 0) (zeroFile 5120)).2.isSome = true :=
  ⟨by decide, by decide, image_extension (fun _ => 0) (zeroFile 5120) (by decide) (by decide)⟩

/-- C14 (evaluation at the failing input): the image has 262145 zero bytes and the
uninitialised array `block` holds the byte 0xAA everywhere; after
`superblockValidator` the image has 262144 bytes and its first byte is 0xAA. -/
theorem truncation_first_block :
    262144 < (zeroFile 262145).size ∧
    (superblockValidator (fun _ => 0xAA) (zeroFile 262145)).size = 262144 ∧
    (superblockValidator (fun _ => 0xAA) (zeroFile 262145)).bytes 0 = 0xAA := by
  have h := superblockValidator_truncate (fun _ => 0xAA) (zeroFile 262145) (by decide)
  exact ⟨by decide, h.1, h.2.1 0 (by decide)⟩

/-! ## Bitmap reconciliation on the bytes of the file -/

theorem inodeBitmapBody_byte (inodes : Nat → Inode) (s : (Nat → Nat) × Bool) (m k : Nat)
    (hk : k ≠ m / 8) : (inodeBitmapBody inodes s m).1 k = s.1 k := by
  unfold inodeBitmapBody
  dsimp only
  split
  · exact Function.update_noteq hk _ _
  · split
    · exact Function.update_noteq hk _ _
    · rfl

theorem dataBitmapBody_byte (referenced : Nat → Bool) (s : (Nat → Nat) × Bool) (m k : Nat)
    (hk : k ≠ m / 8) : (dataBitmapBody referenced s m).1 k = s.1 k := by
  unfold dataBitmapBody
  dsimp only
  split
  · exact Function.update_noteq hk _ _
  · split
    · exact Function.update_noteq hk _ _
    · rfl

theorem inodeBitmap_loop_bytes (inodes : Nat → Inode) (bm0 : Nat → Nat) (n k : Nat)
    (hk : ∀ i, i < n → k ≠ i / 8) :
    ((List.range n).foldl (inodeBitmapBody inodes) (bm0, false)).1 k = bm0 k :=
  foldl_range_inv (inodeBitmapBody inodes) (fun _ s => s.1 k = bm0 k) (bm0, false) n rfl
    (fun m s hm hs => (inodeBitmapBody_byte inodes s m k (hk m hm)).trans hs)

theorem dataBitmap_loop_bytes (referenced : Nat → Bool) (bm0 : Nat → Nat) (a n k : Nat)
    (hk : ∀ i, a ≤ i → i < a + n → k ≠ i / 8) :
    ((List.range' a n).foldl (dataBitmapBody referenced) (bm0, false)).1 k = bm0 k :=
  foldl_range'_inv (dataBitmapBody referenced) (fun _ s => s.1 k = bm0 k) (bm0, false) a n rfl
    (fun m s hm1 hm2 hs => (dataBitmapBody_byte referenced s m k (hk m hm1 hm2)).trans hs)

theorem checkInodeBitmapConsistency_eq (sb : Superblock) (img : Image) :
    checkInodeBitmapConsistency sb img =
      ({ img with inode_bitmap :=
            ((List.range sb.inode_count).foldl (inodeBitmapBody img.inodes)
              (img.inode_bitmap, false)).1 },
        ((List.range sb.inode_count).foldl (inodeBitmapBody img.inodes)
          (img.inode_bitmap, false)).2) := by
  have h := (inodeBitmap_loop img.inodes img.inode_bitmap sb.inode_count).2
  unfold checkInodeBitmapConsistency
  dsimp only at h ⊢
  split
  · next hmod => rw [hmod]
  · next hmod =>
    have hf : ((List.range sb.inode_count).foldl (inodeBitmapBody img.inodes)
        (img.inode_bitmap, false)).2 = false := by simpa using hmod
    rw [hf, h hf]

theorem checkDataBitmapConsistency_eq (sb : Superblock) (img : Image) :
    checkDataBitmapConsistency sb img =
      ({ img with data_bitmap :=
            ((List.range' sb.first_data_block (sb.total_blocks - sb.first_data_block)).foldl
              (dataBitmapBody ((List.range sb.inode_count).foldl
                (referencedBody sb img.inodes) (fun _ => false)))
              (img.data_bitmap, false)).1 },
        ((List.range' sb.first_data_block (sb.total_blocks - sb.first_data_block)).foldl
          (dataBitmapBody ((List.range sb.inode_count).foldl
            (referencedBody sb img.inodes) (fun _ => false)))
          (img.data_bitmap, false)).2) := by
  have h := (dataBitmap_loop ((List.range sb.inode_count).foldl
    (referencedBody sb img.inodes) (fun _ => false)) img.data_bitmap sb.first_data_block
    (sb.total_blocks - sb.first_data_block)).2
  unfold checkDataBitmapConsistency
  dsimp only at h ⊢
  split
  · next hmod => rw [hmod]
  · next hmod =>
    have hf : ((List.range' sb.first_data_block (sb.total_blocks - sb.first_data_block)).foldl
        (dataBitmapBody ((List.range sb.inode_count).foldl
          (referencedBody sb img.inodes) (fun _ => false)))
        (img.data_bitmap, false)).2 = false := by simpa using hmod
    rw [hf, h hf]

/-- The stage `checkInodeBitmapConsistency` reads the inode table and the inode
bitmap only. -/
theorem checkInodeBitmapConsistency_congr (sb : Superblock) (img img' : Image)
    (h1 : img.inodes = img'.inodes) (h2 : img.inode_bitmap = img'.inode_bitmap) :
    (checkInodeBitmapConsistency sb img).2 = (checkInodeBitmapConsistency sb img').2 ∧
    (checkInodeBitmapConsistency sb img).1.inode_bitmap =
      (checkInodeBitmapConsistency sb img').1.inode_bitmap := by
  rw [checkInodeBitmapConsistency_eq, checkInodeBitmapConsistency_eq, h1, h2]
  exact ⟨rfl, rfl⟩

/-- The stage `checkDataBitmapConsistency` reads the inode table and the data
bitmap only. -/
theorem checkDataBitmapConsistency_congr (sb : Superblock) (img img' : Image)
    (h1 : img.inodes = img'.inodes) (h2 : img.data_bitmap = img'.data_bitmap) :
    (checkDataBitmapConsistency sb img).2 = (checkDataBitmapConsistency sb img').2 ∧
    (checkDataBitmapConsistency sb img).1.data_bitmap =
      (checkDataBitmapConsistency sb img').1.data_bitmap := by
  rw [checkDataBitmapConsistency_eq, checkDataBitmapConsistency_eq, h1, h2]
  exact ⟨rfl, rfl⟩

theorem checkInodeBitmapConsistency_bytes (img : Image) (k : Nat) (hk : 10 ≤ k) :
    (checkInodeBitmapConsistency sb1 img).1.inode_bitmap k = img.inode_bitmap k := by
  rw [checkInodeBitmapConsistency_eq]
  exact inodeBitmap_loop_bytes img.inodes img.inode_bitmap sb1.inode_count k
    (fun i hi => by
      have : i < 80 := hi
      omega)

theorem checkDataBitmapConsistency_bytes (img : Image) (k : Nat) (hk : k < 1 ∨ 8 ≤ k) :
    (checkDataBitmapConsistency sb1 img).1.data_bitmap k = img.data_bitmap k := by
  rw [checkDataBitmapConsistency_eq]
  exact dataBitmap_loop_bytes _ img.data_bitmap sb1.first_data_block
    (sb1.total_blocks - sb1.first_data_block) k
    (fun i h1 h2 => by
      have h3 : 8 ≤ i := h1
      have h4 : i < 8 + (64 - 8) := h2
      omega)

/-- The last 1024 bytes of the 4096-byte record that `main` reads at offset 1024
(the tail of `reserved` and the padding) are the first 1024 bytes of the
inode-bitmap block. -/
theorem superblockRecord_tail (f : RawImage) (k : Nat) (hk : k < 1024) :
    superblockRecord f (3072 + k) = readBlock sb1 f 1 k := by
  have hbs : sb1.block_size = 4096 := rfl
  unfold superblockRecord readBlock
  rw [hbs, if_pos (by omega)]
  have he : 1024 + (3072 + k) = 1 * 4096 + k := by omega
  rw [he]

theorem le32_congr (b b' : Nat → Nat) (off : Nat) (h : ∀ k, off ≤ k → b k = b' k) :
    le32 b off = le32 b' off := by
  unfold le32
  rw [h off (Nat.le_refl _), h (off + 1) (by omega), h (off + 2) (by omega),
    h (off + 3) (by omega)]

theorem decodeInode_congr (b b' : Nat → Nat) (base : Nat) (h : ∀ k, base ≤ k → b k = b' k) :
    decodeInode b base = decodeInode b' base := by
  have hl : ∀ d, le32 b (base + d) = le32 b' (base + d) :=
    fun d => le32_congr b b' (base + d) (fun k hk => h k (by omega))
  have h0 := hl 0
  rw [Nat.add_zero] at h0
  have hr : (List.range 156).map (fun k => b (base + 56 + k)) =
      (List.range 156).map (fun k => b' (base + 56 + k)) :=
    List.map_congr_left (fun k _ => h _ (by omega))
  unfold decodeInode
  rw [h0, hl 4, hl 8, hl 12, hl 16, hl 20, hl 24, hl 28, hl 32, hl 36, hl 40, hl 44, hl 48,
    hl 52, hr]

theorem loadImage_inodes_congr (f g : RawImage)
    (h : ∀ k, 12288 ≤ k → g.bytes k = f.bytes k) :
    (loadImage sb1 g).inodes = (loadImage sb1 f).inodes := by
  have hoff : sb1.inode_table_start * sb1.block_size = 12288 := rfl
  funext i
  show decodeInode g.bytes (sb1.inode_table_start * sb1.block_size + i * INODE_BYTES) =
    decodeInode f.bytes (sb1.inode_table_start * sb1.block_size + i * INODE_BYTES)
  rw [hoff]
  exact decodeInode_congr _ _ _ (fun k hk => h k (by omega))

theorem loadImage_inode_bitmap_congr (f g : RawImage)
    (h : ∀ k, 4096 ≤ k → k < 8192 → g.bytes k = f.bytes k) :
    (loadImage sb1 g).inode_bitmap = (loadImage sb1 f).inode_bitmap := by
  have hbs : sb1.block_size = 4096 := rfl
  funext off
  show readBlock sb1 g 1 off = readBlock sb1 f 1 off
  unfold readBlock
  rw [hbs]
  split
  · exact h _ (by omega) (by omega)
  · rfl

theorem loadImage_data_bitmap_congr (f g : RawImage)
    (h : ∀ k, 8192 ≤ k → k < 12288 → g.bytes k = f.bytes k) :
    (loadImage sb1 g).data_bitmap = (loadImage sb1 f).data_bitmap := by
  have hbs : sb1.block_size = 4096 := rfl
  funext off
  show readBlock sb1 g 2 off = readBlock sb1 f 2 off
  unfold readBlock
  rw [hbs]
  split
  · exact h _ (by omega) (by omega)
  · rfl

theorem writeBytes_bytes_outside (f : RawImage) (off len : Nat) (buf : Nat → Nat) (k : Nat)
    (hk : k < off ∨ off + len ≤ k) : (writeBytes f off len buf).bytes k = f.bytes k := by
  show (if off ≤ k ∧ k < off + len then buf (k - off) else f.bytes k) = f.bytes k
  rw [if_neg (by omega)]

theorem writeBytes_bytes_inside (f : RawImage) (off len : Nat) (buf : Nat → Nat) (k : Nat)
    (h1 : off ≤ k) (h2 : k < off + len) :
    (writeBytes f off len buf).bytes k = buf (k - off) := by
  show (if off ≤ k ∧ k < off + len then buf (k - off) else f.bytes k) = buf (k - off)
  rw [if_pos ⟨h1, h2⟩]

theorem writeBytes_comm (f : RawImage) (a la b lb : Nat) (A B : Nat → Nat)
    (h : a + la ≤ b) :
    writeBytes (writeBytes f b lb B) a la A = writeBytes (writeBytes f a la A) b lb B := by
  unfold writeBytes
  simp only [RawImage.mk.injEq]
  refine ⟨by omega, ?_⟩
  funext k
  by_cases h1 : a ≤ k ∧ k < a + la
  · rw [if_pos h1, if_neg (by omega), if_pos h1]
  · rw [if_neg h1]
    by_cases h2 : b ≤ k ∧ k < b + lb
    · rw [if_pos h2, if_pos h2]
    · rw [if_neg h2, if_neg h2, if_neg h1]

theorem checkInodeBitmapConsistencyFile_eq (f : RawImage) :
    checkInodeBitmapConsistencyFile sb1 f =
      if (checkInodeBitmapConsistency sb1 (loadImage sb1 f)).2 = true then
        writeBytes f 4096 4096 (checkInodeBitmapConsistency sb1 (loadImage sb1 f)).1.inode_bitmap
      else f := by
  have h1 : sb1.inode_bitmap_block * sb1.block_size = 4096 := rfl
  have h2 : sb1.block_size = 4096 := rfl
  unfold checkInodeBitmapConsistencyFile
  dsimp only
  rw [h1, h2]

theorem checkDataBitmapConsistencyFile_eq (f : RawImage) :
    checkDataBitmapConsistencyFile sb1 f =
      if (checkDataBitmapConsistency sb1 (loadImage sb1 f)).2 = true then
        writeBytes f 8192 4096 (checkDataBitmapConsistency sb1 (loadImage sb1 f)).1.data_bitmap
      else f := by
  have h1 : sb1.data_bitmap_block * sb1.block_size = 8192 := rfl
  have h2 : sb1.block_size = 4096 := rfl
  unfold checkDataBitmapConsistencyFile
  dsimp only
  rw [h1, h2]

theorem readBlock_lt (f : RawImage) (k off : Nat) (h : off < 4096) :
    readBlock sb1 f k off = f.bytes (k * 4096 + off) := by
  have hbs : sb1.block_size = 4096 := rfl
  unfold readBlock
  rw [hbs, if_pos h]

theorem loadImage_inode_bitmap (f : RawImage) :
    (loadImage sb1 f).inode_bitmap = readBlock sb1 f 1 := rfl

theorem loadImage_data_bitmap (f : RawImage) :
    (loadImage sb1 f).data_bitmap = readBlock sb1 f 2 := rfl

theorem checkInodeBitmapConsistencyFile_bytes (f : RawImage) (k : Nat)
    (hk : k < 4096 ∨ 4106 ≤ k) :
    (checkInodeBitmapConsistencyFile sb1 f).bytes k = f.bytes k := by
  rw [checkInodeBitmapConsistencyFile_eq]
  split
  · by_cases hin : 4096 ≤ k ∧ k < 4096 + 4096
    · rw [writeBytes_bytes_inside _ _ _ _ _ hin.1 hin.2,
        checkInodeBitmapConsistency_bytes _ _ (by omega)]
      rw [loadImage_inode_bitmap, readBlock_lt _ _ _ (by omega)]
      have he : 1 * 4096 + (k - 4096) = k := by omega
      rw [he]
    · exact writeBytes_bytes_outside _ _ _ _ _ (by omega)
  · rfl

theorem checkDataBitmapConsistencyFile_bytes (f : RawImage) (k : Nat)
    (hk : k < 8193 ∨ 8200 ≤ k) :
    (checkDataBitmapConsistencyFile sb1 f).bytes k = f.bytes k := by
  rw [checkDataBitmapConsistencyFile_eq]
  split
  · by_cases hin : 8192 ≤ k ∧ k < 8192 + 4096
    · rw [writeBytes_bytes_inside _ _ _ _ _ hin.1 hin.2,
        checkDataBitmapConsistency_bytes _ _ (by omega)]
      rw [loadImage_data_bitmap, readBlock_lt _ _ _ (by omega)]
      have he : 2 * 4096 + (k - 8192) = k := by omega
      rw [he]
    · exact writeBytes_bytes_outside _ _ _ _ _ (by omega)
  · rfl

theorem checkInodeBitmapConsistencyFile_size (f : RawImage) (h : 8192 ≤ f.size) :
    (checkInodeBitmapConsistencyFile sb1 f).size = f.size := by
  rw [checkInodeBitmapConsistencyFile_eq]
  split
  · exact writeBytes_size _ _ _ _ (by omega)
  · rfl

theorem checkDataBitmapConsistencyFile_size (f : RawImage) (h : 12288 ≤ f.size) :
    (checkDataBitmapConsistencyFile sb1 f).size = f.size := by
  rw [checkDataBitmapConsistencyFile_eq]
  split
  · exact writeBytes_size _ _ _ _ (by omega)
  · rfl

/-- The two bitmap reconciliations commute on the bytes of the file. -/
theorem bitmap_reconciliations_commute (f : RawImage) :
    checkInodeBitmapConsistencyFile sb1 (checkDataBitmapConsistencyFile sb1 f) =
      checkDataBitmapConsistencyFile sb1 (checkInodeBitmapConsistencyFile sb1 f) := by
  have hI := checkInodeBitmapConsistency_congr sb1
    (loadImage sb1 (checkDataBitmapConsistencyFile sb1 f)) (loadImage sb1 f)
    (loadImage_inodes_congr _ _
      (fun k hk => checkDataBitmapConsistencyFile_bytes f k (by omega)))
    (loadImage_inode_bitmap_congr _ _
      (fun k _ hk => checkDataBitmapConsistencyFile_bytes f k (by omega)))
  have hD := checkDataBitmapConsistency_congr sb1
    (loadImage sb1 (checkInodeBitmapConsistencyFile sb1 f)) (loadImage sb1 f)
    (loadImage_inodes_congr _ _
      (fun k hk => checkInodeBitmapConsistencyFile_bytes f k (by omega)))
    (loadImage_data_bitmap_congr _ _
      (fun k hk _ => checkInodeBitmapConsistencyFile_bytes f k (by omega)))
  rw [checkInodeBitmapConsistencyFile_eq (checkDataBitmapConsistencyFile sb1 f),
    checkDataBitmapConsistencyFile_eq (checkInodeBitmapConsistencyFile sb1 f),
    hI.1, hI.2, hD.1, hD.2,
    checkInodeBitmapConsistencyFile_eq f, checkDataBitmapConsistencyFile_eq f]
  by_cases h1 : (checkInodeBitmapConsistency sb1 (loadImage sb1 f)).2 = true
  · by_cases h2 : (checkDataBitmapConsistency sb1 (loadImage sb1 f)).2 = true
    · simp only [if_pos h1, if_pos h2]
      exact writeBytes_comm f 4096 4096 8192 4096 _ _ (by omega)
    · simp only [if_pos h1, if_neg h2]
  · by_cases h2 : (checkDataBitmapConsistency sb1 (loadImage sb1 f)).2 = true
    · simp only [if_neg h1, if_pos h2]
    · simp only [if_neg h1, if_neg h2]

theorem le32_congr_lt (b b' : Nat → Nat) (off : Nat)
    (h : ∀ k, off ≤ k → k < off + 4 → b k = b' k) : le32 b off = le32 b' off := by
  unfold le32
  rw [h off (Nat.le_refl _) (by omega), h (off + 1) (by omega) (by omega),
    h (off + 2) (by omega) (by omega), h (off + 3) (by omega) (by omega)]

theorem le16_congr_lt (b b' : Nat → Nat) (off : Nat)
    (h : ∀ k, off ≤ k → k < off + 2 → b k = b' k) : le16 b off = le16 b' off := by
  unfold le16
  rw [h off (Nat.le_refl _) (by omega), h (off + 1) (by omega) (by omega)]

/-- The nine fields before `reserved` of the superblock record are decoded from its
first 36 bytes. -/
theorem decodeSuperblock_fields_congr (buf buf' : Nat → Nat)
    (h : ∀ k, k < 36 → buf k = buf' k) :
    { decodeSuperblock buf with reserved := [] } =
      { decodeSuperblock buf' with reserved := [] } := by
  have h32 : ∀ off, off + 4 ≤ 36 → le32 buf off = le32 buf' off :=
    fun off ho => le32_congr_lt buf buf' off (fun k _ hk => h k (by omega))
  have h16 : le16 buf 16 = le16 buf' 16 :=
    le16_congr_lt buf buf' 16 (fun k _ hk => h k (by omega))
  unfold decodeSuperblock
  dsimp only
  rw [h32 0 (by omega), h32 4 (by omega), h32 8 (by omega), h32 12 (by omega), h16,
    h32 20 (by omega), h32 24 (by omega), h32 28 (by omega), h32 32 (by omega)]

theorem decodeSuperblock_congr (buf buf' : Nat → Nat)
    (h : ∀ k, k < 4096 → buf k = buf' k) :
    decodeSuperblock buf = decodeSuperblock buf' := by
  have h32 : ∀ off, off + 4 ≤ 36 → le32 buf off = le32 buf' off :=
    fun off ho => le32_congr_lt buf buf' off (fun k _ hk => h k (by omega))
  have h16 : le16 buf 16 = le16 buf' 16 :=
    le16_congr_lt buf buf' 16 (fun k _ hk => h k (by omega))
  have hres : (List.range 4058).map (fun k => buf (36 + k)) =
      (List.range 4058).map (fun k => buf' (36 + k)) := by
    apply List.map_congr_left
    intro k hk
    have := List.mem_range.mp hk
    exact h (36 + k) (by omega)
  unfold decodeSuperblock
  rw [h32 0 (by omega), h32 4 (by omega), h32 8 (by omega), h32 12 (by omega), h16,
    h32 20 (by omega), h32 24 (by omega), h32 28 (by omega), h32 32 (by omega), hres]

/-- C20: on an image that holds the two bitmap blocks,
`checkInodeBitmapConsistency` changes only bits with index below 80 of the
inode-bitmap block (bytes 4096..4105 of the image) and
`checkDataBitmapConsistency` only bits with index in `[8, 64)` of the data-bitmap
block (bytes 8193..8199); neither changes the length, an inode record, the other
bitmap or the superblock: every byte of block 0, the magic number at offset 0 and
the nine fields before `reserved` of the record at offset 1024 are as before
(`checkDataBitmapConsistency` leaves all 4096 bytes of that record,
`checkInodeBitmapConsistency` its first 3072 bytes: the rest of the record is in
the inode-bitmap block); the two reconciliations commute. -/
theorem bitmap_reconciliation_frame (f : RawImage) (hsize : 12288 ≤ f.size) :
    (checkInodeBitmapConsistencyFile sb1 f).size = f.size ∧
    (checkDataBitmapConsistencyFile sb1 f).size = f.size ∧
    (∀ k, (checkInodeBitmapConsistencyFile sb1 f).bytes k ≠ f.bytes k → 4096 ≤ k ∧ k < 4106) ∧
    (∀ k, (checkDataBitmapConsistencyFile sb1 f).bytes k ≠ f.bytes k → 8193 ≤ k ∧ k < 8200) ∧
    (∀ i, 80 ≤ i →
      maskBit (readBlock sb1 (checkInodeBitmapConsistencyFile sb1 f) 1) i
        = maskBit (readBlock sb1 f 1) i) ∧
    (∀ b, b < 8 ∨ 64 ≤ b →
      maskBit (readBlock sb1 (checkDataBitmapConsistencyFile sb1 f) 2) b
        = maskBit (readBlock sb1 f 2) b) ∧
    (loadImage sb1 (checkInodeBitmapConsistencyFile sb1 f)).inodes = (loadImage sb1 f).inodes ∧
    (loadImage sb1 (checkInodeBitmapConsistencyFile sb1 f)).data_bitmap
      = (loadImage sb1 f).data_bitmap ∧
    (loadImage sb1 (checkDataBitmapConsistencyFile sb1 f)).inodes = (loadImage sb1 f).inodes ∧
    (loadImage sb1 (checkDataBitmapConsistencyFile sb1 f)).inode_bitmap
      = (loadImage sb1 f).inode_bitmap ∧
    (∀ k, k < 4096 → (checkInodeBitmapConsistencyFile sb1 f).bytes k = f.bytes k) ∧
    (∀ k, k < 4096 → (checkDataBitmapConsistencyFile sb1 f).bytes k = f.bytes k) ∧
    le16 (checkInodeBitmapConsistencyFile sb1 f).bytes 0 = le16 f.bytes 0 ∧
    le16 (checkDataBitmapConsistencyFile sb1 f).bytes 0 = le16 f.bytes 0 ∧
    { decodeSuperblock (superblockRecord (checkInodeBitmapConsistencyFile sb1 f)) with
        reserved := [] } = { decodeSuperblock (superblockRecord f) with reserved := [] } ∧
    decodeSuperblock (superblockRecord (checkDataBitmapConsistencyFile sb1 f))
      = decodeSuperblock (superblockRecord f) ∧
    (∀ k, k < 3072 →
      superblockRecord (checkInodeBitmapConsistencyFile sb1 f) k = superblockRecord f k) ∧
    (∀ k, k < SUPERBLOCK_BYTES →
      superblockRecord (checkDataBitmapConsistencyFile sb1 f) k = superblockRecord f k) ∧
    checkInodeBitmapConsistencyFile sb1 (checkDataBitmapConsistencyFile sb1 f) =
      checkDataBitmapConsistencyFile sb1 (checkInodeBitmapConsistencyFile sb1 f) := by
  have hrecI : ∀ k, k < 3072 →
      superblockRecord (checkInodeBitmapConsistencyFile sb1 f) k = superblockRecord f k :=
    fun k hk => checkInodeBitmapConsistencyFile_bytes f (1024 + k) (by omega)
  have hrecD : ∀ k, k < 4096 →
      superblockRecord (checkDataBitmapConsistencyFile sb1 f) k = superblockRecord f k :=
    fun k hk => checkDataBitmapConsistencyFile_bytes f (1024 + k) (by omega)
  refine ⟨checkInodeBitmapConsistencyFile_size f (by omega),
    checkDataBitmapConsistencyFile_size f hsize, ?_, ?_, ?_, ?_,
    loadImage_inodes_congr _ _
      (fun k hk => checkInodeBitmapConsistencyFile_bytes f k (by omega)),
    loadImage_data_bitmap_congr _ _
      (fun k hk _ => checkInodeBitmapConsistencyFile_bytes f k (by omega)),
    loadImage_inodes_congr _ _
      (fun k hk => checkDataBitmapConsistencyFile_bytes f k (by omega)),
    loadImage_inode_bitmap_congr _ _
      (fun k _ hk => checkDataBitmapConsistencyFile_bytes f k (by omega)),
    fun k hk => checkInodeBitmapConsistencyFile_bytes f k (by omega),
    fun k hk => checkDataBitmapConsistencyFile_bytes f k (by omega),
    le16_congr_lt _ _ 0 (fun k _ hk => checkInodeBitmapConsistencyFile_bytes f k (by omega)),
    le16_congr_lt _ _ 0 (fun k _ hk => checkDataBitmapConsistencyFile_bytes f k (by omega)),
    decodeSuperblock_fields_congr _ _ (fun k hk => hrecI k (by omega)),
    decodeSuperblock_congr _ _ hrecD,
    hrecI,
    fun k hk => hrecD k hk,
    bitmap_reconciliations_commute f⟩
  · intro k hk
    by_contra hout
    exact hk (checkInodeBitmapConsistencyFile_bytes f k (by omega))
  · intro k hk
    by_contra hout
    exact hk (checkDataBitmapConsistencyFile_bytes f k (by omega))
  · intro i hi
    have hb : readBlock sb1 (checkInodeBitmapConsistencyFile sb1 f) 1 (i / 8)
        = readBlock sb1 f 1 (i / 8) := by
      have hbs : sb1.block_size = 4096 := rfl
      unfold readBlock
      rw [hbs, checkInodeBitmapConsistencyFile_bytes f _ (by omega)]
    unfold maskBit
    rw [hb]
  · intro b hb
    have hbb : readBlock sb1 (checkDataBitmapConsistencyFile sb1 f) 2 (b / 8)
        = readBlock sb1 f 2 (b / 8) := by
      have hbs : sb1.block_size = 4096 := rfl
      unfold readBlock
      rw [hbs, checkDataBitmapConsistencyFile_bytes f _ (by omega)]
    unfold maskBit
    rw [hbb]

/-- Witness for C20: an image of 262144 bytes with one live inode. -/
theorem bitmap_reconciliation_frame_witness :
    12288 ≤ oneLiveInodeFile.size ∧
    (checkInodeBitmapConsistencyFile sb1 oneLiveInodeFile).size = oneLiveInodeFile.size ∧
    (checkDataBitmapConsistencyFile sb1 oneLiveInodeFile).size = oneLiveInodeFile.size ∧
    (∀ k, (checkInodeBitmapConsistencyFile sb1 oneLiveInodeFile).bytes k ≠ oneLiveInodeFile.bytes k → 4096 ≤ k ∧ k < 4106) ∧
    (∀ k, (checkDataBitmapConsistencyFile sb1 oneLiveInodeFile).bytes k ≠ oneLiveInodeFile.bytes k → 8193 ≤ k ∧ k < 8200) ∧
    (∀ i, 80 ≤ i →
      maskBit (readBlock sb1 (checkInodeBitmapConsistencyFile sb1 oneLiveInodeFile) 1) i
        = maskBit (readBlock sb1 oneLiveInodeFile 1) i) ∧
    (∀ b, b < 8 ∨ 64 ≤ b →
      maskBit (readBlock sb1 (checkDataBitmapConsistencyFile sb1 oneLiveInodeFile) 2) b
        = maskBit (readBlock sb1 oneLiveInodeFile 2) b) ∧
    (loadImage sb1 (checkInodeBitmapConsistencyFile sb1 oneLiveInodeFile)).inodes = (loadImage sb1 oneLiveInodeFile).inodes ∧
    (loadImage sb1 (checkInodeBitmapConsistencyFile sb1 oneLiveInodeFile)).data_bitmap
      = (loadImage sb1 oneLiveInodeFile).data_bitmap ∧
    (loadImage sb1 (checkDataBitmapConsistencyFile sb1 oneLiveInodeFile)).inodes = (loadImage sb1 oneLiveInodeFile).inodes ∧
    (loadImage sb1 (checkDataBitmapConsistencyFile sb1 oneLiveInodeFile)).inode_bitmap
      = (loadImage sb1 oneLiveInodeFile).inode_bitmap ∧
    (∀ k, k < 4096 → (checkInodeBitmapConsistencyFile sb1 oneLiveInodeFile).bytes k = oneLiveInodeFile.bytes k) ∧
    (∀ k, k < 4096 → (checkDataBitmapConsistencyFile sb1 oneLiveInodeFile).bytes k = oneLiveInodeFile.bytes k) ∧
    le16 (checkInodeBitmapConsistencyFile sb1 oneLiveInodeFile).bytes 0 = le16 oneLiveInodeFile.bytes 0 ∧
    le16 (checkDataBitmapConsistencyFile sb1 oneLiveInodeFile).bytes 0 = le16 oneLiveInodeFile.bytes 0 ∧
    { decodeSuperblock (superblockRecord (checkInodeBitmapConsistencyFile sb1 oneLiveInodeFile)) with
        reserved := [] } = { decodeSuperblock (superblockRecord oneLiveInodeFile) with reserved := [] } ∧
    decodeSuperblock (superblockRecord (checkDataBitmapConsistencyFile sb1 oneLiveInodeFile))
      = decodeSuperblock (superblockRecord oneLiveInodeFile) ∧
    (∀ k, k < 3072 →
      superblockRecord (checkInodeBitmapConsistencyFile sb1 oneLiveInodeFile) k = superblockRecord oneLiveInodeFile k) ∧
    (∀ k, k < SUPERBLOCK_BYTES →
      superblockRecord (checkDataBitmapConsistencyFile sb1 oneLiveInodeFile) k = superblockRecord oneLiveInodeFile k) ∧
    checkInodeBitmapConsistencyFile sb1 (checkDataBitmapConsistencyFile sb1 oneLiveInodeFile) =
      checkDataBitmapConsistencyFile sb1 (checkInodeBitmapConsistencyFile sb1 oneLiveInodeFile) :=
  ⟨by decide, bitmap_reconciliation_frame oneLiveInodeFile (by decide)⟩

/-! ## Duplicate-block repair: which runs are defined -/

theorem foldlM_range_some_inv {σ : Type} (f : σ → Nat → Option σ) (P : Nat → σ → Prop)
    (s0 : σ) (n : Nat) (h0 : P 0 s0)
    (hs : ∀ i s t, i < n → P i s → f s i = some t → P (i + 1) t) :
    ∀ m, m ≤ n → ∀ t, (List.range m).foldlM f s0 = some t → P m t := by
  intro m
  induction m with
  | zero =>
    intro _ t ht
    have : s0 = t := by simpa using ht
    rw [← this]; exact h0
  | succ m ih =>
    intro hm t ht
    rw [List.range_succ, List.foldlM_append] at ht
    cases hprev : (List.range m).foldlM f s0 with
    | none => rw [hprev] at ht; simp at ht
    | some s =>
      rw [hprev] at ht
      have hstep : f s m = some t := by simpa using ht
      exact hs m s t (by omega) (ih (by omega) s hprev) hstep

theorem foldlM_range_none {σ : Type} (f : σ → Nat → Option σ) (P : Nat → σ → Prop)
    (s0 : σ) (n j : Nat) (hj : j < n) (h0 : P 0 s0)
    (hs : ∀ i s t, i < j → P i s → f s i = some t → P (i + 1) t)
    (hn : ∀ s, P j s → f s j = none) :
    (List.range n).foldlM f s0 = none := by
  have hsplit : List.range n = List.range (j + 1) ++ List.range' (j + 1) (n - (j + 1)) := by
    have hn : n = (n - (j + 1)) + (j + 1) := by omega
    have happ := List.range'_append_1 0 (j + 1) (n - (j + 1))
    rw [Nat.zero_add] at happ
    rw [List.range_eq_range', List.range_eq_range', happ, ← hn]
  have hhead : (List.range (j + 1)).foldlM f s0 = none := by
    rw [List.range_succ, List.foldlM_append]
    cases hprev : (List.range j).foldlM f s0 with
    | none => rfl
    | some s =>
      have hP := foldlM_range_some_inv f P s0 j h0 hs j (Nat.le_refl j) s hprev
      simp [hn s hP]
  rw [hsplit, List.foldlM_append, hhead]
  rfl

theorem reassignBody_none (sb : Superblock) (s : DupState) (m : Nat)
    (hv : (s.inodes m).valid = true)
    (hp : TOTAL_BLOCKS ≤ (s.inodes m).direct_block_pointer) :
    reassignBody sb s m = none := by
  have h64 : (0 : Nat) < TOTAL_BLOCKS := by decide
  unfold reassignBody
  dsimp only
  rw [if_pos ((valid_iff _).mp hv), if_pos (by omega)]
  unfold readCount
  rw [if_neg (by omega)]
  rfl

theorem reassignBody_some_inodes (sb : Superblock) (s t : DupState) (m : Nat)
    (htb : sb.total_blocks ≤ TOTAL_BLOCKS) (h : reassignBody sb s m = some t) (k : Nat)
    (hk : k ≠ m) : t.inodes k = s.inodes k := by
  by_cases hb : (s.inodes m).valid = true → (s.inodes m).direct_block_pointer < TOTAL_BLOCKS
  · rcases reassignBody_cases sb s m htb hb with ⟨he, _⟩ | ⟨he, _⟩ | ⟨he, _⟩
    · rw [he] at h
      rw [← Option.some.inj h]
    · rw [he] at h
      rw [← Option.some.inj h]
    · rw [he] at h
      rw [← Option.some.inj h]
      exact movedState_inodes_ne s m _ _ k hk
  · have hv : (s.inodes m).valid = true := by
      by_contra hv
      exact hb (fun h => absurd h hv)
    have hp : TOTAL_BLOCKS ≤ (s.inodes m).direct_block_pointer := by
      by_contra hp
      exact hb (fun _ => by omega)
    rw [reassignBody_none sb s m hv hp] at h
    cases h

/-- A live inode whose direct pointer is `TOTAL_BLOCKS` or more makes the run of
`checkDuplicateBlocks` undefined: the second loop indexes `block_counts` with it. -/
theorem checkDuplicateBlocks_undefined (sb : Superblock) (img : Image)
    (htb : sb.total_blocks ≤ TOTAL_BLOCKS) (j : Nat) (hj : j < sb.inode_count)
    (hv : (img.inodes j).valid = true)
    (hp : TOTAL_BLOCKS ≤ (img.inodes j).direct_block_pointer) :
    checkDuplicateBlocks sb img = none := by
  obtain ⟨c, hc1, _⟩ := countBody_loop sb img.inodes sb.inode_count htb
  have hloop := foldlM_range_none (reassignBody sb)
    (fun i s => ∀ k, i ≤ k → s.inodes k = img.inodes k)
    { inodes := img.inodes, data_bitmap := img.data_bitmap, block_counts := c,
      found_duplicates := false, no_free_blocks := false }
    sb.inode_count j hj (fun _ _ => rfl)
    (fun i s t _ hP ht k hk => by
      rw [reassignBody_some_inodes sb s t i htb ht k (by omega)]
      exact hP k (by omega))
    (fun s hP => reassignBody_none sb s j (by rw [hP j (Nat.le_refl j)]; exact hv)
      (by rw [hP j (Nat.le_refl j)]; exact hp))
  unfold checkDuplicateBlocks duplicatePasses
  dsimp only
  rw [hc1, Option.some_bind, hloop]
  rfl

/-- The run of `checkDuplicateBlocks` is defined exactly when every live inode has
its direct pointer below `total_blocks`. -/
theorem checkDuplicateBlocks_defined_iff (img : Image) :
    (checkDuplicateBlocks sb1 img).isSome = true ↔ PointersBounded sb1 img := by
  constructor
  · intro h j hj hv
    by_contra hp
    have hp' : TOTAL_BLOCKS ≤ (img.inodes j).direct_block_pointer := by
      have : ¬ (img.inodes j).direct_block_pointer < 64 := hp
      show 64 ≤ _
      omega
    rw [checkDuplicateBlocks_undefined sb1 img (by decide) j hj hv hp'] at h
    cases h
  · intro hpb
    obtain ⟨t, _, hrun⟩ := checkDuplicateBlocks_run sb1 img (by decide) hpb
    rw [hrun]
    rfl

/-! ## Duplicate-block repair with the words that follow `block_counts` -/

theorem FlatRun.flat_valid_eq {sb : Superblock} {ino : Nat → Inode} {bm0 : Nat → Nat} {m : Nat}
    {s : DupTrace} (h : FlatRun sb ino bm0 m s) (j : Nat) :
    (s.state.inodes j).valid = (ino j).valid := by
  have := congrArg Inode.valid (h.frame j)
  exact this

set_option maxRecDepth 100000 in
/-- A run that indexes past `block_counts`: inodes 0 and 1 are live with direct
pointer 10, inode 2 is live with direct pointer 69 and only bit 10 is set.  When
the word that index 69 reaches holds 0, inode 2 keeps 69; when it holds 2, inode 2
is moved to block 9.  Inode 0 is moved to block 8 in both runs. -/
theorem checkDuplicateBlocksFlat_past_array :
    (checkDuplicateBlocksFlat (fun _ => 0) sb1 (imageOf [10, 10, 69] [0, 0x20])).2
      = [{ inode := 0, block := 10, new_block := 8 }] ∧
    (checkDuplicateBlocksFlat (fun _ => 2) sb1 (imageOf [10, 10, 69] [0, 0x20])).2
      = [{ inode := 0, block := 10, new_block := 8 },
         { inode := 2, block := 69, new_block := 9 }] ∧
    ((checkDuplicateBlocksFlat (fun _ => 2) sb1
      (imageOf [10, 10, 69] [0, 0x20])).1.image.inodes 2).direct_block_pointer = 9 ∧
    checkDuplicateBlocks sb1 (imageOf [10, 10, 69] [0, 0x20]) = none :=
  ⟨by decide, by decide, by decide, Option.isNone_iff_eq_none.mp (by decide)⟩

end FileConsistencyChecker
